import Mathlib

/-! Node B controller: shallow embedding of `controller_kernel.c`.

The C translation unit is embedded as pure functions over explicit state.

* `s64`, `int`, `s16` values are `Int`, `u16`/`u8`/`u32` values are `Nat`; every
  operation that can leave its machine type is followed by the explicit
  two's-complement wrap of that type (kernel code is built with
  `-fno-strict-overflow`, so signed arithmetic wraps).
* A division whose result is not defined by the machine (zero divisor, or
  `INT64_MIN / -1`) makes the enclosing function return `none`.
* The two `hrtimer`s are represented by their `hrtimer_active` flag.
-/

namespace NodeB

/-! ## Machine integers -/

/-- Two's-complement reduction to `s64`. -/
def wrap_s64 (x : Int) : Int := (x + 9223372036854775808) % 18446744073709551616 - 9223372036854775808

/-- Two's-complement reduction to `int` (32 bit). -/
def wrap_s32 (x : Int) : Int := (x + 2147483648) % 4294967296 - 2147483648

/-- Two's-complement reduction to `s16`. -/
def wrap_s16 (x : Int) : Int := (x + 32768) % 65536 - 32768

/-- Conversion of a signed value to `u16`. -/
def wrap_u16 (x : Int) : Nat := (x % 65536).toNat

/-- Range of the type `s64`. -/
def s64_ok (x : Int) : Prop := -9223372036854775808 ≤ x ∧ x ≤ 9223372036854775807

instance (x : Int) : Decidable (s64_ok x) := by unfold s64_ok; infer_instance

/-- Range of the type `int`. -/
def s32_ok (x : Int) : Prop := -2147483648 ≤ x ∧ x ≤ 2147483647

instance (x : Int) : Decidable (s32_ok x) := by unfold s32_ok; infer_instance

/-! ## Q16.16 fixed-point helpers -/

/-- `#define Q_ONE ((q16_16)1 << 16)`. -/
def Q_ONE : Int := 65536

/-- `#define Q_FROM_INT(x) ((q16_16)(x) << 16)`. -/
def Q_FROM_INT (x : Int) : Int := wrap_s64 (x * 65536)

/-- `#define Q_TO_INT(x) ((int)((x) >> 16))`: arithmetic shift (floor division by
`2^16`), then narrowing to `int`. -/
def Q_TO_INT (x : Int) : Int := wrap_s32 (x / 65536)

/-- `#define Q_MUL(a,b) ((q16_16)(((s64)(a) * (s64)(b)) >> 16))`. -/
def Q_MUL (a b : Int) : Int := wrap_s64 (a * b) / 65536

/-- `#define Q_DIV(a,b) ((q16_16)(((s64)(a) << 16) / (s64)(b)))`: C division
truncates toward zero; a zero divisor and `INT64_MIN / -1` have no result. -/
def Q_DIV (a b : Int) : Option Int :=
  if b = 0 then none
  else if wrap_s64 (a * 65536) = -9223372036854775808 ∧ b = -1 then none
  else some (Int.tdiv (wrap_s64 (a * 65536)) b)

/-- `q_sat(x, lo, hi)`: `x < lo ? lo : (x > hi ? hi : x)`. -/
def q_sat (x lo hi : Int) : Int := if x < lo then lo else (if x > hi then hi else x)

/-- `le_to_s16(d)`: `(s16)((u16)d[0] | ((u16)d[1] << 8))`. -/
def le_to_s16 (d0 d1 : Nat) : Int := wrap_s16 (((d0 ||| (d1 <<< 8)) % 65536 : Nat) : Int)

/-- `le_to_u16(d)`: `(u16)d[0] | ((u16)d[1] << 8)`, as stored in a `u16`. -/
def le_to_u16 (d0 d1 : Nat) : Nat := (d0 ||| (d1 <<< 8)) % 65536

/-- `u16_to_le(dst, v)`: the two bytes `(u8)(v & 0xFF)`, `(u8)(v >> 8)`. -/
def u16_to_le (v : Nat) : Nat × Nat := ((v &&& 0xFF) % 256, (v >>> 8) % 256)

/-- `q_from_q01_temp(t_q01)`: `(q16_16)(((s64)t_q01 * (s64)Q_ONE) / 10)`. -/
def q_from_q01_temp (t_q01 : Int) : Int := Int.tdiv (wrap_s64 (t_q01 * Q_ONE)) 10

/-! ## Controller configuration, state and node context -/

/-- `struct ctrl_cfg`. -/
structure ctrl_cfg where
  Ts_sp : Int
  KpT : Int
  KiT : Int
  KdT : Int
  Kpm : Int
  Kim : Int
  kawT : Int
  kawm : Int
  kvw : Int
  kwv : Int
  omega0_rpm : Nat
  v0_rpm : Nat
  omega_max_rpm : Nat
  v_max_rpm : Nat
  v_cut_rpm : Nat
  tau_d_min_s : Int
  deriving DecidableEq, Repr

/-- `struct ctrl_state`. -/
structure ctrl_state where
  eta_T : Int
  eta_m : Int
  dTh_f : Int
  tau_d : Int
  deriving DecidableEq, Repr

/-- `struct can_frame`: identifier, payload length and the eight data bytes. -/
structure can_frame where
  can_id : Nat
  len : Nat
  data : List Nat
  deriving DecidableEq, Repr

/-- `struct nodeb_ctx`, restricted to the fields the logic reads or writes.
`tx_timer_active` and `rx_guard_active` stand for `hrtimer_active` of the two
timers, `rx_fifo` for the kfifo contents (head first). -/
structure nodeb_ctx where
  seq : Nat
  tx_timer_active : Bool
  rx_guard_active : Bool
  rx_fifo : List can_frame
  state : Int
  cfg : ctrl_cfg
  st : ctrl_state
  Ts : Int
  Th : Int
  Tc : Int
  v_prev_rpm : Nat
  dt_ms : Nat
  have_feedback : Bool
  omega_cmd_rpm : Nat
  v_cmd_rpm : Nat
  deriving DecidableEq, Repr

/-- Every field of a configuration lies in the range of its C type. -/
def ctrl_cfg.wf (c : ctrl_cfg) : Prop :=
  s64_ok c.Ts_sp ∧ s64_ok c.KpT ∧ s64_ok c.KiT ∧ s64_ok c.KdT ∧ s64_ok c.Kpm ∧ s64_ok c.Kim ∧
  s64_ok c.kawT ∧ s64_ok c.kawm ∧ s64_ok c.kvw ∧ s64_ok c.kwv ∧
  c.omega0_rpm < 65536 ∧ c.v0_rpm < 65536 ∧ c.omega_max_rpm < 65536 ∧ c.v_max_rpm < 65536 ∧
  c.v_cut_rpm < 65536 ∧ s64_ok c.tau_d_min_s

instance (c : ctrl_cfg) : Decidable c.wf := by unfold ctrl_cfg.wf; infer_instance

/-- Every field of a controller state lies in the range of `s64`. -/
def ctrl_state.wf (s : ctrl_state) : Prop :=
  s64_ok s.eta_T ∧ s64_ok s.eta_m ∧ s64_ok s.dTh_f ∧ s64_ok s.tau_d

instance (s : ctrl_state) : Decidable s.wf := by unfold ctrl_state.wf; infer_instance

/-- A frame as the bus delivers it: 32-bit identifier, `u8` length, eight `u8`
data bytes. -/
def can_frame.wf (f : can_frame) : Prop :=
  f.can_id < 4294967296 ∧ f.len < 256 ∧ f.data.length = 8 ∧ ∀ b ∈ f.data, b < 256

instance (f : can_frame) : Decidable f.wf := by unfold can_frame.wf; infer_instance

/-- Every field of a context lies in the range of its C type and the kfifo holds
at most `RX_FIFO_ELEMS` frames. -/
def nodeb_ctx.wf (g : nodeb_ctx) : Prop :=
  g.seq < 256 ∧ g.rx_fifo.length ≤ 128 ∧ (∀ f ∈ g.rx_fifo, f.wf) ∧ s32_ok g.state ∧
  g.cfg.wf ∧ g.st.wf ∧ s64_ok g.Ts ∧ s64_ok g.Th ∧ s64_ok g.Tc ∧
  g.v_prev_rpm < 65536 ∧ g.dt_ms < 256 ∧ g.omega_cmd_rpm < 65536 ∧ g.v_cmd_rpm < 65536

instance (g : nodeb_ctx) : Decidable g.wf := by unfold nodeb_ctx.wf; infer_instance

/-! ## Defaults -/

/-- `ctrl_defaults(ctx)`: overwrites every field of `ctx->cfg`. -/
def ctrl_defaults (ctx : nodeb_ctx) : nodeb_ctx :=
  { ctx with cfg :=
    { Ts_sp := Q_FROM_INT 25
      KpT := wrap_s64 (Q_FROM_INT 100 + wrap_s64 (Int.tdiv Q_ONE 5 + Int.tdiv Q_ONE 10))
      KiT := Int.tdiv Q_ONE 10
      KdT := Q_FROM_INT 4
      Kpm := Q_FROM_INT 130
      Kim := Int.tdiv Q_ONE 100
      kawT := Q_FROM_INT 5
      kawm := Q_FROM_INT 10
      kvw := wrap_s64 (-(wrap_s64 (Int.tdiv Q_ONE 6 + Int.tdiv Q_ONE 30)))
      kwv := wrap_s64 (-(Int.tdiv Q_ONE 50))
      omega0_rpm := 100
      v0_rpm := 100
      omega_max_rpm := 4000
      v_max_rpm := 2800
      v_cut_rpm := 700
      tau_d_min_s := Int.tdiv Q_ONE 1000 } }

/-! ## Controller core -/

/-- `controller_step(ctx)`. The local names are the ones of the C body; a
variable that is reassigned is rebound. -/
def controller_step (ctx : nodeb_ctx) : Option nodeb_ctx :=
  if !ctx.have_feedback || ctx.dt_ms == 0 then
    some { ctx with omega_cmd_rpm := 0, v_cmd_rpm := 0 }
  else do
    let dt ← Q_DIV (Q_FROM_INT ctx.dt_ms) (Q_FROM_INT 1000)
    -- flow loop (pump)
    let e_m := wrap_s64 (ctx.cfg.Ts_sp - ctx.Ts)
    let omega0_q := Q_FROM_INT ctx.cfg.omega0_rpm
    let omega_raw_q := wrap_s64 (-(wrap_s64 (wrap_s64 (omega0_q + Q_MUL ctx.cfg.Kpm e_m)
      + Q_MUL ctx.cfg.Kim ctx.st.eta_m)))
    let v_prev_q := Q_FROM_INT ctx.v_prev_rpm
    let v_ff_q := Q_FROM_INT ctx.cfg.v0_rpm
    let omega_cmd_q := wrap_s64 (omega_raw_q + Q_MUL ctx.cfg.kwv (wrap_s64 (v_prev_q - v_ff_q)))
    let omega_cmd_i := Q_TO_INT omega_cmd_q
    let omega_cmd_i := if omega_cmd_i < 0 then 0 else omega_cmd_i
    let omega_cmd_i := if omega_cmd_i > (ctx.cfg.omega_max_rpm : Int)
      then (ctx.cfg.omega_max_rpm : Int) else omega_cmd_i
    let omega_cmd_q16 := Q_FROM_INT omega_cmd_i
    let omega_err_q := wrap_s64 (omega_cmd_q16 - omega_raw_q)
    let eta_m := wrap_s64 (ctx.st.eta_m
      + Q_MUL (wrap_s64 (e_m + Q_MUL ctx.cfg.kawm omega_err_q)) dt)
    let eta_m := q_sat eta_m (Q_FROM_INT (-200)) (Q_FROM_INT 200)
    -- temperature loop (fan)
    let e_T := wrap_s64 (ctx.cfg.Ts_sp - ctx.Ts)
    let tau_d := if ctx.st.tau_d < ctx.cfg.tau_d_min_s then ctx.cfg.tau_d_min_s else ctx.st.tau_d
    let Th_minus := wrap_s64 (ctx.Th - ctx.st.dTh_f)
    let term1 ← Q_DIV Th_minus dt
    let term2 ← Q_DIV ctx.st.dTh_f tau_d
    let dTh_f := wrap_s64 (ctx.st.dTh_f + Q_MUL (wrap_s64 (term1 - term2)) dt)
    let v0_q := Q_FROM_INT ctx.cfg.v0_rpm
    let v_raw_q := wrap_s64 (-(wrap_s64 (wrap_s64 (wrap_s64 (v0_q + Q_MUL ctx.cfg.KpT e_T)
      + Q_MUL ctx.cfg.KiT ctx.st.eta_T) - Q_MUL ctx.cfg.KdT dTh_f)))
    let omega_ff_q := Q_FROM_INT ctx.cfg.omega0_rpm
    let v_cmd_q := wrap_s64 (v_raw_q + Q_MUL ctx.cfg.kvw (wrap_s64 (omega_cmd_q16 - omega_ff_q)))
    let v_cmd_i := Q_TO_INT v_cmd_q
    let v_cmd_i := if v_cmd_i < 0 then 0 else v_cmd_i
    let v_cmd_i := if v_cmd_i > (ctx.cfg.v_max_rpm : Int) then (ctx.cfg.v_max_rpm : Int) else v_cmd_i
    let v_cmd_i := if v_cmd_i < (ctx.cfg.v_cut_rpm : Int) then 0 else v_cmd_i
    let v_cmd_q16 := Q_FROM_INT v_cmd_i
    let v_err_q := wrap_s64 (v_cmd_q16 - v_raw_q)
    let eta_T := wrap_s64 (ctx.st.eta_T
      + Q_MUL (wrap_s64 (e_T + Q_MUL ctx.cfg.kawT v_err_q)) dt)
    let eta_T := q_sat eta_T (Q_FROM_INT (-500)) (Q_FROM_INT 500)
    some { ctx with
      st := { eta_T := eta_T, eta_m := eta_m, dTh_f := dTh_f, tau_d := tau_d }
      omega_cmd_rpm := wrap_u16 omega_cmd_i
      v_cmd_rpm := wrap_u16 v_cmd_i }

/-! ## RX bottom half -/

/-- `CAN_SFF_MASK` of `linux/can.h`. -/
def CAN_SFF_MASK : Nat := 0x7FF

/-- `RX_FIFO_ELEMS`. -/
def RX_FIFO_ELEMS : Nat := 128

/-- Byte `i` of the payload, `cf.data[i]`. -/
def can_frame.byte (cf : can_frame) (i : Nat) : Nat := cf.data.getD i 0

/-- The feedback store of `case 0x202` (also the body of
`nodeb_test_inject_0x202` before its call of `controller_step`). -/
def store_feedback (g : nodeb_ctx) (Ts_q01 Th_q01 Tc_q01 : Int) (vprev_q10 dt_ms : Nat) : nodeb_ctx :=
  { g with
    Ts := q_from_q01_temp Ts_q01
    Th := q_from_q01_temp Th_q01
    Tc := q_from_q01_temp Tc_q01
    v_prev_rpm := (vprev_q10 * 10) % 65536
    dt_ms := dt_ms
    have_feedback := true }

/-- The body of the `switch` in `nodeb_rx_work`, for one dequeued frame. -/
def nodeb_rx_dispatch (g : nodeb_ctx) (cf : can_frame) : Option nodeb_ctx :=
  let id := cf.can_id &&& CAN_SFF_MASK
  if id = 0x101 then
    some { g with state := 1 }
  else if id = 0x202 then
    if cf.len = 8 then do
      let Ts_q01 := le_to_s16 (cf.byte 0) (cf.byte 1)
      let Th_q01 := le_to_s16 (cf.byte 2) (cf.byte 3)
      let Tc_q01 := le_to_s16 (cf.byte 4) (cf.byte 5)
      let vprev_q10 := cf.byte 6
      let dt_ms := if cf.byte 7 ≠ 0 then cf.byte 7 else 1
      let g ← controller_step (store_feedback g Ts_q01 Th_q01 Tc_q01 vprev_q10 dt_ms)
      let g := if !g.tx_timer_active then { g with tx_timer_active := true } else g
      let g := { g with rx_guard_active := true }
      some { g with state := 2 }
    else
      some { g with state := 2 }
  else if id = 0x301 then
    if cf.len ≥ 2 then
      let Ts_sp_q01 := le_to_s16 (cf.byte 0) (cf.byte 1)
      some { g with cfg := { g.cfg with Ts_sp := q_from_q01_temp Ts_sp_q01 } }
    else some g
  else if id = 0x300 then
    if cf.len ≥ 7 then
      let kp := le_to_u16 (cf.byte 0) (cf.byte 1)
      let ki := le_to_u16 (cf.byte 2) (cf.byte 3)
      let kd := le_to_u16 (cf.byte 4) (cf.byte 5)
      let kaw := cf.byte 6
      some { g with cfg := { g.cfg with
        KpT := wrap_s64 ((kp : Int) * 256)
        KiT := wrap_s64 ((ki : Int) * 256)
        KdT := wrap_s64 ((kd : Int) * 256)
        kawT := wrap_s64 ((kaw : Int) * 4096) } }
    else some g
  else if id = 0x302 then
    if cf.len ≥ 7 then
      let kpm := le_to_u16 (cf.byte 0) (cf.byte 1)
      let kim := le_to_u16 (cf.byte 2) (cf.byte 3)
      let kawm := cf.byte 4
      let kvw := cf.byte 5
      let kwv := cf.byte 6
      some { g with cfg := { g.cfg with
        Kpm := wrap_s64 ((kpm : Int) * 256)
        Kim := wrap_s64 ((kim : Int) * 256)
        kawm := wrap_s64 ((kawm : Int) * 4096)
        kvw := wrap_s64 ((kvw : Int) * 4096)
        kwv := wrap_s64 ((kwv : Int) * 4096) } }
    else some g
  else some g

/-- `nodeb_test_inject_0x202(ctx, Ts_q01, Th_q01, Tc_q01, vprev_q10, dt_ms)`. -/
def nodeb_test_inject_0x202 (ctx : nodeb_ctx) (Ts_q01 Th_q01 Tc_q01 : Int)
    (vprev_q10 dt_ms : Nat) : Option nodeb_ctx :=
  let dt_ms := if dt_ms = 0 then 1 else dt_ms
  controller_step (store_feedback ctx Ts_q01 Th_q01 Tc_q01 vprev_q10 dt_ms)

/-- One iteration of the `for (;;)` loop of `nodeb_rx_work`: `kfifo_out` of one
item, then the `switch`; `none` in the first component when the kfifo is empty
(`copied != 1`, the loop breaks). -/
def nodeb_rx_work_iter (g : nodeb_ctx) : Option (Option nodeb_ctx) :=
  match g.rx_fifo with
  | [] => none
  | item :: rest => some (nodeb_rx_dispatch { g with rx_fifo := rest } item)

/-- The loop of `nodeb_rx_work`, with an iteration budget; `nodeb_rx_work` runs
it with one iteration more than there are queued frames. The outer `none` is
an exhausted budget, the inner `none` a faulting division. -/
def nodeb_rx_work_loop : Nat → nodeb_ctx → Option (Option nodeb_ctx)
  | 0, _ => none
  | n + 1, g =>
    match nodeb_rx_work_iter g with
    | none => some (some g)
    | some none => some none
    | some (some g1) => nodeb_rx_work_loop n g1

/-- `nodeb_rx_work(work)` on the global context `g`. -/
def nodeb_rx_work (g : nodeb_ctx) : Option (Option nodeb_ctx) :=
  nodeb_rx_work_loop (g.rx_fifo.length + 1) g

/-! ## RX callback, timers, initialisation -/

/-- `nodeb_can_rx_cb(skb, data)` for an skb that carries the frame `it`: the
frame is appended unless the kfifo is full. -/
def nodeb_can_rx_cb (ctx : nodeb_ctx) (it : can_frame) : nodeb_ctx :=
  if ¬ (ctx.rx_fifo.length ≥ RX_FIFO_ELEMS) then { ctx with rx_fifo := ctx.rx_fifo ++ [it] }
  else ctx

/-- `nodeb_tx_timer_fn(t)`: the frame handed to `kernel_sendmsg` and the context
afterwards; `send_ok` is `ret >= 0`. The callback returns `HRTIMER_RESTART`. -/
def nodeb_tx_timer_fn (g : nodeb_ctx) (send_ok : Bool) : can_frame × nodeb_ctx :=
  let cf : can_frame :=
    { can_id := 0x201
      len := 8
      data := [(u16_to_le g.omega_cmd_rpm).1, (u16_to_le g.omega_cmd_rpm).2,
               (u16_to_le g.v_cmd_rpm).1, (u16_to_le g.v_cmd_rpm).2, 0, 0, 0, 0] }
  let g := if send_ok then { g with seq := (g.seq + 1) % 256 } else g
  (cf, { g with tx_timer_active := true })

/-- `nodeb_rx_guard_fn(t)`: cancels the TX timer when it is active and returns
`HRTIMER_NORESTART`. -/
def nodeb_rx_guard_fn (g : nodeb_ctx) : nodeb_ctx :=
  let g := if g.tx_timer_active then { g with tx_timer_active := false } else g
  { g with rx_guard_active := false }

/-- The context right after `kzalloc`: all fields zero. -/
def nodeb_ctx_zero : nodeb_ctx :=
  { seq := 0, tx_timer_active := false, rx_guard_active := false, rx_fifo := [], state := 0
    cfg := { Ts_sp := 0, KpT := 0, KiT := 0, KdT := 0, Kpm := 0, Kim := 0, kawT := 0, kawm := 0
             kvw := 0, kwv := 0, omega0_rpm := 0, v0_rpm := 0, omega_max_rpm := 0
             v_max_rpm := 0, v_cut_rpm := 0, tau_d_min_s := 0 }
    st := { eta_T := 0, eta_m := 0, dTh_f := 0, tau_d := 0 }
    Ts := 0, Th := 0, Tc := 0, v_prev_rpm := 0, dt_ms := 0, have_feedback := false
    omega_cmd_rpm := 0, v_cmd_rpm := 0 }

/-- `nodeb_alloc_ctx_for_test()` on a successful allocation. -/
def nodeb_alloc_ctx_for_test : nodeb_ctx :=
  let ctx := { nodeb_ctx_zero with rx_fifo := [] }
  let ctx := ctrl_defaults ctx
  let ctx := { ctx with st := { eta_T := 0, eta_m := 0, dTh_f := 0, tau_d := Q_FROM_INT 1 } }
  { ctx with omega_cmd_rpm := 0, v_cmd_rpm := 0, have_feedback := false }

/-- `nodeb_init()` on its success path: the global context `g` it leaves. Both
timers are initialised and not started. -/
def nodeb_init : nodeb_ctx :=
  let g := ctrl_defaults nodeb_ctx_zero
  let g := { g with st := { eta_T := 0, eta_m := 0, dTh_f := 0, tau_d := Q_FROM_INT 1 } }
  let g := { g with omega_cmd_rpm := 0, v_cmd_rpm := 0, have_feedback := false }
  let g := { g with rx_fifo := [] }
  { g with seq := 0, tx_timer_active := false, rx_guard_active := false }

/-- States of the node reachable after `nodeb_init` by bus frames arriving at the
RX callback, iterations of the worker loop, TX timer expiries (with either send
outcome) and expiries of the inactivity guard. A timer only expires while it is
active. -/
inductive Reachable : nodeb_ctx → Prop
  | init : Reachable nodeb_init
  | rx (g : nodeb_ctx) (cf : can_frame) : Reachable g → cf.wf → Reachable (nodeb_can_rx_cb g cf)
  | work (g g1 : nodeb_ctx) : Reachable g → nodeb_rx_work_iter g = some (some g1) → Reachable g1
  | tx_tick (g : nodeb_ctx) (send_ok : Bool) : Reachable g → g.tx_timer_active = true →
      Reachable (nodeb_tx_timer_fn g send_ok).2
  | guard (g : nodeb_ctx) : Reachable g → g.rx_guard_active = true →
      Reachable (nodeb_rx_guard_fn g)

/-! ## Named intermediate values of `controller_step`

Each function below is one local variable of the C body as a function of the
entry context (and of the quotients computed before it); `controller_step_eq`
shows that `controller_step` is their composition. -/

/-- The error `e_m` (and `e_T`, the same expression): `Ts_sp - Ts`. -/
def step_e (c : nodeb_ctx) : Int := wrap_s64 (c.cfg.Ts_sp - c.Ts)

/-- The local `omega_raw_q`. -/
def step_omega_raw_q (c : nodeb_ctx) : Int :=
  wrap_s64 (-(wrap_s64 (wrap_s64 (Q_FROM_INT c.cfg.omega0_rpm + Q_MUL c.cfg.Kpm (step_e c))
    + Q_MUL c.cfg.Kim c.st.eta_m)))

/-- The local `omega_cmd_q`. -/
def step_omega_cmd_q (c : nodeb_ctx) : Int :=
  wrap_s64 (step_omega_raw_q c
    + Q_MUL c.cfg.kwv (wrap_s64 (Q_FROM_INT c.v_prev_rpm - Q_FROM_INT c.cfg.v0_rpm)))

/-- The two clamps applied to an `int` command: floor at 0, then ceiling. -/
def clamp_cmd (x : Int) (max_rpm : Nat) : Int :=
  let x := if x < 0 then 0 else x
  if x > (max_rpm : Int) then (max_rpm : Int) else x

/-- The local `omega_cmd_i` after both clamps. -/
def step_omega_cmd_i (c : nodeb_ctx) : Int :=
  clamp_cmd (Q_TO_INT (step_omega_cmd_q c)) c.cfg.omega_max_rpm

/-- The field `st.eta_m` after the flow loop. -/
def step_eta_m (c : nodeb_ctx) (dt : Int) : Int :=
  q_sat (wrap_s64 (c.st.eta_m + Q_MUL (wrap_s64 (step_e c
    + Q_MUL c.cfg.kawm (wrap_s64 (Q_FROM_INT (step_omega_cmd_i c) - step_omega_raw_q c)))) dt))
    (Q_FROM_INT (-200)) (Q_FROM_INT 200)

/-- The field `st.tau_d` after the floor at `tau_d_min_s`. -/
def step_tau_d (c : nodeb_ctx) : Int :=
  if c.st.tau_d < c.cfg.tau_d_min_s then c.cfg.tau_d_min_s else c.st.tau_d

/-- The field `st.dTh_f` after the filter update. -/
def step_dTh_f (c : nodeb_ctx) (dt term1 term2 : Int) : Int :=
  wrap_s64 (c.st.dTh_f + Q_MUL (wrap_s64 (term1 - term2)) dt)

/-- The local `v_raw_q`, from the updated filter state. -/
def step_v_raw_q (c : nodeb_ctx) (dTh_f : Int) : Int :=
  wrap_s64 (-(wrap_s64 (wrap_s64 (wrap_s64 (Q_FROM_INT c.cfg.v0_rpm + Q_MUL c.cfg.KpT (step_e c))
    + Q_MUL c.cfg.KiT c.st.eta_T) - Q_MUL c.cfg.KdT dTh_f)))

/-- The local `v_cmd_q`. -/
def step_v_cmd_q (c : nodeb_ctx) (dTh_f : Int) : Int :=
  wrap_s64 (step_v_raw_q c dTh_f
    + Q_MUL c.cfg.kvw (wrap_s64 (Q_FROM_INT (step_omega_cmd_i c) - Q_FROM_INT c.cfg.omega0_rpm)))

/-- The cut-in rule applied to a clamped fan command. -/
def cut_in (x : Int) (cut_rpm : Nat) : Int := if x < (cut_rpm : Int) then 0 else x

/-- The local `v_cmd_i` after the clamps and the cut-in rule. -/
def step_v_cmd_i (c : nodeb_ctx) (dTh_f : Int) : Int :=
  cut_in (clamp_cmd (Q_TO_INT (step_v_cmd_q c dTh_f)) c.cfg.v_max_rpm) c.cfg.v_cut_rpm

/-- The field `st.eta_T` after the temperature loop. -/
def step_eta_T (c : nodeb_ctx) (dt dTh_f : Int) : Int :=
  q_sat (wrap_s64 (c.st.eta_T + Q_MUL (wrap_s64 (step_e c
    + Q_MUL c.cfg.kawT (wrap_s64 (Q_FROM_INT (step_v_cmd_i c dTh_f) - step_v_raw_q c dTh_f)))) dt))
    (Q_FROM_INT (-500)) (Q_FROM_INT 500)

/-- The context written by the non-idle path, given `dt` and the two quotients. -/
def step_result (c : nodeb_ctx) (dt term1 term2 : Int) : nodeb_ctx :=
  { c with
    st := { eta_T := step_eta_T c dt (step_dTh_f c dt term1 term2)
            eta_m := step_eta_m c dt
            dTh_f := step_dTh_f c dt term1 term2
            tau_d := step_tau_d c }
    omega_cmd_rpm := wrap_u16 (step_omega_cmd_i c)
    v_cmd_rpm := wrap_u16 (step_v_cmd_i c (step_dTh_f c dt term1 term2)) }

/-- The value of `dt` for a sample interval of `dt_ms` milliseconds. -/
def step_dt (dt_ms : Nat) : Int := (dt_ms : Int) * 65536 / 1000

/-- The non-idle path is taken: a feedback sample is stored and `dt_ms` is not 0. -/
def nonidle (c : nodeb_ctx) : Prop := c.have_feedback = true ∧ c.dt_ms ≠ 0

instance (c : nodeb_ctx) : Decidable (nonidle c) := by unfold nonidle; infer_instance

/-- The context on which `case 0x202` calls `controller_step` for the frame `cf`. -/
def feedback_ctx (g : nodeb_ctx) (cf : can_frame) : nodeb_ctx :=
  store_feedback g (le_to_s16 (cf.byte 0) (cf.byte 1)) (le_to_s16 (cf.byte 2) (cf.byte 3))
    (le_to_s16 (cf.byte 4) (cf.byte 5)) (cf.byte 6) (if cf.byte 7 ≠ 0 then cf.byte 7 else 1)

/-- The signed 16-bit value whose little-endian bytes are `lo`, `hi`. -/
def s16_of_le (lo hi : Nat) : Int :=
  if lo + 256 * hi < 32768 then ((lo + 256 * hi : Nat) : Int) else ((lo + 256 * hi : Nat) : Int) - 65536

/-- The unsigned 16-bit value whose little-endian bytes are `lo`, `hi`. -/
def u16_of_le (lo hi : Nat) : Nat := lo + 256 * hi

/-- The integrator clamps: `eta_m` within 200 and `eta_T` within 500 (Q16.16). -/
def eta_bounded (s : ctrl_state) : Prop :=
  -200 * 65536 ≤ s.eta_m ∧ s.eta_m ≤ 200 * 65536 ∧ -500 * 65536 ≤ s.eta_T ∧ s.eta_T ≤ 500 * 65536

instance (s : ctrl_state) : Decidable (eta_bounded s) := by unfold eta_bounded; infer_instance

/-- A Feedback frame: Ts = 20.0, Th = 25.0, Tc = 22.5, v_prev = 1200 rpm, dt = 10 ms. -/
def frame_A : can_frame := { can_id := 0x202, len := 8, data := [200, 0, 250, 0, 225, 0, 120, 10] }

/-- A Feedback frame with Ts = 100.0 and dt byte 0. -/
def frame_hot : can_frame := { can_id := 0x202, len := 8, data := [232, 3, 250, 0, 225, 0, 120, 0] }

/-- The initial context with the sample of `frame_A` stored. -/
def ctx_A : nodeb_ctx := feedback_ctx nodeb_init frame_A

/-- The initial context with the sample of `frame_hot` stored. -/
def ctx_hot : nodeb_ctx := feedback_ctx nodeb_init frame_hot

/-- A context holding a sample and a non-zero command, with `dt_ms` 0. -/
def ctx_stale : nodeb_ctx := { ctx_hot with dt_ms := 0, omega_cmd_rpm := 4000, v_cmd_rpm := 2800 }

/-- The fields no branch of the `switch` other than a valid Feedback frame
writes: everything but the gains, the setpoint and `state`. -/
def same_outside_cfg (g g1 : nodeb_ctx) : Prop :=
  g1.st = g.st ∧ g1.Ts = g.Ts ∧ g1.Th = g.Th ∧
    g1.Tc = g.Tc ∧ g1.v_prev_rpm = g.v_prev_rpm ∧ g1.dt_ms = g.dt_ms ∧
    g1.have_feedback = g.have_feedback ∧ g1.omega_cmd_rpm = g.omega_cmd_rpm ∧
    g1.v_cmd_rpm = g.v_cmd_rpm ∧ g1.seq = g.seq ∧ g1.rx_fifo = g.rx_fifo ∧
    g1.tx_timer_active = g.tx_timer_active ∧ g1.rx_guard_active = g.rx_guard_active ∧
    g1.cfg.tau_d_min_s = g.cfg.tau_d_min_s ∧ g1.cfg.omega0_rpm = g.cfg.omega0_rpm ∧
    g1.cfg.v0_rpm = g.cfg.v0_rpm ∧ g1.cfg.omega_max_rpm = g.cfg.omega_max_rpm ∧
    g1.cfg.v_max_rpm = g.cfg.v_max_rpm ∧ g1.cfg.v_cut_rpm = g.cfg.v_cut_rpm

/-- The frame `frame_A` with its length field set to 7. -/
def frame_A_short : can_frame := { frame_A with len := 7 }

/-- A TemperatureGains frame: KpT = 2.5, KiT = 0.125, KdT = 1.0, kawT = 3.0. -/
def frame_tgains : can_frame := { can_id := 0x300, len := 7, data := [128, 2, 32, 0, 0, 1, 48, 0] }

/-- A frame with an identifier the node does not know. -/
def frame_unknown : can_frame := { can_id := 0x123, len := 8, data := [1, 2, 3, 4, 5, 6, 7, 8] }

/-- What every reachable state satisfies as far as the divisors of
`controller_step` are concerned: the floor `tau_d_min_s` is the default one and
the queued frames are well-formed. -/
def node_inv (g : nodeb_ctx) : Prop := g.cfg.tau_d_min_s = 65 ∧ ∀ f ∈ g.rx_fifo, f.wf

/-- A FlowGains frame: Kpm = 1.5, Kim = 0.25, kawm = 2.0, kvw = 0.5, kwv = 0.25. -/
def frame_fgains : can_frame := { can_id := 0x302, len := 7, data := [128, 1, 64, 0, 32, 8, 4, 0] }

/-- A Setpoint frame: Ts_sp = -12.3 (raw -123). -/
def frame_setpoint : can_frame := { can_id := 0x301, len := 2, data := [133, 255, 0, 0, 0, 0, 0, 0] }

/-- An Enable frame without payload. -/
def frame_enable : can_frame := { can_id := 0x101, len := 0, data := [0, 0, 0, 0, 0, 0, 0, 0] }

/-- The command decode of the plant (`plant_user.c`, `main`): a frame with
identifier 0x201 and at least four bytes gives
`om = data[0] | (data[1] << 8)`, `vc = data[2] | (data[3] << 8)` as `uint16_t`. -/
def plant_rx_cmd (f : can_frame) : Option (Nat × Nat) :=
  if f.can_id &&& CAN_SFF_MASK = 0x201 ∧ f.len ≥ 4 then
    some ((f.byte 0 ||| (f.byte 1 <<< 8)) % 65536, (f.byte 2 ||| (f.byte 3 <<< 8)) % 65536)
  else none

/-- The frames of a list dispatched one after the other, first frame first. -/
def nodeb_rx_dispatch_all (g : nodeb_ctx) : List can_frame → Option nodeb_ctx
  | [] => some g
  | cf :: rest => (nodeb_rx_dispatch g cf).bind fun g1 => nodeb_rx_dispatch_all g1 rest

/-- The configurations the node can hold: the setpoint comes from a signed
16-bit raw value (or is the default), each gain is its default or an unsigned
wire value, and the fields no message writes are the defaults. -/
def cfg_ranges (c : ctrl_cfg) : Prop :=
  (-214748364 ≤ c.Ts_sp ∧ c.Ts_sp ≤ 214748364) ∧
  (0 ≤ c.KpT ∧ c.KpT ≤ 16776960) ∧ (0 ≤ c.KiT ∧ c.KiT ≤ 16776960) ∧
  (0 ≤ c.KdT ∧ c.KdT ≤ 16776960) ∧ (0 ≤ c.Kpm ∧ c.Kpm ≤ 16776960) ∧
  (0 ≤ c.Kim ∧ c.Kim ≤ 16776960) ∧ (0 ≤ c.kawT ∧ c.kawT ≤ 1044480) ∧
  (0 ≤ c.kawm ∧ c.kawm ≤ 1044480) ∧ (-13106 ≤ c.kvw ∧ c.kvw ≤ 1044480) ∧
  (-1310 ≤ c.kwv ∧ c.kwv ≤ 1044480) ∧
  c.omega0_rpm = 100 ∧ c.v0_rpm = 100 ∧ c.omega_max_rpm = 4000 ∧ c.v_max_rpm = 2800 ∧
  c.v_cut_rpm = 700 ∧ c.tau_d_min_s = 65

/-- What `controller_step` relies on in a context of the running node: a
configuration in `cfg_ranges`, clamped integrators, a bounded filter state, the
initial `tau_d`, temperatures from signed 16-bit raw values, `v_prev_rpm` and
`dt_ms` from bytes. -/
def step_ranges (c : nodeb_ctx) : Prop :=
  cfg_ranges c.cfg ∧ eta_bounded c.st ∧ (-300000000 ≤ c.st.dTh_f ∧ c.st.dTh_f ≤ 300000000) ∧
  c.st.tau_d = 65536 ∧ (-214748364 ≤ c.Ts ∧ c.Ts ≤ 214748364) ∧
  (-214748364 ≤ c.Th ∧ c.Th ≤ 214748364) ∧ c.v_prev_rpm ≤ 2550 ∧ c.dt_ms ≤ 255

/-- The invariant of the running node. -/
def node_ranges (g : nodeb_ctx) : Prop :=
  step_ranges g ∧ (-214748364 ≤ g.Tc ∧ g.Tc ≤ 214748364) ∧
  (g.have_feedback = true → g.dt_ms ≠ 0) ∧ g.omega_cmd_rpm ≤ 4000 ∧ g.v_cmd_rpm ≤ 2800 ∧
  (g.tx_timer_active = true → g.have_feedback = true) ∧
  (g.rx_guard_active = true → g.have_feedback = true) ∧
  (g.state = 0 ∨ g.state = 1 ∨ g.state = 2) ∧ g.seq < 256 ∧ g.rx_fifo.length ≤ 128 ∧
  ∀ f ∈ g.rx_fifo, f.wf

/-- The quotient `term1` of `controller_step`. -/
def step_term1 (c : nodeb_ctx) : Int :=
  Int.tdiv (wrap_s64 (wrap_s64 (c.Th - c.st.dTh_f) * 65536)) (step_dt c.dt_ms)

/-- The quotient `term2` of `controller_step`. -/
def step_term2 (c : nodeb_ctx) : Int :=
  Int.tdiv (wrap_s64 (c.st.dTh_f * 65536)) (step_tau_d c)

/-- The context `controller_step` returns on the non-idle path when no division
faults. -/
def step_next (c : nodeb_ctx) : nodeb_ctx :=
  step_result c (step_dt c.dt_ms) (step_term1 c) (step_term2 c)

/-- The local `omega_err_q` of `controller_step`. -/
def step_omega_err_q (c : nodeb_ctx) : Int :=
  wrap_s64 (Q_FROM_INT (step_omega_cmd_i c) - step_omega_raw_q c)

/-- The operand `e_m + Q_MUL(kawm, omega_err_q)` of the `eta_m` update. -/
def step_aw_m (c : nodeb_ctx) : Int :=
  wrap_s64 (step_e c + Q_MUL c.cfg.kawm (step_omega_err_q c))

/-- The operand `v_prev_q - v_ff_q` of the pump decoupling term. -/
def step_v_diff_q (c : nodeb_ctx) : Int :=
  wrap_s64 (Q_FROM_INT c.v_prev_rpm - Q_FROM_INT c.cfg.v0_rpm)

/-- The local `v_err_q` of `controller_step`. -/
def step_v_err_q (c : nodeb_ctx) (dTh_f : Int) : Int :=
  wrap_s64 (Q_FROM_INT (step_v_cmd_i c dTh_f) - step_v_raw_q c dTh_f)

/-- The operand `e_T + Q_MUL(kawT, v_err_q)` of the `eta_T` update. -/
def step_aw_T (c : nodeb_ctx) (dTh_f : Int) : Int :=
  wrap_s64 (step_e c + Q_MUL c.cfg.kawT (step_v_err_q c dTh_f))

/-- The operand `omega_cmd_q16 - omega_ff_q` of the fan decoupling term. -/
def step_omega_diff_q (c : nodeb_ctx) : Int :=
  wrap_s64 (Q_FROM_INT (step_omega_cmd_i c) - Q_FROM_INT c.cfg.omega0_rpm)

/-- No operation of the computation of `dt` and of the flow loop leaves its
type. In the order of the C body: the shifts of `Q_FROM_INT(dt_ms)`,
`Q_FROM_INT(1000)` and of the `Q_DIV` dividend; `Ts_sp - Ts`; the shift of
`omega0_q`; the product, then the sum, of `Q_MUL(Kpm, e_m)`; the product, then
the sum, of `Q_MUL(Kim, eta_m)`; the negation; the shifts of `v_prev_q` and
`v_ff_q`, their difference, the product of `Q_MUL(kwv, .)` and the sum giving
`omega_cmd_q`; the narrowing of `Q_TO_INT`; the shift of `omega_cmd_q16`; the
difference `omega_err_q`; the product, then the sum, of `Q_MUL(kawm, .)`; the
product of the `Q_MUL` by `dt` and the sum into `eta_m`; the shifts of the two
clamp constants; the narrowing of `omega_cmd_i` to `u16`. -/
def flow_no_overflow (c : nodeb_ctx) (dt : Int) : Prop :=
  s64_ok ((c.dt_ms : Int) * 65536) ∧ s64_ok (1000 * 65536) ∧
  s64_ok (Q_FROM_INT c.dt_ms * 65536) ∧
  s64_ok (c.cfg.Ts_sp - c.Ts) ∧
  s64_ok ((c.cfg.omega0_rpm : Int) * 65536) ∧
  s64_ok (c.cfg.Kpm * step_e c) ∧
  s64_ok (Q_FROM_INT c.cfg.omega0_rpm + Q_MUL c.cfg.Kpm (step_e c)) ∧
  s64_ok (c.cfg.Kim * c.st.eta_m) ∧
  s64_ok (wrap_s64 (Q_FROM_INT c.cfg.omega0_rpm + Q_MUL c.cfg.Kpm (step_e c))
    + Q_MUL c.cfg.Kim c.st.eta_m) ∧
  s64_ok (-(wrap_s64 (wrap_s64 (Q_FROM_INT c.cfg.omega0_rpm + Q_MUL c.cfg.Kpm (step_e c))
    + Q_MUL c.cfg.Kim c.st.eta_m))) ∧
  s64_ok ((c.v_prev_rpm : Int) * 65536) ∧ s64_ok ((c.cfg.v0_rpm : Int) * 65536) ∧
  s64_ok (Q_FROM_INT c.v_prev_rpm - Q_FROM_INT c.cfg.v0_rpm) ∧
  s64_ok (c.cfg.kwv * step_v_diff_q c) ∧
  s64_ok (step_omega_raw_q c + Q_MUL c.cfg.kwv (step_v_diff_q c)) ∧
  s32_ok (step_omega_cmd_q c / 65536) ∧
  s64_ok (step_omega_cmd_i c * 65536) ∧
  s64_ok (Q_FROM_INT (step_omega_cmd_i c) - step_omega_raw_q c) ∧
  s64_ok (c.cfg.kawm * step_omega_err_q c) ∧
  s64_ok (step_e c + Q_MUL c.cfg.kawm (step_omega_err_q c)) ∧
  s64_ok (step_aw_m c * dt) ∧
  s64_ok (c.st.eta_m + Q_MUL (step_aw_m c) dt) ∧
  s64_ok (-200 * 65536) ∧ s64_ok (200 * 65536) ∧
  (0 ≤ step_omega_cmd_i c ∧ step_omega_cmd_i c ≤ 65535)

/-- No operation of the derivative filter update leaves `s64`: `Th - dTh_f`, the
shifted dividends of the two `Q_DIV`, `term1 - term2`, the product of the
`Q_MUL` by `dt` and the sum into `dTh_f`. -/
def filter_no_overflow (c : nodeb_ctx) (dt term1 term2 : Int) : Prop :=
  s64_ok (c.Th - c.st.dTh_f) ∧ s64_ok (wrap_s64 (c.Th - c.st.dTh_f) * 65536) ∧
  s64_ok (c.st.dTh_f * 65536) ∧ s64_ok (term1 - term2) ∧
  s64_ok (wrap_s64 (term1 - term2) * dt) ∧
  s64_ok (c.st.dTh_f + Q_MUL (wrap_s64 (term1 - term2)) dt)

/-- No operation of the temperature loop after the filter update leaves its
type, for the updated filter state `d`. In the order of the C body: the shift
of `v0_q`; the product, then the sum, of `Q_MUL(KpT, e_T)`; the product, then
the sum, of `Q_MUL(KiT, eta_T)`; the product, then the difference, of
`Q_MUL(KdT, dTh_f)`; the negation; the shift of `omega_ff_q`, the difference
`omega_cmd_q16 - omega_ff_q`, the product of `Q_MUL(kvw, .)` and the sum giving
`v_cmd_q`; the narrowing of `Q_TO_INT`; the shift of `v_cmd_q16`; the difference
`v_err_q`; the product, then the sum, of `Q_MUL(kawT, .)`; the product of the
`Q_MUL` by `dt` and the sum into `eta_T`; the shifts of the two clamp constants;
the narrowing of `v_cmd_i` to `u16`. -/
def fan_no_overflow (c : nodeb_ctx) (dt d : Int) : Prop :=
  s64_ok ((c.cfg.v0_rpm : Int) * 65536) ∧
  s64_ok (c.cfg.KpT * step_e c) ∧
  s64_ok (Q_FROM_INT c.cfg.v0_rpm + Q_MUL c.cfg.KpT (step_e c)) ∧
  s64_ok (c.cfg.KiT * c.st.eta_T) ∧
  s64_ok (wrap_s64 (Q_FROM_INT c.cfg.v0_rpm + Q_MUL c.cfg.KpT (step_e c))
    + Q_MUL c.cfg.KiT c.st.eta_T) ∧
  s64_ok (c.cfg.KdT * d) ∧
  s64_ok (wrap_s64 (wrap_s64 (Q_FROM_INT c.cfg.v0_rpm + Q_MUL c.cfg.KpT (step_e c))
    + Q_MUL c.cfg.KiT c.st.eta_T) - Q_MUL c.cfg.KdT d) ∧
  s64_ok (-(wrap_s64 (wrap_s64 (wrap_s64 (Q_FROM_INT c.cfg.v0_rpm + Q_MUL c.cfg.KpT (step_e c))
    + Q_MUL c.cfg.KiT c.st.eta_T) - Q_MUL c.cfg.KdT d))) ∧
  s64_ok ((c.cfg.omega0_rpm : Int) * 65536) ∧
  s64_ok (Q_FROM_INT (step_omega_cmd_i c) - Q_FROM_INT c.cfg.omega0_rpm) ∧
  s64_ok (c.cfg.kvw * step_omega_diff_q c) ∧
  s64_ok (step_v_raw_q c d + Q_MUL c.cfg.kvw (step_omega_diff_q c)) ∧
  s32_ok (step_v_cmd_q c d / 65536) ∧
  s64_ok (step_v_cmd_i c d * 65536) ∧
  s64_ok (Q_FROM_INT (step_v_cmd_i c d) - step_v_raw_q c d) ∧
  s64_ok (c.cfg.kawT * step_v_err_q c d) ∧
  s64_ok (step_e c + Q_MUL c.cfg.kawT (step_v_err_q c d)) ∧
  s64_ok (step_aw_T c d * dt) ∧
  s64_ok (c.st.eta_T + Q_MUL (step_aw_T c d) dt) ∧
  s64_ok (-500 * 65536) ∧ s64_ok (500 * 65536) ∧
  (0 ≤ step_v_cmd_i c d ∧ step_v_cmd_i c d ≤ 65535)

/-- No intermediate value of the non-idle path of `controller_step` on `c`
leaves its machine type. -/
def step_no_overflow (c : nodeb_ctx) : Prop :=
  flow_no_overflow c (step_dt c.dt_ms) ∧
  filter_no_overflow c (step_dt c.dt_ms) (step_term1 c) (step_term2 c) ∧
  fan_no_overflow c (step_dt c.dt_ms) (step_next c).st.dTh_f

/-- A valid Feedback frame that reports Ts = 100.0 and a hot-leg temperature
between 0.0 and 100.0 (raw 0..1000); Tc, v_prev and dt are arbitrary. -/
def hot_frame (cf : can_frame) : Prop :=
  cf.wf ∧ cf.can_id &&& CAN_SFF_MASK = 0x202 ∧ cf.len = 8 ∧
  s16_of_le (cf.byte 0) (cf.byte 1) = 1000 ∧
  0 ≤ s16_of_le (cf.byte 2) (cf.byte 3) ∧ s16_of_le (cf.byte 2) (cf.byte 3) ≤ 1000

instance (cf : can_frame) : Decidable (hot_frame cf) := by unfold hot_frame; infer_instance

/-- The frame `frame_A` with Ts replaced by 100.0. -/
def frame_A_hot : can_frame :=
  { can_id := 0x202, len := 8, data := [232, 3, 250, 0, 225, 0, 120, 10] }

/-- The states met while only `hot_frame`s arrive after initialisation: default
configuration, clamped integrators, filter state between -30.5 and 108.3. -/
def hot_inv (g : nodeb_ctx) : Prop :=
  g.cfg = nodeb_init.cfg ∧ eta_bounded g.st ∧
  (-2000000 ≤ g.st.dTh_f ∧ g.st.dTh_f ≤ 7100000) ∧ g.st.tau_d = 65536

/-- Rounding to the nearest integer, halfway cases away from zero. -/
def round_half_away {α : Type} [LinearOrderedField α] [FloorRing α] (y : α) : Int :=
  if 0 ≤ y then ⌊y + 1 / 2⌋ else ⌈y - 1 / 2⌉

/-- Rounding to the nearest integer, halfway cases to the even one. -/
def round_half_even (z : ℚ) : Int :=
  if z - ⌊z⌋ < 1 / 2 then ⌊z⌋
  else if 1 / 2 < z - ⌊z⌋ then ⌊z⌋ + 1
  else if ⌊z⌋ % 2 = 0 then ⌊z⌋ else ⌊z⌋ + 1

/-- The exponent of the binade of `y` (`2 ^ e ≤ |y| < 2 ^ (e + 1)`), not below
the exponent `emin` of the subnormal numbers. -/
def fl_exp (emin : Int) (y : ℚ) : Int := max (Int.log 2 |y|) emin

/-- The number with a significand of `p` bits and an exponent of at least `emin`
that is nearest to `y`, ties to the even significand; the exponent is not
bounded above. -/
def fl_round (p : Nat) (emin : Int) (y : ℚ) : ℚ :=
  round_half_even (y / 2 ^ (fl_exp emin y - ((p : Int) - 1))) * 2 ^ (fl_exp emin y - ((p : Int) - 1))

/-- A value of type `float` or `double`: a finite number, an infinity with its
sign, or a NaN. -/
inductive fp_val where
  | fin (v : ℚ)
  | inf (neg : Bool)
  | nan
  deriving DecidableEq

/-- The `float` result of an operation whose exact result is `y`: `y` rounded
to binary32, an infinity on overflow. -/
def f32_round (y : ℚ) : fp_val :=
  if 2 ^ 128 ≤ |fl_round 24 (-126) y| then fp_val.inf (decide (y < 0))
  else fp_val.fin (fl_round 24 (-126) y)

/-- The `double` result of an operation whose exact result is `y`. -/
def f64_round (y : ℚ) : fp_val :=
  if 2 ^ 1024 ≤ |fl_round 53 (-1022) y| then fp_val.inf (decide (y < 0))
  else fp_val.fin (fl_round 53 (-1022) y)

/-- The `float` product `x * c` for a positive constant `c`. -/
def f32_mul (x : fp_val) (c : ℚ) : fp_val :=
  match x with
  | fp_val.fin v => f32_round (v * c)
  | fp_val.inf s => fp_val.inf s
  | fp_val.nan => fp_val.nan

/-- The `double` product `x * c` for a positive constant `c`. -/
def f64_mul (x : fp_val) (c : ℚ) : fp_val :=
  match x with
  | fp_val.fin v => f64_round (v * c)
  | fp_val.inf s => fp_val.inf s
  | fp_val.nan => fp_val.nan

/-- The comparison `x < c` with a finite constant `c`; false for a NaN. -/
def fp_lt (x : fp_val) (c : ℚ) : Bool :=
  match x with
  | fp_val.fin v => decide (v < c)
  | fp_val.inf s => s
  | fp_val.nan => false

/-- The comparison `x > c` with a finite constant `c`; false for a NaN. -/
def fp_gt (x : fp_val) (c : ℚ) : Bool :=
  match x with
  | fp_val.fin v => decide (c < v)
  | fp_val.inf s => !s
  | fp_val.nan => false

/-- The comparison `x >= c` with a finite constant `c`; false for a NaN. -/
def fp_ge (x : fp_val) (c : ℚ) : Bool :=
  match x with
  | fp_val.fin v => decide (c ≤ v)
  | fp_val.inf s => !s
  | fp_val.nan => false

/-- The comparison `x <= c` with a finite constant `c`; false for a NaN. -/
def fp_le (x : fp_val) (c : ℚ) : Bool :=
  match x with
  | fp_val.fin v => decide (v ≤ c)
  | fp_val.inf s => s
  | fp_val.nan => false

/-- `lroundf(x)` and `lround(x)` as glibc computes them on x86-64: the nearest
integer, halfway cases away from zero, when it fits a `long`; `LONG_MIN` for a
finite value that does not fit, an infinity or a NaN (the result of the
conversion `(long) x`). -/
def lround (x : fp_val) : Int :=
  match x with
  | fp_val.fin v =>
    if -9223372036854775808 ≤ round_half_away v ∧ round_half_away v ≤ 9223372036854775807 then
      round_half_away v
    else -9223372036854775808
  | fp_val.inf _ => -9223372036854775808
  | fp_val.nan => -9223372036854775808

/-- `lroundf(x)`: the same function on a `float`. -/
def lroundf (x : fp_val) : Int := lround x

/-- Conversion of a signed value to `uint8_t`. -/
def wrap_u8 (x : Int) : Nat := (x % 256).toNat

/-! ## The parameter tool (`ctrl_set.c`) -/

/-- `to_q01(x)`: `lroundf(x * 10.0f)`, clamped to the `int16_t` range, returned
as `int16_t`. -/
def to_q01 (x : fp_val) : Int :=
  let v := lroundf (f32_mul x 10)
  let v := if v < -32768 then -32768 else v
  let v := if v > 32767 then 32767 else v
  wrap_s16 v

/-- `to_q88(x)`: `lroundf(x * 256.0f)`, clamped to 0..65535, returned as
`uint16_t`. -/
def to_q88 (x : fp_val) : Nat :=
  let v := lroundf (f32_mul x 256)
  let v := if v < 0 then 0 else v
  let v := if v > 65535 then 65535 else v
  wrap_u16 v

/-- `to_q44(x)`: `lroundf(x * 16.0f)`, clamped to 0..255, returned as
`uint8_t`. -/
def to_q44 (x : fp_val) : Nat :=
  let v := lroundf (f32_mul x 16)
  let v := if v < 0 then 0 else v
  let v := if v > 255 then 255 else v
  wrap_u8 v

/-- `u16_to_le(b, v)` of `ctrl_set.c`: `b[0] = (uint8_t)(v & 0xFF)`,
`b[1] = (uint8_t)((v >> 8) & 0xFF)`. -/
def ctrl_set.u16_to_le (v : Nat) : Nat × Nat := ((v &&& 0xFF) % 256, ((v >>> 8) &&& 0xFF) % 256)

/-- `CtrlParams`: the parameter bundle of the tool. -/
structure CtrlParams (α : Type) where
  Ts_sp_C : α
  KpT : α
  KiT : α
  KdT : α
  kawT : α
  Kpm : α
  Kim : α
  kawm : α
  kvw : α
  kwv : α
  send_params : Bool

/-- `default_params(Ts_sp)`: the defaults of the tool. -/
def default_params {α : Type} [LinearOrderedField α] (Ts_sp : α) : CtrlParams α :=
  { Ts_sp_C := Ts_sp
    KpT := 1006 / 10, KiT := 10 / 100, KdT := 4, kawT := 5
    Kpm := 130, Kim := 1 / 100, kawm := 10, kvw := -(15 / 100), kwv := -(2 / 100)
    send_params := true }

/-- A frame after `memset(f, 0, sizeof(*f))`. -/
def can_frame_zero : can_frame := { can_id := 0, len := 0, data := [0, 0, 0, 0, 0, 0, 0, 0] }

/-- `build_setpoint_frame(Ts_sp_C, sp)`: the frame written to `*sp`. -/
def build_setpoint_frame (Ts_sp_C : fp_val) : can_frame :=
  { can_id := 0x301, len := 8
    data := [(ctrl_set.u16_to_le (wrap_u16 (to_q01 Ts_sp_C))).1,
             (ctrl_set.u16_to_le (wrap_u16 (to_q01 Ts_sp_C))).2, 0, 0, 0, 0, 0, 0] }

/-- `build_params_frames(p, p1, p2)`: the frames written to `*p1` and `*p2`. -/
def build_params_frames (p : CtrlParams fp_val) : can_frame × can_frame :=
  ({ can_id := 0x300, len := 8
     data := [(ctrl_set.u16_to_le (to_q88 p.KpT)).1, (ctrl_set.u16_to_le (to_q88 p.KpT)).2,
              (ctrl_set.u16_to_le (to_q88 p.KiT)).1, (ctrl_set.u16_to_le (to_q88 p.KiT)).2,
              (ctrl_set.u16_to_le (to_q88 p.KdT)).1, (ctrl_set.u16_to_le (to_q88 p.KdT)).2,
              to_q44 p.kawT, 0] },
   { can_id := 0x302, len := 8
     data := [(ctrl_set.u16_to_le (to_q88 p.Kpm)).1, (ctrl_set.u16_to_le (to_q88 p.Kpm)).2,
              (ctrl_set.u16_to_le (to_q88 p.Kim)).1, (ctrl_set.u16_to_le (to_q88 p.Kim)).2,
              to_q44 p.kawm, to_q44 p.kvw, to_q44 p.kwv, 0] })

/-- `build_ctrl_frames(p, sp, f300, f302)` with three non-null pointers: the
frames written to `*sp`, `*f300` and `*f302`. -/
def build_ctrl_frames (p : CtrlParams fp_val) : can_frame × can_frame × can_frame :=
  (build_setpoint_frame p.Ts_sp_C,
    if p.send_params then build_params_frames p else (can_frame_zero, can_frame_zero))

/-- The clamp of the specification: `v` limited to `lo..hi`. -/
def clamp (v lo hi : Int) : Int := max lo (min v hi)

/-- A parameter bundle of binary32 values, with two negative decoupling
gains. -/
def params_test : CtrlParams fp_val :=
  { Ts_sp_C := fp_val.fin 30, KpT := fp_val.fin 120, KiT := fp_val.fin (1 / 8)
    KdT := fp_val.fin 5, kawT := fp_val.fin 4, Kpm := fp_val.fin 150
    Kim := fp_val.fin (1 / 64), kawm := fp_val.fin 8, kvw := fp_val.fin (-(1 / 8))
    kwv := fp_val.fin (-(1 / 32)), send_params := true }

/-- The frame 0x301 of length 8 whose bytes 0-1 hold the signed raw value `q`
little-endian, all other bytes zero. -/
def frame_0x301 (q : Int) : can_frame :=
  { can_id := 0x301, len := 8, data := [wrap_u16 q % 256, wrap_u16 q / 256, 0, 0, 0, 0, 0, 0] }

/-- The frame 0x300 of length 8 holding three 16-bit raw gains little-endian at
offsets 0, 2, 4 and one 8-bit raw gain at offset 6. -/
def frame_0x300 (kpT kiT kdT kawT : Nat) : can_frame :=
  { can_id := 0x300, len := 8
    data := [kpT % 256, kpT / 256, kiT % 256, kiT / 256, kdT % 256, kdT / 256, kawT, 0] }

/-- The frame 0x302 of length 8 holding two 16-bit raw gains little-endian at
offsets 0, 2 and three 8-bit raw gains at offsets 4, 5, 6. -/
def frame_0x302 (kpm kim kawm kvw kwv : Nat) : can_frame :=
  { can_id := 0x302, len := 8
    data := [kpm % 256, kpm / 256, kim % 256, kim / 256, kawm, kvw, kwv, 0] }

/-- A Q16.16 raw value read as the number `raw / 65536`. -/
def q_to_rat (x : Int) : ℚ := (x : ℚ) / 65536

/-! ## Reference definitions of the fixed-point kernel and of the control law

Over unbounded integers, as the specification states them; the theorems compare
them with the machine operations. -/

/-- The reference product: `a * b / 65536` rounded toward minus infinity. -/
def ref_Q_MUL (a b : Int) : Int := a * b / 65536

/-- The reference quotient: `a * 65536` divided by `b`, truncated toward zero. -/
def ref_Q_DIV (a b : Int) : Int := Int.tdiv (a * 65536) b

/-- The reference raw pump command `omega_raw = -(omega0 + Kpm e + Kim eta_m)`,
with the integrator as it is before the step. -/
def ref_omega_raw (c : nodeb_ctx) : Int :=
  -((c.cfg.omega0_rpm : Int) * 65536 + ref_Q_MUL c.cfg.Kpm (c.cfg.Ts_sp - c.Ts)
    + ref_Q_MUL c.cfg.Kim c.st.eta_m)

/-- The reference pump command: the decoupled command, floored to an integer and
clamped to `0..omega_max_rpm`. -/
def ref_omega_cmd (c : nodeb_ctx) : Int :=
  clamp ((ref_omega_raw c
    + ref_Q_MUL c.cfg.kwv (((c.v_prev_rpm : Int) - (c.cfg.v0_rpm : Int)) * 65536)) / 65536)
    0 c.cfg.omega_max_rpm

/-- The reference flow integrator after the step: the anti-windup error is the
clamped command minus `omega_raw`. -/
def ref_eta_m (c : nodeb_ctx) : Int :=
  q_sat (c.st.eta_m + ref_Q_MUL ((c.cfg.Ts_sp - c.Ts)
    + ref_Q_MUL c.cfg.kawm (ref_omega_cmd c * 65536 - ref_omega_raw c)) (step_dt c.dt_ms))
    (-200 * 65536) (200 * 65536)

/-- The reference raw fan command
`v_raw = -(v0 + KpT e + KiT eta_T - KdT dTh_f)`, with the integrator as it is
before the step and the filter state `d` after its update. -/
def ref_v_raw (c : nodeb_ctx) (d : Int) : Int :=
  -((c.cfg.v0_rpm : Int) * 65536 + ref_Q_MUL c.cfg.KpT (c.cfg.Ts_sp - c.Ts)
    + ref_Q_MUL c.cfg.KiT c.st.eta_T - ref_Q_MUL c.cfg.KdT d)

/-- The reference fan command: decoupled against the clamped pump command,
floored, clamped to `0..v_max_rpm`, then forced to 0 below `v_cut_rpm`. -/
def ref_v_cmd (c : nodeb_ctx) (d : Int) : Int :=
  if clamp ((ref_v_raw c d
      + ref_Q_MUL c.cfg.kvw ((ref_omega_cmd c - (c.cfg.omega0_rpm : Int)) * 65536)) / 65536)
      0 c.cfg.v_max_rpm < (c.cfg.v_cut_rpm : Int) then 0
  else clamp ((ref_v_raw c d
      + ref_Q_MUL c.cfg.kvw ((ref_omega_cmd c - (c.cfg.omega0_rpm : Int)) * 65536)) / 65536)
      0 c.cfg.v_max_rpm

/-- The reference temperature integrator after the step: the anti-windup error
is the command after the cut-in rule minus `v_raw`. -/
def ref_eta_T (c : nodeb_ctx) (d : Int) : Int :=
  q_sat (c.st.eta_T + ref_Q_MUL ((c.cfg.Ts_sp - c.Ts)
    + ref_Q_MUL c.cfg.kawT (ref_v_cmd c d * 65536 - ref_v_raw c d)) (step_dt c.dt_ms))
    (-500 * 65536) (500 * 65536)

/-! ## The plant (`plant_user.c`): packing of the time step -/

/-- `pack_dt_ms(dt)`: `dt * 1000.0`, raised to 1 when below, lowered to 255
when above (a NaN passes both comparisons), then `lround`, as `uint8_t`. -/
def pack_dt_ms (dt : fp_val) : Nat :=
  let ms := f64_mul dt 1000
  let ms := if fp_lt ms 1 then fp_val.fin 1 else ms
  let ms := if fp_gt ms 255 then fp_val.fin 255 else ms
  wrap_u8 (lround ms)

/-- The `double` nearest to 0.001 (the constant `1e-3`). -/
def d_0001 : ℚ := 1152921504606847 / 1152921504606846976

/-- One time-step argument of `main` (`--dt_ms`, or the fifth positional one),
parsed to `ms`: `if (ms >= 1.0 && ms <= 255.0) dt_fixed_s = ms * 1e-3;`. -/
def main_set_dt (dt_fixed_s ms : fp_val) : fp_val :=
  if fp_ge ms 1 && fp_le ms 255 then f64_mul ms d_0001 else dt_fixed_s

/-- The variable `dt_fixed_s` of `main` when its loop starts: initially `-1.0`,
then updated for each time-step argument in turn. -/
def main_dt_fixed_s (args : List fp_val) : fp_val := args.foldl main_set_dt (fp_val.fin (-1))

/-- The `double` nearest to 0.0004. -/
def d_00004 : ℚ := 7378697629483821 / 18446744073709551616

/-- The `double` nearest to 0.010. -/
def d_0010 : ℚ := 5764607523034235 / 576460752303423488

/-- The `double` nearest to 0.0045. -/
def d_00045 : ℚ := 5188146770730811 / 1152921504606846976

/-- The `double` nearest to 0.0005. -/
def d_0005 : ℚ := 1152921504606847 / 2305843009213693952

/-- The `double` nearest to 0.255. -/
def d_255 : ℚ := 2296835809958953 / 9007199254740992

/-- The time step of one pass of the loop of `main`: `dt = dt_fixed_s`, raised
to 0.0005 when below and lowered to 0.255 when above. -/
def plant_loop_dt (dt_fixed_s : fp_val) : fp_val :=
  let dt := dt_fixed_s
  let dt := if fp_lt dt d_0005 then fp_val.fin d_0005 else dt
  let dt := if fp_gt dt d_255 then fp_val.fin d_255 else dt
  dt


/-! ## Basic facts -/

theorem wrap_s64_ok (x : Int) : s64_ok (wrap_s64 x) := by
  unfold s64_ok wrap_s64; omega

theorem wrap_u16_clamp (x : Int) (m : Nat) (hm : m < 65536) (h0 : 0 ≤ x) (h1 : x ≤ m) :
    wrap_u16 x = x.toNat ∧ wrap_u16 x ≤ m := by
  unfold wrap_u16; omega

theorem Q_DIV_pos (a b : Int) (hb : 0 < b) :
    Q_DIV a b = some (Int.tdiv (wrap_s64 (a * 65536)) b) := by
  unfold Q_DIV
  rw [if_neg (by omega), if_neg (by omega)]

theorem Q_DIV_dt (n : Nat) (h0 : n ≠ 0) (h1 : n < 256) :
    Q_DIV (Q_FROM_INT n) (Q_FROM_INT 1000) = some (step_dt n) ∧ 65 ≤ step_dt n := by
  have h1000 : Q_FROM_INT 1000 = 65536000 := by decide
  have hn : wrap_s64 (Q_FROM_INT n * 65536) = (n : Int) * 4294967296 := by
    unfold Q_FROM_INT wrap_s64; omega
  have hq : (n : Int) * 4294967296 / 65536000 = (n : Int) * 65536 / 1000 := by omega
  unfold step_dt
  rw [h1000, Q_DIV_pos _ _ (by omega), hn, Int.tdiv_eq_ediv (by omega) (by omega), hq]
  exact ⟨rfl, by omega⟩

/-- The idle path of `controller_step`. -/
theorem controller_step_idle (c : nodeb_ctx) (h : c.have_feedback = false ∨ c.dt_ms = 0) :
    controller_step c = some { c with omega_cmd_rpm := 0, v_cmd_rpm := 0 } := by
  unfold controller_step
  rcases h with h | h <;> simp [h]

/-- The non-idle path of `controller_step` as the composition of its named
intermediate values. -/
theorem controller_step_eq (c : nodeb_ctx) (h : nonidle c) :
    controller_step c =
      (Q_DIV (Q_FROM_INT c.dt_ms) (Q_FROM_INT 1000)).bind fun dt =>
        (Q_DIV (wrap_s64 (c.Th - c.st.dTh_f)) dt).bind fun term1 =>
          (Q_DIV c.st.dTh_f (step_tau_d c)).bind fun term2 =>
            some (step_result c dt term1 term2) := by
  obtain ⟨hfb, hdt⟩ := h
  unfold controller_step
  rw [if_neg (by simp [hfb, hdt])]
  rfl

/-- On the non-idle path every result of `controller_step` is a `step_result`. -/
theorem controller_step_result (c c1 : nodeb_ctx) (h : nonidle c)
    (hstep : controller_step c = some c1) :
    ∃ dt term1 term2, c1 = step_result c dt term1 term2 := by
  rw [controller_step_eq c h] at hstep
  simp only [Option.bind_eq_some] at hstep
  obtain ⟨dt, _, term1, _, term2, _, hres⟩ := hstep
  exact ⟨dt, term1, term2, (Option.some.inj hres).symm⟩

/-- On the non-idle path `controller_step` has a result as soon as the floored
time constant is positive. -/
theorem controller_step_defined (c : nodeb_ctx) (hdt : c.dt_ms < 256) (h : nonidle c)
    (htau : 0 < step_tau_d c) :
    controller_step c = some (step_result c (step_dt c.dt_ms)
      (Int.tdiv (wrap_s64 (wrap_s64 (c.Th - c.st.dTh_f) * 65536)) (step_dt c.dt_ms))
      (Int.tdiv (wrap_s64 (c.st.dTh_f * 65536)) (step_tau_d c))) := by
  obtain ⟨hq, hpos⟩ := Q_DIV_dt c.dt_ms h.2 hdt
  rw [controller_step_eq c h, hq, Option.some_bind, Q_DIV_pos _ _ (by omega), Option.some_bind,
    Q_DIV_pos _ _ htau, Option.some_bind]

/-- What `controller_step` never touches. -/
theorem controller_step_frame (c c1 : nodeb_ctx) (hstep : controller_step c = some c1) :
    c1.cfg = c.cfg ∧ c1.Ts = c.Ts ∧ c1.Th = c.Th ∧ c1.Tc = c.Tc ∧ c1.v_prev_rpm = c.v_prev_rpm ∧
      c1.dt_ms = c.dt_ms ∧ c1.have_feedback = c.have_feedback ∧ c1.state = c.state ∧
      c1.seq = c.seq ∧ c1.rx_fifo = c.rx_fifo ∧ c1.tx_timer_active = c.tx_timer_active ∧
      c1.rx_guard_active = c.rx_guard_active := by
  by_cases h : nonidle c
  · obtain ⟨dt, term1, term2, rfl⟩ := controller_step_result c c1 h hstep
    simp [step_result]
  · have hidle : c.have_feedback = false ∨ c.dt_ms = 0 := by
      unfold nonidle at h
      by_cases hf : c.have_feedback = true
      · right; by_contra hd; exact h ⟨hf, hd⟩
      · left; simpa using hf
    rw [controller_step_idle c hidle] at hstep
    cases hstep
    simp

theorem clamp_cmd_range (x : Int) (m : Nat) : 0 ≤ clamp_cmd x m ∧ clamp_cmd x m ≤ m := by
  simp only [clamp_cmd]
  split_ifs <;> omega

theorem cut_in_cases (x : Int) (cut : Nat) (h0 : 0 ≤ x) :
    (cut_in x cut = 0 ∨ ((cut : Int) ≤ cut_in x cut ∧ cut_in x cut = x)) ∧
      0 ≤ cut_in x cut ∧ cut_in x cut ≤ x := by
  unfold cut_in
  split_ifs <;> omega

theorem q_sat_range (x lo hi : Int) (h : lo ≤ hi) : lo ≤ q_sat x lo hi ∧ q_sat x lo hi ≤ hi := by
  unfold q_sat
  split_ifs <;> omega

/-- The commands written by the non-idle path, for a configuration whose limits
are `u16` values. -/
theorem step_result_cmd (c : nodeb_ctx) (hcfg : c.cfg.wf) (dt term1 term2 : Int) :
    (step_result c dt term1 term2).omega_cmd_rpm ≤ c.cfg.omega_max_rpm ∧
      (step_result c dt term1 term2).v_cmd_rpm ≤ c.cfg.v_max_rpm ∧
      ((step_result c dt term1 term2).v_cmd_rpm = 0 ∨
        c.cfg.v_cut_rpm ≤ (step_result c dt term1 term2).v_cmd_rpm) := by
  obtain ⟨_, _, _, _, _, _, _, _, _, _, _, _, hom, hvm, hvc, _⟩ := hcfg
  have ho := clamp_cmd_range (Q_TO_INT (step_omega_cmd_q c)) c.cfg.omega_max_rpm
  have hv := clamp_cmd_range (Q_TO_INT (step_v_cmd_q c (step_dTh_f c dt term1 term2)))
    c.cfg.v_max_rpm
  have hc := cut_in_cases _ c.cfg.v_cut_rpm hv.1
  simp only [step_result, step_omega_cmd_i, step_v_cmd_i, wrap_u16]
  omega

/-- The integrators written by the non-idle path lie within their clamps. -/
theorem step_result_eta (c : nodeb_ctx) (dt term1 term2 : Int) :
    -200 * 65536 ≤ (step_result c dt term1 term2).st.eta_m ∧
      (step_result c dt term1 term2).st.eta_m ≤ 200 * 65536 ∧
      -500 * 65536 ≤ (step_result c dt term1 term2).st.eta_T ∧
      (step_result c dt term1 term2).st.eta_T ≤ 500 * 65536 := by
  have h200 : Q_FROM_INT 200 = 200 * 65536 := by decide
  have hm200 : Q_FROM_INT (-200) = -200 * 65536 := by decide
  have h500 : Q_FROM_INT 500 = 500 * 65536 := by decide
  have hm500 : Q_FROM_INT (-500) = -500 * 65536 := by decide
  simp only [step_result, step_eta_m, step_eta_T, h200, hm200, h500, hm500]
  refine ⟨(q_sat_range _ _ _ (by norm_num)).1, (q_sat_range _ _ _ (by norm_num)).2,
    (q_sat_range _ _ _ (by norm_num)).1, (q_sat_range _ _ _ (by norm_num)).2⟩

/-! ## Decoding of frames -/

theorem byte_lt (cf : can_frame) (hwf : cf.wf) (i : Nat) : cf.byte i < 256 := by
  unfold can_frame.byte
  rw [List.getD_eq_getElem?_getD]
  cases h : cf.data[i]? with
  | none => simp
  | some b => simpa using hwf.2.2.2 b (List.getElem?_mem h)

theorem lor_shift_eq_add (lo hi : Nat) (hlo : lo < 256) : lo ||| (hi <<< 8) = lo + 256 * hi := by
  have h := Nat.mul_add_lt_is_or (show lo < 2 ^ 8 by omega) hi
  rw [Nat.shiftLeft_eq, Nat.or_comm, Nat.mul_comm hi, ← h]
  omega

theorem le_to_u16_eq (lo hi : Nat) (hlo : lo < 256) (hhi : hi < 256) :
    le_to_u16 lo hi = u16_of_le lo hi := by
  unfold le_to_u16 u16_of_le
  rw [lor_shift_eq_add lo hi hlo]
  omega

theorem le_to_s16_eq (lo hi : Nat) (hlo : lo < 256) (hhi : hi < 256) :
    le_to_s16 lo hi = s16_of_le lo hi := by
  unfold le_to_s16 s16_of_le wrap_s16
  rw [lor_shift_eq_add lo hi hlo]
  split_ifs <;> omega

theorem s16_of_le_range (lo hi : Nat) (hlo : lo < 256) (hhi : hi < 256) :
    -32768 ≤ s16_of_le lo hi ∧ s16_of_le lo hi ≤ 32767 := by
  unfold s16_of_le
  split_ifs <;> omega

theorem q_from_q01_temp_eq (t : Int) (h0 : -32768 ≤ t) (h1 : t ≤ 32767) :
    q_from_q01_temp t = Int.tdiv (t * 65536) 10 := by
  unfold q_from_q01_temp Q_ONE
  have h : wrap_s64 (t * 65536) = t * 65536 := by unfold wrap_s64; omega
  rw [h]

theorem u16_gain_eq (k : Nat) (hk : k < 65536) (m : Int) (hm0 : 0 ≤ m) (hm : m ≤ 4096) :
    wrap_s64 ((k : Int) * m) = (k : Int) * m := by
  have h1 : (k : Int) * m ≤ 65535 * 4096 := by nlinarith
  have h0 : 0 ≤ (k : Int) * m := by positivity
  unfold wrap_s64
  omega

/-! ## Controller engine: output range, cut-in, idle path, integrator clamps -/

/-- C1: for every well-typed context with `have_feedback` set, `dt_ms > 0` and a
positive floor `tau_d_min_s`, `controller_step` returns, leaves the configuration
as it is, and its outputs satisfy `0 ≤ omega_cmd_rpm ≤ cfg.omega_max_rpm` and
`0 ≤ v_cmd_rpm ≤ cfg.v_max_rpm`. -/
theorem controller_step_outputs_bounded (c : nodeb_ctx) (hwf : c.wf)
    (hfb : c.have_feedback = true) (hdt : 0 < c.dt_ms) (htau : 0 < c.cfg.tau_d_min_s) :
    ∃ c1, controller_step c = some c1 ∧ c1.cfg = c.cfg ∧
      0 ≤ c1.omega_cmd_rpm ∧ c1.omega_cmd_rpm ≤ c.cfg.omega_max_rpm ∧
      0 ≤ c1.v_cmd_rpm ∧ c1.v_cmd_rpm ≤ c.cfg.v_max_rpm := by
  have hni : nonidle c := ⟨hfb, by omega⟩
  have hdtlt : c.dt_ms < 256 := hwf.2.2.2.2.2.2.2.2.2.2.1
  have hcfg : c.cfg.wf := hwf.2.2.2.2.1
  have htd : 0 < step_tau_d c := by unfold step_tau_d; split_ifs <;> omega
  have hs := controller_step_defined c hdtlt hni htd
  have hb := step_result_cmd c hcfg (step_dt c.dt_ms)
    (Int.tdiv (wrap_s64 (wrap_s64 (c.Th - c.st.dTh_f) * 65536)) (step_dt c.dt_ms))
    (Int.tdiv (wrap_s64 (c.st.dTh_f * 65536)) (step_tau_d c))
  exact ⟨_, hs, (controller_step_frame c _ hs).1, Nat.zero_le _, hb.1, Nat.zero_le _, hb.2.1⟩

theorem controller_step_outputs_bounded_witness :
    ctx_hot.wf ∧ ctx_hot.have_feedback = true ∧ 0 < ctx_hot.dt_ms ∧ 0 < ctx_hot.cfg.tau_d_min_s ∧
      ∃ c1, controller_step ctx_hot = some c1 ∧ c1.cfg = ctx_hot.cfg ∧
        0 ≤ c1.omega_cmd_rpm ∧ c1.omega_cmd_rpm ≤ ctx_hot.cfg.omega_max_rpm ∧
        0 ≤ c1.v_cmd_rpm ∧ c1.v_cmd_rpm ≤ ctx_hot.cfg.v_max_rpm :=
  ⟨by decide, by decide, by decide, by decide,
    controller_step_outputs_bounded ctx_hot (by decide) (by decide) (by decide) (by decide)⟩

/-- C2: on the non-idle path the fan command is never a positive value below the
cut-in speed. For every well-typed context on that path, `controller_step`
returns whenever the floored time constant is positive, and every result has
`v_cmd_rpm = 0` or `cfg.v_cut_rpm ≤ v_cmd_rpm ≤ cfg.v_max_rpm`; with
`v_cut_rpm > v_max_rpm` the fan command is 0. -/
theorem fan_cmd_zero_or_above_cut_in (c : nodeb_ctx) (hwf : c.wf) (hni : nonidle c) :
    ((0 < c.cfg.tau_d_min_s ∨ 0 < c.st.tau_d) → ∃ c1, controller_step c = some c1) ∧
      ∀ c1, controller_step c = some c1 →
        (c1.v_cmd_rpm = 0 ∨ (c.cfg.v_cut_rpm ≤ c1.v_cmd_rpm ∧ c1.v_cmd_rpm ≤ c.cfg.v_max_rpm)) ∧
        (c.cfg.v_max_rpm < c.cfg.v_cut_rpm → c1.v_cmd_rpm = 0) := by
  have hdtlt : c.dt_ms < 256 := hwf.2.2.2.2.2.2.2.2.2.2.1
  have hcfg : c.cfg.wf := hwf.2.2.2.2.1
  constructor
  · intro htau
    have htd : 0 < step_tau_d c := by unfold step_tau_d; split_ifs <;> omega
    exact ⟨_, controller_step_defined c hdtlt hni htd⟩
  · intro c1 hstep
    obtain ⟨dt, term1, term2, rfl⟩ := controller_step_result c c1 hni hstep
    have hb := step_result_cmd c hcfg dt term1 term2
    omega

theorem fan_cmd_zero_or_above_cut_in_witness :
    ctx_A.wf ∧ nonidle ctx_A ∧ (∃ c1, controller_step ctx_A = some c1) ∧
      ∀ c1, controller_step ctx_A = some c1 →
        (c1.v_cmd_rpm = 0 ∨
          (ctx_A.cfg.v_cut_rpm ≤ c1.v_cmd_rpm ∧ c1.v_cmd_rpm ≤ ctx_A.cfg.v_max_rpm)) ∧
        (ctx_A.cfg.v_max_rpm < ctx_A.cfg.v_cut_rpm → c1.v_cmd_rpm = 0) :=
  ⟨by decide, by decide,
    (fan_cmd_zero_or_above_cut_in ctx_A (by decide) (by decide)).1 (Or.inl (by decide)),
    (fan_cmd_zero_or_above_cut_in ctx_A (by decide) (by decide)).2⟩

/-- C3: when `have_feedback` is false or `dt_ms = 0`, `controller_step` returns
with both commands 0 and leaves the controller state, the configuration and the
stored feedback sample unchanged. -/
theorem controller_step_idle_safe (c : nodeb_ctx) (h : c.have_feedback = false ∨ c.dt_ms = 0) :
    ∃ c1, controller_step c = some c1 ∧ c1.omega_cmd_rpm = 0 ∧ c1.v_cmd_rpm = 0 ∧
      c1.st = c.st ∧ c1.cfg = c.cfg ∧ c1.Ts = c.Ts ∧ c1.Th = c.Th ∧ c1.Tc = c.Tc ∧
      c1.v_prev_rpm = c.v_prev_rpm ∧ c1.dt_ms = c.dt_ms ∧ c1.have_feedback = c.have_feedback :=
  ⟨_, controller_step_idle c h, rfl, rfl, rfl, rfl, rfl, rfl, rfl, rfl, rfl, rfl⟩

theorem controller_step_idle_safe_witness :
    (ctx_stale.have_feedback = false ∨ ctx_stale.dt_ms = 0) ∧
      ∃ c1, controller_step ctx_stale = some c1 ∧ c1.omega_cmd_rpm = 0 ∧ c1.v_cmd_rpm = 0 ∧
        c1.st = ctx_stale.st ∧ c1.cfg = ctx_stale.cfg ∧ c1.Ts = ctx_stale.Ts ∧
        c1.Th = ctx_stale.Th ∧ c1.Tc = ctx_stale.Tc ∧
        c1.v_prev_rpm = ctx_stale.v_prev_rpm ∧ c1.dt_ms = ctx_stale.dt_ms ∧
        c1.have_feedback = ctx_stale.have_feedback :=
  ⟨Or.inr (by decide), controller_step_idle_safe ctx_stale (Or.inr (by decide))⟩

/-! ## Dispatch: the branches of the `switch` -/

theorem dispatch_enable (g : nodeb_ctx) (cf : can_frame)
    (hid : cf.can_id &&& CAN_SFF_MASK = 0x101) :
    nodeb_rx_dispatch g cf = some { g with state := 1 } := by
  simp [nodeb_rx_dispatch, hid]

theorem dispatch_feedback (g : nodeb_ctx) (cf : can_frame)
    (hid : cf.can_id &&& CAN_SFF_MASK = 0x202) (hlen : cf.len = 8) :
    nodeb_rx_dispatch g cf = (controller_step (feedback_ctx g cf)).bind fun g2 =>
      some { g2 with tx_timer_active := true, rx_guard_active := true, state := 2 } := by
  unfold nodeb_rx_dispatch feedback_ctx
  simp only [hid, hlen]
  simp only [show ¬ ((0x202 : Nat) = 0x101) by decide, if_false, if_true]
  cases hcs : controller_step (store_feedback g (le_to_s16 (cf.byte 0) (cf.byte 1))
      (le_to_s16 (cf.byte 2) (cf.byte 3)) (le_to_s16 (cf.byte 4) (cf.byte 5)) (cf.byte 6)
      (if cf.byte 7 ≠ 0 then cf.byte 7 else 1)) with
  | none => simp [hcs]
  | some g2 =>
    simp only [hcs, Option.bind_eq_bind, Option.some_bind, Option.pure_def]
    cases htx : g2.tx_timer_active <;> simp [htx]

theorem dispatch_feedback_badlen (g : nodeb_ctx) (cf : can_frame)
    (hid : cf.can_id &&& CAN_SFF_MASK = 0x202) (hlen : cf.len ≠ 8) :
    nodeb_rx_dispatch g cf = some { g with state := 2 } := by
  simp [nodeb_rx_dispatch, hid, hlen]

theorem dispatch_setpoint (g : nodeb_ctx) (cf : can_frame)
    (hid : cf.can_id &&& CAN_SFF_MASK = 0x301) (hlen : 2 ≤ cf.len) :
    nodeb_rx_dispatch g cf = some { g with cfg := { g.cfg with
      Ts_sp := q_from_q01_temp (le_to_s16 (cf.byte 0) (cf.byte 1)) } } := by
  simp [nodeb_rx_dispatch, hid, hlen]

theorem dispatch_setpoint_short (g : nodeb_ctx) (cf : can_frame)
    (hid : cf.can_id &&& CAN_SFF_MASK = 0x301) (hlen : cf.len < 2) :
    nodeb_rx_dispatch g cf = some g := by
  have h : ¬ 2 ≤ cf.len := by omega
  simp [nodeb_rx_dispatch, hid, h]

theorem dispatch_tgains (g : nodeb_ctx) (cf : can_frame)
    (hid : cf.can_id &&& CAN_SFF_MASK = 0x300) (hlen : 7 ≤ cf.len) :
    nodeb_rx_dispatch g cf = some { g with cfg := { g.cfg with
      KpT := wrap_s64 ((le_to_u16 (cf.byte 0) (cf.byte 1) : Int) * 256)
      KiT := wrap_s64 ((le_to_u16 (cf.byte 2) (cf.byte 3) : Int) * 256)
      KdT := wrap_s64 ((le_to_u16 (cf.byte 4) (cf.byte 5) : Int) * 256)
      kawT := wrap_s64 ((cf.byte 6 : Int) * 4096) } } := by
  simp [nodeb_rx_dispatch, hid, hlen]

theorem dispatch_tgains_short (g : nodeb_ctx) (cf : can_frame)
    (hid : cf.can_id &&& CAN_SFF_MASK = 0x300) (hlen : cf.len < 7) :
    nodeb_rx_dispatch g cf = some g := by
  have h : ¬ 7 ≤ cf.len := by omega
  simp [nodeb_rx_dispatch, hid, h]

theorem dispatch_fgains (g : nodeb_ctx) (cf : can_frame)
    (hid : cf.can_id &&& CAN_SFF_MASK = 0x302) (hlen : 7 ≤ cf.len) :
    nodeb_rx_dispatch g cf = some { g with cfg := { g.cfg with
      Kpm := wrap_s64 ((le_to_u16 (cf.byte 0) (cf.byte 1) : Int) * 256)
      Kim := wrap_s64 ((le_to_u16 (cf.byte 2) (cf.byte 3) : Int) * 256)
      kawm := wrap_s64 ((cf.byte 4 : Int) * 4096)
      kvw := wrap_s64 ((cf.byte 5 : Int) * 4096)
      kwv := wrap_s64 ((cf.byte 6 : Int) * 4096) } } := by
  simp [nodeb_rx_dispatch, hid, hlen]

theorem dispatch_fgains_short (g : nodeb_ctx) (cf : can_frame)
    (hid : cf.can_id &&& CAN_SFF_MASK = 0x302) (hlen : cf.len < 7) :
    nodeb_rx_dispatch g cf = some g := by
  have h : ¬ 7 ≤ cf.len := by omega
  simp [nodeb_rx_dispatch, hid, h]

theorem dispatch_unknown (g : nodeb_ctx) (cf : can_frame)
    (h101 : cf.can_id &&& CAN_SFF_MASK ≠ 0x101) (h202 : cf.can_id &&& CAN_SFF_MASK ≠ 0x202)
    (h300 : cf.can_id &&& CAN_SFF_MASK ≠ 0x300) (h301 : cf.can_id &&& CAN_SFF_MASK ≠ 0x301)
    (h302 : cf.can_id &&& CAN_SFF_MASK ≠ 0x302) :
    nodeb_rx_dispatch g cf = some g := by
  simp [nodeb_rx_dispatch, h101, h202, h300, h301, h302]

theorem same_outside_cfg_intro (g : nodeb_ctx) (c : ctrl_cfg) (s : Int)
    (h1 : c.tau_d_min_s = g.cfg.tau_d_min_s) (h2 : c.omega0_rpm = g.cfg.omega0_rpm)
    (h3 : c.v0_rpm = g.cfg.v0_rpm) (h4 : c.omega_max_rpm = g.cfg.omega_max_rpm)
    (h5 : c.v_max_rpm = g.cfg.v_max_rpm) (h6 : c.v_cut_rpm = g.cfg.v_cut_rpm) :
    same_outside_cfg g { g with cfg := c, state := s } :=
  ⟨rfl, rfl, rfl, rfl, rfl, rfl, rfl, rfl, rfl, rfl, rfl, rfl, rfl, h1, h2, h3, h4, h5, h6⟩

/-- Every frame other than a Feedback frame of length 8 is handled without
fault and leaves everything but the gains, the setpoint and `state` as it was. -/
theorem dispatch_other (g : nodeb_ctx) (cf : can_frame)
    (h : ¬ (cf.can_id &&& CAN_SFF_MASK = 0x202 ∧ cf.len = 8)) :
    ∃ g1, nodeb_rx_dispatch g cf = some g1 ∧ same_outside_cfg g g1 := by
  by_cases h101 : cf.can_id &&& CAN_SFF_MASK = 0x101
  · exact ⟨_, dispatch_enable g cf h101, same_outside_cfg_intro g g.cfg 1 rfl rfl rfl rfl rfl rfl⟩
  by_cases h202 : cf.can_id &&& CAN_SFF_MASK = 0x202
  · exact ⟨_, dispatch_feedback_badlen g cf h202 (fun hl => h ⟨h202, hl⟩),
      same_outside_cfg_intro g g.cfg 2 rfl rfl rfl rfl rfl rfl⟩
  by_cases h301 : cf.can_id &&& CAN_SFF_MASK = 0x301
  · by_cases hl : 2 ≤ cf.len
    · exact ⟨_, dispatch_setpoint g cf h301 hl,
        same_outside_cfg_intro g _ g.state rfl rfl rfl rfl rfl rfl⟩
    · exact ⟨_, dispatch_setpoint_short g cf h301 (by omega),
        same_outside_cfg_intro g g.cfg g.state rfl rfl rfl rfl rfl rfl⟩
  by_cases h300 : cf.can_id &&& CAN_SFF_MASK = 0x300
  · by_cases hl : 7 ≤ cf.len
    · exact ⟨_, dispatch_tgains g cf h300 hl,
        same_outside_cfg_intro g _ g.state rfl rfl rfl rfl rfl rfl⟩
    · exact ⟨_, dispatch_tgains_short g cf h300 (by omega),
        same_outside_cfg_intro g g.cfg g.state rfl rfl rfl rfl rfl rfl⟩
  by_cases h302 : cf.can_id &&& CAN_SFF_MASK = 0x302
  · by_cases hl : 7 ≤ cf.len
    · exact ⟨_, dispatch_fgains g cf h302 hl,
        same_outside_cfg_intro g _ g.state rfl rfl rfl rfl rfl rfl⟩
    · exact ⟨_, dispatch_fgains_short g cf h302 (by omega),
        same_outside_cfg_intro g g.cfg g.state rfl rfl rfl rfl rfl rfl⟩
  exact ⟨_, dispatch_unknown g cf h101 h202 h300 h301 h302,
    same_outside_cfg_intro g g.cfg g.state rfl rfl rfl rfl rfl rfl⟩

theorem dispatch_st (g g1 : nodeb_ctx) (cf : can_frame) (h : nodeb_rx_dispatch g cf = some g1) :
    g1.st = g.st ∨ ∃ c c1, nonidle c ∧ controller_step c = some c1 ∧ g1.st = c1.st := by
  by_cases hfb : cf.can_id &&& CAN_SFF_MASK = 0x202 ∧ cf.len = 8
  · rw [dispatch_feedback g cf hfb.1 hfb.2] at h
    simp only [Option.bind_eq_some] at h
    obtain ⟨g2, hstep, hg1⟩ := h
    right
    refine ⟨feedback_ctx g cf, g2, ⟨rfl, ?_⟩, hstep, ?_⟩
    · simp only [feedback_ctx, store_feedback]
      split_ifs <;> omega
    · cases hg1; rfl
  · left
    obtain ⟨g2, hd, hst, _⟩ := dispatch_other g cf hfb
    rw [hd] at h
    cases h
    exact hst

/-! ## Reachable states: the worker never faults -/

/-- Storing a feedback sample changes nothing but the sample. -/
theorem feedback_ctx_keeps (g : nodeb_ctx) (cf : can_frame) :
    (feedback_ctx g cf).cfg = g.cfg ∧ (feedback_ctx g cf).st = g.st ∧
      (feedback_ctx g cf).rx_fifo = g.rx_fifo ∧ (feedback_ctx g cf).seq = g.seq ∧
      (feedback_ctx g cf).state = g.state ∧
      (feedback_ctx g cf).tx_timer_active = g.tx_timer_active ∧
      (feedback_ctx g cf).rx_guard_active = g.rx_guard_active ∧
      (feedback_ctx g cf).omega_cmd_rpm = g.omega_cmd_rpm ∧
      (feedback_ctx g cf).v_cmd_rpm = g.v_cmd_rpm := by
  simp [feedback_ctx, store_feedback]

/-- A well-formed frame is dispatched without fault whenever the floored time
constant is positive. -/
theorem dispatch_defined (g : nodeb_ctx) (cf : can_frame) (hwf : cf.wf)
    (htau : 0 < g.cfg.tau_d_min_s ∨ 0 < g.st.tau_d) : ∃ g1, nodeb_rx_dispatch g cf = some g1 := by
  by_cases hfb : cf.can_id &&& CAN_SFF_MASK = 0x202 ∧ cf.len = 8
  · have hb7 := byte_lt cf hwf 7
    have hdt : (feedback_ctx g cf).dt_ms = (if cf.byte 7 ≠ 0 then cf.byte 7 else 1) := rfl
    have hdtlt : (feedback_ctx g cf).dt_ms < 256 := by rw [hdt]; split_ifs <;> omega
    have hni : nonidle (feedback_ctx g cf) := ⟨rfl, by rw [hdt]; split_ifs <;> omega⟩
    have htd : 0 < step_tau_d (feedback_ctx g cf) := by
      simp only [step_tau_d, feedback_ctx, store_feedback]
      split_ifs <;> omega
    rw [dispatch_feedback g cf hfb.1 hfb.2,
      controller_step_defined (feedback_ctx g cf) hdtlt hni htd]
    exact ⟨_, rfl⟩
  · obtain ⟨g1, hd, _⟩ := dispatch_other g cf hfb
    exact ⟨g1, hd⟩

/-- No frame changes the floor `tau_d_min_s`, the kfifo or the sequence counter. -/
theorem dispatch_keeps (g g1 : nodeb_ctx) (cf : can_frame)
    (h : nodeb_rx_dispatch g cf = some g1) :
    g1.cfg.tau_d_min_s = g.cfg.tau_d_min_s ∧ g1.rx_fifo = g.rx_fifo ∧ g1.seq = g.seq := by
  by_cases hfb : cf.can_id &&& CAN_SFF_MASK = 0x202 ∧ cf.len = 8
  · rw [dispatch_feedback g cf hfb.1 hfb.2] at h
    simp only [Option.bind_eq_some] at h
    obtain ⟨g2, hstep, hg1⟩ := h
    obtain ⟨fcfg, _, _, _, _, _, _, _, fseq, ffifo, _⟩ := controller_step_frame _ _ hstep
    have e1 : (feedback_ctx g cf).cfg = g.cfg := (feedback_ctx_keeps g cf).1
    have e2 : (feedback_ctx g cf).rx_fifo = g.rx_fifo := (feedback_ctx_keeps g cf).2.2.1
    have e3 : (feedback_ctx g cf).seq = g.seq := (feedback_ctx_keeps g cf).2.2.2.1
    rw [e1] at fcfg
    rw [e2] at ffifo
    rw [e3] at fseq
    cases hg1
    refine ⟨?_, ffifo, fseq⟩
    show g2.cfg.tau_d_min_s = g.cfg.tau_d_min_s
    rw [fcfg]
  · obtain ⟨g2, hd, hs⟩ := dispatch_other g cf hfb
    rw [hd] at h
    cases h
    exact ⟨hs.2.2.2.2.2.2.2.2.2.2.2.2.2.1, hs.2.2.2.2.2.2.2.2.2.2.1, hs.2.2.2.2.2.2.2.2.2.1⟩

theorem reachable_node_inv (g : nodeb_ctx) (hg : Reachable g) : node_inv g := by
  induction hg with
  | init => exact ⟨by decide, by decide⟩
  | rx g cf _ hcf ih =>
    unfold nodeb_can_rx_cb
    split_ifs
    · exact ih
    · refine ⟨ih.1, ?_⟩
      intro f hf
      rcases List.mem_append.1 hf with h | h
      · exact ih.2 f h
      · rw [List.mem_singleton.1 h]; exact hcf
  | work g g1 _ hw ih =>
    unfold nodeb_rx_work_iter at hw
    split at hw
    · cases hw
    · rename_i item rest hq
      obtain ⟨h1, h2, _⟩ := dispatch_keeps _ _ _ (Option.some.inj hw)
      refine ⟨h1.trans ih.1, ?_⟩
      rw [h2]
      intro f hf
      exact ih.2 f (by rw [hq]; exact List.mem_cons_of_mem _ hf)
  | tx_tick g ok _ _ ih =>
    unfold nodeb_tx_timer_fn
    cases ok <;> exact ih
  | guard g _ _ ih =>
    unfold nodeb_rx_guard_fn
    simp only
    split_ifs <;> exact ih

/-- In a reachable state with a non-empty kfifo the next iteration of the
worker loop completes: no division faults. -/
theorem reachable_work_defined (g : nodeb_ctx) (hg : Reachable g) (hq : g.rx_fifo ≠ []) :
    ∃ g1, nodeb_rx_work_iter g = some (some g1) := by
  obtain ⟨htau, hwf⟩ := reachable_node_inv g hg
  unfold nodeb_rx_work_iter
  split
  · rename_i h; exact absurd h hq
  · rename_i item rest h
    obtain ⟨g1, hd⟩ := dispatch_defined { g with rx_fifo := rest } item
      (hwf item (by rw [h]; exact List.mem_cons_self _ _)) (Or.inl (by show 0 < g.cfg.tau_d_min_s; omega))
    exact ⟨g1, by rw [hd]⟩

/-! ## Integrator clamps as a state invariant -/

/-- C4: after every non-idle `controller_step` call, whatever the configuration,
the feedback values and the prior integrators, `eta_m` lies in
`[-200*65536, 200*65536]` and `eta_T` in `[-500*65536, 500*65536]`; and both
bounds hold in every state reachable from the initial, zero-integrator state. -/
theorem integrators_within_clamps :
    (∀ c c1 : nodeb_ctx, nonidle c → controller_step c = some c1 → eta_bounded c1.st) ∧
      ∀ g : nodeb_ctx, Reachable g → eta_bounded g.st := by
  have hstep : ∀ c c1 : nodeb_ctx, nonidle c → controller_step c = some c1 →
      eta_bounded c1.st := by
    intro c c1 hni hs
    obtain ⟨dt, term1, term2, rfl⟩ := controller_step_result c c1 hni hs
    exact step_result_eta c dt term1 term2
  refine ⟨hstep, ?_⟩
  intro g hg
  induction hg with
  | init => decide
  | rx g cf _ _ ih =>
    unfold nodeb_can_rx_cb
    split_ifs <;> exact ih
  | work g g1 _ hw ih =>
    unfold nodeb_rx_work_iter at hw
    split at hw
    · cases hw
    · rename_i item rest _
      have hd := Option.some.inj hw
      rcases dispatch_st _ _ _ hd with h | ⟨c, c1, hni, hs, heq⟩
      · rw [h]; exact ih
      · rw [heq]; exact hstep c c1 hni hs
  | tx_tick g ok _ _ ih =>
    unfold nodeb_tx_timer_fn
    cases ok <;> exact ih
  | guard g _ _ ih =>
    unfold nodeb_rx_guard_fn
    simp only
    split_ifs <;> exact ih

theorem integrators_within_clamps_witness :
    nonidle ctx_hot ∧ (∃ c1, controller_step ctx_hot = some c1 ∧ eta_bounded c1.st) ∧
      eta_bounded nodeb_init.st :=
  ⟨by decide,
    ⟨step_result ctx_hot (step_dt 1)
        (Int.tdiv (wrap_s64 (wrap_s64 (ctx_hot.Th - ctx_hot.st.dTh_f) * 65536)) (step_dt 1))
        (Int.tdiv (wrap_s64 (ctx_hot.st.dTh_f * 65536)) (step_tau_d ctx_hot)),
      by rfl,
      integrators_within_clamps.1 ctx_hot _ (by decide) (by rfl)⟩,
    integrators_within_clamps.2 nodeb_init Reachable.init⟩

/-! ## Frames: feedback with `dt` byte 0, malformed and unknown frames -/

theorem feedback_ctx_dt_zero (g : nodeb_ctx) (cf : can_frame) (hdata : cf.data.length = 8)
    (hb : cf.byte 7 = 0) :
    feedback_ctx g { cf with data := cf.data.set 7 1 } = feedback_ctx g cf ∧
      (feedback_ctx g cf).dt_ms = 1 := by
  have hne : ∀ i, i ≠ 7 → ({ cf with data := cf.data.set 7 1 } : can_frame).byte i = cf.byte i := by
    intro i hi
    simp only [can_frame.byte, List.getD_eq_getElem?_getD]
    rw [List.getElem?_set_ne (Ne.symm hi)]
  have h7 : ({ cf with data := cf.data.set 7 1 } : can_frame).byte 7 = 1 := by
    simp only [can_frame.byte, List.getD_eq_getElem?_getD]
    rw [List.getElem?_set_self (by omega)]
    rfl
  unfold feedback_ctx
  rw [hne 0 (by decide), hne 1 (by decide), hne 2 (by decide), hne 3 (by decide),
    hne 4 (by decide), hne 5 (by decide), hne 6 (by decide), h7, hb]
  exact ⟨rfl, rfl⟩

/-- C5: a Feedback (0x202) frame of length 8 whose `dt` byte (offset 7) is 0 is
processed exactly as the frame that differs only in having `dt` byte 1: both
give the same result, that result exists whenever the floored time constant is
positive, and it stores `dt_ms = 1`. The test hook `nodeb_test_inject_0x202`
treats `dt_ms = 0` as `dt_ms = 1` in the same way. -/
theorem feedback_dt_zero_as_one (g : nodeb_ctx) (cf : can_frame) (hdata : cf.data.length = 8)
    (hid : cf.can_id &&& CAN_SFF_MASK = 0x202) (hlen : cf.len = 8) (hb : cf.byte 7 = 0) :
    nodeb_rx_dispatch g cf = nodeb_rx_dispatch g { cf with data := cf.data.set 7 1 } ∧
      ((0 < g.cfg.tau_d_min_s ∨ 0 < g.st.tau_d) → ∃ g1, nodeb_rx_dispatch g cf = some g1) ∧
      (∀ g1, nodeb_rx_dispatch g cf = some g1 → g1.dt_ms = 1) ∧
      ∀ (ctx : nodeb_ctx) (Ts_q01 Th_q01 Tc_q01 : Int) (vprev_q10 : Nat),
        nodeb_test_inject_0x202 ctx Ts_q01 Th_q01 Tc_q01 vprev_q10 0 =
          nodeb_test_inject_0x202 ctx Ts_q01 Th_q01 Tc_q01 vprev_q10 1 := by
  obtain ⟨hctx, hdt1⟩ := feedback_ctx_dt_zero g cf hdata hb
  have hni : nonidle (feedback_ctx g cf) := ⟨rfl, by omega⟩
  refine ⟨?_, ?_, ?_, ?_⟩
  · rw [dispatch_feedback g cf hid hlen,
      dispatch_feedback g { cf with data := cf.data.set 7 1 } hid hlen, hctx]
  · intro htau
    have htd : 0 < step_tau_d (feedback_ctx g cf) := by
      simp only [step_tau_d, feedback_ctx, store_feedback]
      split_ifs <;> omega
    rw [dispatch_feedback g cf hid hlen,
      controller_step_defined (feedback_ctx g cf) (by omega) hni htd]
    exact ⟨_, rfl⟩
  · intro g1 h
    rw [dispatch_feedback g cf hid hlen] at h
    simp only [Option.bind_eq_some] at h
    obtain ⟨g2, hstep, hg1⟩ := h
    have hfr := controller_step_frame _ _ hstep
    cases hg1
    exact hfr.2.2.2.2.2.1.trans hdt1
  · intro ctx a b c v
    rfl

theorem feedback_dt_zero_as_one_witness :
    frame_hot.data.length = 8 ∧ frame_hot.can_id &&& CAN_SFF_MASK = 0x202 ∧ frame_hot.len = 8 ∧
      frame_hot.byte 7 = 0 ∧
      nodeb_rx_dispatch nodeb_init frame_hot =
        nodeb_rx_dispatch nodeb_init { frame_hot with data := frame_hot.data.set 7 1 } ∧
      (∃ g1, nodeb_rx_dispatch nodeb_init frame_hot = some g1) ∧
      ∀ g1, nodeb_rx_dispatch nodeb_init frame_hot = some g1 → g1.dt_ms = 1 :=
  ⟨by decide, by decide, by decide, by decide,
    (feedback_dt_zero_as_one nodeb_init frame_hot (by decide) (by decide) (by decide)
      (by decide)).1,
    (feedback_dt_zero_as_one nodeb_init frame_hot (by decide) (by decide) (by decide)
      (by decide)).2.1 (Or.inl (by decide)),
    (feedback_dt_zero_as_one nodeb_init frame_hot (by decide) (by decide) (by decide)
      (by decide)).2.2.1⟩

/-- C6: a TemperatureGains (0x300) or FlowGains (0x302) frame with payload
length below 7, or a Setpoint (0x301) frame with payload length below 2, leaves
the whole context unchanged. -/
theorem short_config_frame_ignored (g : nodeb_ctx) (cf : can_frame)
    (h : ((cf.can_id &&& CAN_SFF_MASK = 0x300 ∨ cf.can_id &&& CAN_SFF_MASK = 0x302) ∧ cf.len < 7) ∨
      (cf.can_id &&& CAN_SFF_MASK = 0x301 ∧ cf.len < 2)) :
    nodeb_rx_dispatch g cf = some g := by
  rcases h with ⟨h300 | h302, hl⟩ | ⟨h301, hl⟩
  · exact dispatch_tgains_short g cf h300 hl
  · exact dispatch_fgains_short g cf h302 hl
  · exact dispatch_setpoint_short g cf h301 hl

theorem short_config_frame_ignored_witness :
    (((({ frame_tgains with len := 6 } : can_frame).can_id &&& CAN_SFF_MASK = 0x300 ∨
        ({ frame_tgains with len := 6 } : can_frame).can_id &&& CAN_SFF_MASK = 0x302) ∧
        ({ frame_tgains with len := 6 } : can_frame).len < 7) ∨
      (({ frame_tgains with len := 6 } : can_frame).can_id &&& CAN_SFF_MASK = 0x301 ∧
        ({ frame_tgains with len := 6 } : can_frame).len < 2)) ∧
      nodeb_rx_dispatch ctx_hot { frame_tgains with len := 6 } = some ctx_hot :=
  ⟨Or.inl ⟨Or.inl (by decide), by decide⟩,
    short_config_frame_ignored ctx_hot { frame_tgains with len := 6 }
      (Or.inl ⟨Or.inl (by decide), by decide⟩)⟩

/-- C7 (the code at the failing input): a Feedback (0x202) frame of length 7 is
not ignored; from the initial context, whose `state` is 0, it leaves `state` 2.
Every other field is as before. -/
theorem feedback_badlen_writes_state :
    frame_A_short.wf ∧ frame_A_short.can_id &&& CAN_SFF_MASK = 0x202 ∧ frame_A_short.len ≠ 8 ∧
      nodeb_rx_dispatch nodeb_init frame_A_short = some { nodeb_init with state := 2 } ∧
      nodeb_init.state = 0 ∧ nodeb_rx_dispatch nodeb_init frame_A_short ≠ some nodeb_init := by
  refine ⟨by decide, by decide, by decide, ?_, rfl, ?_⟩
  · exact dispatch_feedback_badlen nodeb_init frame_A_short (by decide) (by decide)
  · rw [dispatch_feedback_badlen nodeb_init frame_A_short (by decide) (by decide)]
    intro h
    have hs := congrArg nodeb_ctx.state (Option.some.inj h)
    exact absurd hs (by decide)

/-- C8: a frame whose 11-bit identifier is none of 0x101, 0x202, 0x300, 0x301,
0x302 leaves the whole context unchanged, whatever its payload and length. -/
theorem unknown_id_ignored (g : nodeb_ctx) (cf : can_frame)
    (h : cf.can_id &&& 0x7FF ∉ [0x101, 0x202, 0x300, 0x301, 0x302]) :
    nodeb_rx_dispatch g cf = some g := by
  simp only [List.mem_cons, List.mem_singleton, List.not_mem_nil, or_false, not_or] at h
  exact dispatch_unknown g cf h.1 h.2.1 h.2.2.1 h.2.2.2.1 h.2.2.2.2

theorem unknown_id_ignored_witness :
    frame_unknown.can_id &&& 0x7FF ∉ [0x101, 0x202, 0x300, 0x301, 0x302] ∧
      nodeb_rx_dispatch ctx_hot frame_unknown = some ctx_hot :=
  ⟨by decide, unknown_id_ignored ctx_hot frame_unknown (by decide)⟩

/-! ## Frames: the decoded feedback sample and the temperature-loop gains -/

theorem feedback_ctx_sample (g : nodeb_ctx) (cf : can_frame) (hwf : cf.wf) :
    (feedback_ctx g cf).Ts = Int.tdiv (s16_of_le (cf.byte 0) (cf.byte 1) * 65536) 10 ∧
      (feedback_ctx g cf).Th = Int.tdiv (s16_of_le (cf.byte 2) (cf.byte 3) * 65536) 10 ∧
      (feedback_ctx g cf).Tc = Int.tdiv (s16_of_le (cf.byte 4) (cf.byte 5) * 65536) 10 ∧
      (feedback_ctx g cf).v_prev_rpm = 10 * cf.byte 6 ∧
      (feedback_ctx g cf).dt_ms = (if cf.byte 7 = 0 then 1 else cf.byte 7) ∧
      (feedback_ctx g cf).have_feedback = true := by
  have hb := byte_lt cf hwf
  have hr := fun i j => s16_of_le_range (cf.byte i) (cf.byte j) (hb i) (hb j)
  simp only [feedback_ctx, store_feedback]
  rw [le_to_s16_eq _ _ (hb 0) (hb 1), le_to_s16_eq _ _ (hb 2) (hb 3),
    le_to_s16_eq _ _ (hb 4) (hb 5), q_from_q01_temp_eq _ (hr 0 1).1 (hr 0 1).2,
    q_from_q01_temp_eq _ (hr 2 3).1 (hr 2 3).2, q_from_q01_temp_eq _ (hr 4 5).1 (hr 4 5).2]
  refine ⟨rfl, rfl, rfl, ?_, ?_, trivial⟩
  · have := hb 6
    omega
  · split_ifs <;> simp_all

/-- C9: for every Feedback (0x202) frame of length 8, processing returns whenever
the floored time constant is positive, and in every result the stored sample is:
`Ts`, `Th`, `Tc` the signed little-endian 16-bit values at offsets 0-1, 2-3, 4-5,
each converted as `t * 65536 / 10` truncated toward zero (so `10 * Ts = t * 65536`
when 10 divides `t`); `v_prev_rpm` ten times byte 6; `dt_ms` byte 7, or 1 when
byte 7 is 0; and `have_feedback` set. -/
theorem feedback_sample_stored (g : nodeb_ctx) (cf : can_frame) (hwf : cf.wf)
    (hid : cf.can_id &&& CAN_SFF_MASK = 0x202) (hlen : cf.len = 8) :
    ((0 < g.cfg.tau_d_min_s ∨ 0 < g.st.tau_d) → ∃ g1, nodeb_rx_dispatch g cf = some g1) ∧
      ∀ g1, nodeb_rx_dispatch g cf = some g1 →
        g1.Ts = Int.tdiv (s16_of_le (cf.byte 0) (cf.byte 1) * 65536) 10 ∧
        g1.Th = Int.tdiv (s16_of_le (cf.byte 2) (cf.byte 3) * 65536) 10 ∧
        g1.Tc = Int.tdiv (s16_of_le (cf.byte 4) (cf.byte 5) * 65536) 10 ∧
        ((10 : Int) ∣ s16_of_le (cf.byte 0) (cf.byte 1) →
          10 * g1.Ts = s16_of_le (cf.byte 0) (cf.byte 1) * 65536) ∧
        ((10 : Int) ∣ s16_of_le (cf.byte 2) (cf.byte 3) →
          10 * g1.Th = s16_of_le (cf.byte 2) (cf.byte 3) * 65536) ∧
        ((10 : Int) ∣ s16_of_le (cf.byte 4) (cf.byte 5) →
          10 * g1.Tc = s16_of_le (cf.byte 4) (cf.byte 5) * 65536) ∧
        g1.v_prev_rpm = 10 * cf.byte 6 ∧
        g1.dt_ms = (if cf.byte 7 = 0 then 1 else cf.byte 7) ∧
        g1.have_feedback = true := by
  obtain ⟨hTs, hTh, hTc, hv, hdt, hfb⟩ := feedback_ctx_sample g cf hwf
  have hb7 := byte_lt cf hwf 7
  have hdtlt : (feedback_ctx g cf).dt_ms < 256 := by rw [hdt]; split_ifs <;> omega
  have hni : nonidle (feedback_ctx g cf) := ⟨hfb, by rw [hdt]; split_ifs <;> omega⟩
  have hexact : ∀ t : Int, (10 : Int) ∣ t → 10 * Int.tdiv (t * 65536) 10 = t * 65536 := by
    intro t ht
    exact Int.mul_tdiv_cancel' (Dvd.dvd.mul_right ht 65536)
  constructor
  · intro htau
    have htd : 0 < step_tau_d (feedback_ctx g cf) := by
      simp only [step_tau_d, feedback_ctx, store_feedback]
      split_ifs <;> omega
    rw [dispatch_feedback g cf hid hlen, controller_step_defined (feedback_ctx g cf) hdtlt hni htd]
    exact ⟨_, rfl⟩
  · intro g1 h
    rw [dispatch_feedback g cf hid hlen] at h
    simp only [Option.bind_eq_some] at h
    obtain ⟨g2, hstep, hg1⟩ := h
    obtain ⟨_, fTs, fTh, fTc, fv, fdt, ffb, _⟩ := controller_step_frame _ _ hstep
    cases hg1
    refine ⟨fTs.trans hTs, fTh.trans hTh, fTc.trans hTc, ?_, ?_, ?_, fv.trans hv, fdt.trans hdt,
      ffb.trans hfb⟩
    · intro hd
      show 10 * g2.Ts = _
      rw [fTs, hTs]
      exact hexact _ hd
    · intro hd
      show 10 * g2.Th = _
      rw [fTh, hTh]
      exact hexact _ hd
    · intro hd
      show 10 * g2.Tc = _
      rw [fTc, hTc]
      exact hexact _ hd

theorem feedback_sample_stored_witness :
    frame_A.wf ∧ frame_A.can_id &&& CAN_SFF_MASK = 0x202 ∧ frame_A.len = 8 ∧
      (∃ g1, nodeb_rx_dispatch nodeb_init frame_A = some g1) ∧
      ∀ g1, nodeb_rx_dispatch nodeb_init frame_A = some g1 →
        g1.Ts = Int.tdiv (s16_of_le (frame_A.byte 0) (frame_A.byte 1) * 65536) 10 ∧
        g1.Th = Int.tdiv (s16_of_le (frame_A.byte 2) (frame_A.byte 3) * 65536) 10 ∧
        g1.Tc = Int.tdiv (s16_of_le (frame_A.byte 4) (frame_A.byte 5) * 65536) 10 ∧
        ((10 : Int) ∣ s16_of_le (frame_A.byte 0) (frame_A.byte 1) →
          10 * g1.Ts = s16_of_le (frame_A.byte 0) (frame_A.byte 1) * 65536) ∧
        ((10 : Int) ∣ s16_of_le (frame_A.byte 2) (frame_A.byte 3) →
          10 * g1.Th = s16_of_le (frame_A.byte 2) (frame_A.byte 3) * 65536) ∧
        ((10 : Int) ∣ s16_of_le (frame_A.byte 4) (frame_A.byte 5) →
          10 * g1.Tc = s16_of_le (frame_A.byte 4) (frame_A.byte 5) * 65536) ∧
        g1.v_prev_rpm = 10 * frame_A.byte 6 ∧
        g1.dt_ms = (if frame_A.byte 7 = 0 then 1 else frame_A.byte 7) ∧
        g1.have_feedback = true :=
  ⟨by decide, by decide, by decide,
    (feedback_sample_stored nodeb_init frame_A (by decide) (by decide) (by decide)).1
      (Or.inl (by decide)),
    (feedback_sample_stored nodeb_init frame_A (by decide) (by decide) (by decide)).2⟩

/-- C10: for every TemperatureGains (0x300) frame with payload length at least
7, processing returns the context in which `KpT`, `KiT`, `KdT` are the unsigned
little-endian 16-bit values at offsets 0-1, 2-3, 4-5 times 256 and `kawT` is
byte 6 times 4096, and every other field is the one of the entry context. -/
theorem tgains_frame_effect (g : nodeb_ctx) (cf : can_frame) (hwf : cf.wf)
    (hid : cf.can_id &&& CAN_SFF_MASK = 0x300) (hlen : 7 ≤ cf.len) :
    nodeb_rx_dispatch g cf = some { g with cfg := { g.cfg with
      KpT := (u16_of_le (cf.byte 0) (cf.byte 1) : Int) * 256
      KiT := (u16_of_le (cf.byte 2) (cf.byte 3) : Int) * 256
      KdT := (u16_of_le (cf.byte 4) (cf.byte 5) : Int) * 256
      kawT := (cf.byte 6 : Int) * 4096 } } := by
  have hb := byte_lt cf hwf
  have hu : ∀ i j, u16_of_le (cf.byte i) (cf.byte j) < 65536 := by
    intro i j
    have := hb i
    have := hb j
    unfold u16_of_le
    omega
  rw [dispatch_tgains g cf hid hlen, le_to_u16_eq _ _ (hb 0) (hb 1),
    le_to_u16_eq _ _ (hb 2) (hb 3), le_to_u16_eq _ _ (hb 4) (hb 5),
    u16_gain_eq _ (hu 0 1) 256 (by norm_num) (by norm_num),
    u16_gain_eq _ (hu 2 3) 256 (by norm_num) (by norm_num),
    u16_gain_eq _ (hu 4 5) 256 (by norm_num) (by norm_num),
    u16_gain_eq _ (by have := hb 6; omega) 4096 (by norm_num) (by norm_num)]

theorem tgains_frame_effect_witness :
    frame_tgains.wf ∧ frame_tgains.can_id &&& CAN_SFF_MASK = 0x300 ∧ 7 ≤ frame_tgains.len ∧
      nodeb_rx_dispatch ctx_hot frame_tgains = some { ctx_hot with cfg := { ctx_hot.cfg with
        KpT := (u16_of_le (frame_tgains.byte 0) (frame_tgains.byte 1) : Int) * 256
        KiT := (u16_of_le (frame_tgains.byte 2) (frame_tgains.byte 3) : Int) * 256
        KdT := (u16_of_le (frame_tgains.byte 4) (frame_tgains.byte 5) : Int) * 256
        kawT := (frame_tgains.byte 6 : Int) * 4096 } } :=
  ⟨by decide, by decide, by decide,
    tgains_frame_effect ctx_hot frame_tgains (by decide) (by decide) (by decide)⟩


/-! ## Frames: flow-loop gains, setpoint, enable -/

/-- C11: for every FlowGains (0x302) frame with payload length at least 7,
processing returns the context in which `Kpm` and `Kim` are the unsigned
little-endian 16-bit values at offsets 0-1 and 2-3 times 256 and `kawm`, `kvw`,
`kwv` are bytes 4, 5, 6 times 4096, and every other field is the one of the
entry context. -/
theorem fgains_frame_effect (g : nodeb_ctx) (cf : can_frame) (hwf : cf.wf)
    (hid : cf.can_id &&& CAN_SFF_MASK = 0x302) (hlen : 7 ≤ cf.len) :
    nodeb_rx_dispatch g cf = some { g with cfg := { g.cfg with
      Kpm := (u16_of_le (cf.byte 0) (cf.byte 1) : Int) * 256
      Kim := (u16_of_le (cf.byte 2) (cf.byte 3) : Int) * 256
      kawm := (cf.byte 4 : Int) * 4096
      kvw := (cf.byte 5 : Int) * 4096
      kwv := (cf.byte 6 : Int) * 4096 } } := by
  have hb := byte_lt cf hwf
  have hu : ∀ i j, u16_of_le (cf.byte i) (cf.byte j) < 65536 := by
    intro i j
    have := hb i
    have := hb j
    unfold u16_of_le
    omega
  have h8 : ∀ i, cf.byte i < 65536 := fun i => by have := hb i; omega
  rw [dispatch_fgains g cf hid hlen, le_to_u16_eq _ _ (hb 0) (hb 1),
    le_to_u16_eq _ _ (hb 2) (hb 3),
    u16_gain_eq _ (hu 0 1) 256 (by norm_num) (by norm_num),
    u16_gain_eq _ (hu 2 3) 256 (by norm_num) (by norm_num),
    u16_gain_eq _ (h8 4) 4096 (by norm_num) (by norm_num),
    u16_gain_eq _ (h8 5) 4096 (by norm_num) (by norm_num),
    u16_gain_eq _ (h8 6) 4096 (by norm_num) (by norm_num)]

theorem fgains_frame_effect_witness :
    frame_fgains.wf ∧ frame_fgains.can_id &&& CAN_SFF_MASK = 0x302 ∧ 7 ≤ frame_fgains.len ∧
      nodeb_rx_dispatch ctx_hot frame_fgains = some { ctx_hot with cfg := { ctx_hot.cfg with
        Kpm := (u16_of_le (frame_fgains.byte 0) (frame_fgains.byte 1) : Int) * 256
        Kim := (u16_of_le (frame_fgains.byte 2) (frame_fgains.byte 3) : Int) * 256
        kawm := (frame_fgains.byte 4 : Int) * 4096
        kvw := (frame_fgains.byte 5 : Int) * 4096
        kwv := (frame_fgains.byte 6 : Int) * 4096 } } :=
  ⟨by decide, by decide, by decide,
    fgains_frame_effect ctx_hot frame_fgains (by decide) (by decide) (by decide)⟩

/-- C13: for every Setpoint (0x301) frame with payload length at least 2,
processing returns the context in which `Ts_sp` is the signed little-endian
16-bit value at offset 0-1 converted as `t * 65536 / 10` truncated toward zero,
and every other field (gains, controller state, feedback sample, command
output) is the one of the entry context. -/
theorem setpoint_frame_effect (g : nodeb_ctx) (cf : can_frame) (hwf : cf.wf)
    (hid : cf.can_id &&& CAN_SFF_MASK = 0x301) (hlen : 2 ≤ cf.len) :
    nodeb_rx_dispatch g cf = some { g with cfg := { g.cfg with
      Ts_sp := Int.tdiv (s16_of_le (cf.byte 0) (cf.byte 1) * 65536) 10 } } := by
  have hb := byte_lt cf hwf
  have hr := s16_of_le_range (cf.byte 0) (cf.byte 1) (hb 0) (hb 1)
  rw [dispatch_setpoint g cf hid hlen, le_to_s16_eq _ _ (hb 0) (hb 1),
    q_from_q01_temp_eq _ hr.1 hr.2]

theorem setpoint_frame_effect_witness :
    frame_setpoint.wf ∧ frame_setpoint.can_id &&& CAN_SFF_MASK = 0x301 ∧ 2 ≤ frame_setpoint.len ∧
      nodeb_rx_dispatch ctx_hot frame_setpoint = some { ctx_hot with cfg := { ctx_hot.cfg with
        Ts_sp := Int.tdiv
          (s16_of_le (frame_setpoint.byte 0) (frame_setpoint.byte 1) * 65536) 10 } } :=
  ⟨by decide, by decide, by decide,
    setpoint_frame_effect ctx_hot frame_setpoint (by decide) (by decide) (by decide)⟩

/-- C14: an Enable (0x101) frame of any payload length changes only the recorded
dispatch mode `state` (set to 1): configuration, controller state, feedback
sample with `have_feedback`, command output and both timer flags are those of
the entry context. -/
theorem enable_frame_effect (g : nodeb_ctx) (cf : can_frame)
    (hid : cf.can_id &&& CAN_SFF_MASK = 0x101) :
    ∃ g1, nodeb_rx_dispatch g cf = some g1 ∧ g1 = { g with state := 1 } ∧
      g1.cfg = g.cfg ∧ g1.st = g.st ∧ g1.Ts = g.Ts ∧ g1.Th = g.Th ∧ g1.Tc = g.Tc ∧
      g1.v_prev_rpm = g.v_prev_rpm ∧ g1.dt_ms = g.dt_ms ∧ g1.have_feedback = g.have_feedback ∧
      g1.omega_cmd_rpm = g.omega_cmd_rpm ∧ g1.v_cmd_rpm = g.v_cmd_rpm ∧
      g1.tx_timer_active = g.tx_timer_active ∧ g1.rx_guard_active = g.rx_guard_active :=
  ⟨_, dispatch_enable g cf hid, rfl, rfl, rfl, rfl, rfl, rfl, rfl, rfl, rfl, rfl, rfl, rfl, rfl⟩

theorem enable_frame_effect_witness :
    frame_enable.can_id &&& CAN_SFF_MASK = 0x101 ∧
      ∃ g1, nodeb_rx_dispatch ctx_hot frame_enable = some g1 ∧ g1 = { ctx_hot with state := 1 } ∧
        g1.cfg = ctx_hot.cfg ∧ g1.st = ctx_hot.st ∧ g1.Ts = ctx_hot.Ts ∧ g1.Th = ctx_hot.Th ∧
        g1.Tc = ctx_hot.Tc ∧ g1.v_prev_rpm = ctx_hot.v_prev_rpm ∧ g1.dt_ms = ctx_hot.dt_ms ∧
        g1.have_feedback = ctx_hot.have_feedback ∧ g1.omega_cmd_rpm = ctx_hot.omega_cmd_rpm ∧
        g1.v_cmd_rpm = ctx_hot.v_cmd_rpm ∧ g1.tx_timer_active = ctx_hot.tx_timer_active ∧
        g1.rx_guard_active = ctx_hot.rx_guard_active :=
  ⟨by decide, enable_frame_effect ctx_hot frame_enable (by decide)⟩


/-! ## Command frame of the TX timer -/

theorem u16_to_le_eq (v : Nat) (hv : v < 65536) :
    u16_to_le v = (v &&& 0xFF, v >>> 8) ∧ (u16_to_le v).1 = v % 256 ∧ (u16_to_le v).2 = v / 256 := by
  have h1 : v &&& 0xFF = v % 256 := Nat.and_pow_two_sub_one_eq_mod v 8
  have h2 : v >>> 8 = v / 256 := Nat.shiftRight_eq_div_pow v 8
  unfold u16_to_le
  rw [h1, h2]
  have h3 : v % 256 % 256 = v % 256 := by omega
  have h4 : v / 256 % 256 = v / 256 := by omega
  rw [h3, h4]
  exact ⟨rfl, rfl, rfl⟩

/-- C15: for every command pair of `u16` values the frame built by the TX timer
callback has identifier 0x201, length 8 and payload
`[omega & 0xFF, omega >> 8, v & 0xFF, v >> 8, 0, 0, 0, 0]`; the plant's decode
of that frame gives back exactly `(omega_cmd_rpm, v_cmd_rpm)`; and the callback
leaves the command output and the controller state unchanged, whether the send
succeeded or not. -/
theorem tx_frame_layout_roundtrip (g : nodeb_ctx) (send_ok : Bool)
    (ho : g.omega_cmd_rpm < 65536) (hv : g.v_cmd_rpm < 65536) :
    (nodeb_tx_timer_fn g send_ok).1.can_id = 0x201 ∧ (nodeb_tx_timer_fn g send_ok).1.len = 8 ∧
      (nodeb_tx_timer_fn g send_ok).1.data =
        [g.omega_cmd_rpm &&& 0xFF, g.omega_cmd_rpm >>> 8, g.v_cmd_rpm &&& 0xFF, g.v_cmd_rpm >>> 8,
          0, 0, 0, 0] ∧
      (nodeb_tx_timer_fn g send_ok).1.wf ∧
      plant_rx_cmd (nodeb_tx_timer_fn g send_ok).1 = some (g.omega_cmd_rpm, g.v_cmd_rpm) ∧
      (nodeb_tx_timer_fn g send_ok).2.omega_cmd_rpm = g.omega_cmd_rpm ∧
      (nodeb_tx_timer_fn g send_ok).2.v_cmd_rpm = g.v_cmd_rpm ∧
      (nodeb_tx_timer_fn g send_ok).2.st = g.st := by
  obtain ⟨eo, eo1, eo2⟩ := u16_to_le_eq g.omega_cmd_rpm ho
  obtain ⟨ev, ev1, ev2⟩ := u16_to_le_eq g.v_cmd_rpm hv
  have hdata : (nodeb_tx_timer_fn g send_ok).1.data =
      [(u16_to_le g.omega_cmd_rpm).1, (u16_to_le g.omega_cmd_rpm).2,
        (u16_to_le g.v_cmd_rpm).1, (u16_to_le g.v_cmd_rpm).2, 0, 0, 0, 0] := rfl
  have hid : (nodeb_tx_timer_fn g send_ok).1.can_id = 0x201 := rfl
  have hlen : (nodeb_tx_timer_fn g send_ok).1.len = 8 := rfl
  refine ⟨hid, hlen, ?_, ?_, ?_, ?_, ?_, ?_⟩
  · rw [hdata, eo, ev]
  · refine ⟨by rw [hid]; norm_num, by rw [hlen]; norm_num, by rw [hdata]; rfl, ?_⟩
    rw [hdata, eo1, eo2, ev1, ev2]
    intro b hb
    simp only [List.mem_cons, List.mem_singleton, List.not_mem_nil, or_false] at hb
    omega
  · have hb : ∀ i, (nodeb_tx_timer_fn g send_ok).1.byte i =
        [(u16_to_le g.omega_cmd_rpm).1, (u16_to_le g.omega_cmd_rpm).2,
          (u16_to_le g.v_cmd_rpm).1, (u16_to_le g.v_cmd_rpm).2, 0, 0, 0, 0].getD i 0 := by
      intro i
      unfold can_frame.byte
      rw [hdata]
    unfold plant_rx_cmd
    rw [if_pos ⟨by rw [hid]; decide, by rw [hlen]; decide⟩, hb 0, hb 1, hb 2, hb 3]
    simp only [List.getD_cons_zero, List.getD_cons_succ]
    rw [eo1, eo2, ev1, ev2, lor_shift_eq_add _ _ (by omega), lor_shift_eq_add _ _ (by omega)]
    congr 1
    refine Prod.ext ?_ ?_ <;> simp only <;> omega
  · cases send_ok <;> rfl
  · cases send_ok <;> rfl
  · cases send_ok <;> rfl

theorem tx_frame_layout_roundtrip_witness :
    (4000 : Nat) < 65536 ∧ (2800 : Nat) < 65536 ∧
      (nodeb_tx_timer_fn ctx_stale true).1.data = [160, 15, 240, 10, 0, 0, 0, 0] ∧
      plant_rx_cmd (nodeb_tx_timer_fn ctx_stale true).1 = some (4000, 2800) :=
  ⟨by decide, by decide,
    (tx_frame_layout_roundtrip ctx_stale true (by decide) (by decide)).2.2.1,
    (tx_frame_layout_roundtrip ctx_stale true (by decide) (by decide)).2.2.2.2.1⟩


/-! ## Valid feedback: step, arming, watchdog -/

/-- The result of a valid Feedback frame: the result of `controller_step` on the
stored sample, with both timers running and `state` 2. -/
theorem dispatch_feedback_result (g g1 : nodeb_ctx) (cf : can_frame)
    (hid : cf.can_id &&& CAN_SFF_MASK = 0x202) (hlen : cf.len = 8)
    (h : nodeb_rx_dispatch g cf = some g1) :
    ∃ c1, controller_step (feedback_ctx g cf) = some c1 ∧
      g1 = { c1 with tx_timer_active := true, rx_guard_active := true, state := 2 } := by
  rw [dispatch_feedback g cf hid hlen] at h
  simp only [Option.bind_eq_some] at h
  obtain ⟨g2, hstep, hg1⟩ := h
  exact ⟨g2, hstep, (Option.some.inj hg1).symm⟩

/-- C18: processing a valid (8-byte) Feedback frame returns whenever the floored
time constant is positive, and every result has `have_feedback` set, `state` 2
(Active), command output and controller state equal to the result of
`controller_step` on the newly stored sample, the TX timer armed and the
inactivity guard started. From the initial context the frame (Ts = 20.0,
Th = 25.0, Tc = 22.5, v_prev = 1200 rpm, dt = 10 ms) gives a result with
`have_feedback`, `dt_ms = 10`, `v_prev_rpm = 1200`, `omega_cmd_rpm ≤ 4000`,
`v_cmd_rpm ≤ 2800` and the TX timer armed; the test hook gives the same sample
and bounds from the freshly allocated test context. -/
theorem valid_feedback_effect :
    (∀ (g : nodeb_ctx) (cf : can_frame), cf.wf → cf.can_id &&& CAN_SFF_MASK = 0x202 →
      cf.len = 8 →
      ((0 < g.cfg.tau_d_min_s ∨ 0 < g.st.tau_d) → ∃ g1, nodeb_rx_dispatch g cf = some g1) ∧
      ∀ g1, nodeb_rx_dispatch g cf = some g1 →
        g1.have_feedback = true ∧ g1.state = 2 ∧
        (∃ c1, controller_step (feedback_ctx g cf) = some c1 ∧
          g1.omega_cmd_rpm = c1.omega_cmd_rpm ∧ g1.v_cmd_rpm = c1.v_cmd_rpm ∧ g1.st = c1.st) ∧
        g1.tx_timer_active = true ∧ g1.rx_guard_active = true) ∧
      (∃ g1, nodeb_rx_dispatch nodeb_init frame_A = some g1 ∧ g1.have_feedback = true ∧
        g1.dt_ms = 10 ∧ g1.v_prev_rpm = 1200 ∧ g1.omega_cmd_rpm ≤ 4000 ∧ g1.v_cmd_rpm ≤ 2800 ∧
        g1.tx_timer_active = true) ∧
      ∃ c1, nodeb_test_inject_0x202 nodeb_alloc_ctx_for_test 200 250 225 120 10 = some c1 ∧
        c1.have_feedback = true ∧ c1.dt_ms = 10 ∧ c1.v_prev_rpm = 1200 ∧
        c1.omega_cmd_rpm ≤ 4000 ∧ c1.v_cmd_rpm ≤ 2800 := by
  refine ⟨?_, ?_, ?_⟩
  · intro g cf hwf hid hlen
    refine ⟨fun htau => dispatch_defined g cf hwf htau, ?_⟩
    intro g1 h
    obtain ⟨c1, hstep, rfl⟩ := dispatch_feedback_result g g1 cf hid hlen h
    obtain ⟨_, _, _, _, _, _, ffb, _⟩ := controller_step_frame _ _ hstep
    exact ⟨ffb, rfl, ⟨c1, hstep, rfl, rfl, rfl⟩, rfl, rfl⟩
  · obtain ⟨g1, h⟩ := dispatch_defined nodeb_init frame_A (by decide) (Or.inl (by decide))
    obtain ⟨c1, hstep, rfl⟩ := dispatch_feedback_result nodeb_init g1 frame_A (by decide)
      (by decide) h
    obtain ⟨fcfg, _, _, _, fv, fdt, ffb, _⟩ := controller_step_frame _ _ hstep
    obtain ⟨dt, term1, term2, hres⟩ := controller_step_result _ c1 ⟨rfl, by decide⟩ hstep
    have hb := step_result_cmd (feedback_ctx nodeb_init frame_A) (by decide) dt term1 term2
    rw [← hres] at hb
    exact ⟨_, h, ffb, fdt, fv, hb.1, hb.2.1, rfl⟩
  · have hwf : (store_feedback nodeb_alloc_ctx_for_test 200 250 225 120 10).wf := by decide
    have hni : nonidle (store_feedback nodeb_alloc_ctx_for_test 200 250 225 120 10) := by decide
    have hd := controller_step_defined _ (by decide) hni (by decide)
    obtain ⟨_, _, _, _, fv, fdt, ffb, _⟩ := controller_step_frame _ _ hd
    have hb := step_result_cmd (store_feedback nodeb_alloc_ctx_for_test 200 250 225 120 10)
      (by decide) (step_dt 10)
      (Int.tdiv (wrap_s64 (wrap_s64
        ((store_feedback nodeb_alloc_ctx_for_test 200 250 225 120 10).Th -
          (store_feedback nodeb_alloc_ctx_for_test 200 250 225 120 10).st.dTh_f) * 65536))
        (step_dt 10))
      (Int.tdiv (wrap_s64
        ((store_feedback nodeb_alloc_ctx_for_test 200 250 225 120 10).st.dTh_f * 65536))
        (step_tau_d (store_feedback nodeb_alloc_ctx_for_test 200 250 225 120 10)))
    exact ⟨_, hd, ffb, fdt, fv, hb.1, hb.2.1⟩

theorem valid_feedback_effect_witness :
    frame_hot.wf ∧ frame_hot.can_id &&& CAN_SFF_MASK = 0x202 ∧ frame_hot.len = 8 ∧
      (∃ g1, nodeb_rx_dispatch nodeb_init frame_hot = some g1) ∧
      ∀ g1, nodeb_rx_dispatch nodeb_init frame_hot = some g1 →
        g1.have_feedback = true ∧ g1.state = 2 ∧
        (∃ c1, controller_step (feedback_ctx nodeb_init frame_hot) = some c1 ∧
          g1.omega_cmd_rpm = c1.omega_cmd_rpm ∧ g1.v_cmd_rpm = c1.v_cmd_rpm ∧ g1.st = c1.st) ∧
        g1.tx_timer_active = true ∧ g1.rx_guard_active = true :=
  ⟨by decide, by decide, by decide,
    (valid_feedback_effect.1 nodeb_init frame_hot (by decide) (by decide) (by decide)).1
      (Or.inl (by decide)),
    (valid_feedback_effect.1 nodeb_init frame_hot (by decide) (by decide) (by decide)).2⟩

/-- C20: when the inactivity guard fires, the TX timer is no longer armed, the
guard itself is not restarted, and command output, controller state,
configuration and feedback sample are unchanged; processing the next valid
Feedback frame arms the TX timer (and the guard) again. -/
theorem guard_disarms_feedback_rearms (g : nodeb_ctx) :
    (nodeb_rx_guard_fn g).tx_timer_active = false ∧
      (nodeb_rx_guard_fn g).rx_guard_active = false ∧
      nodeb_rx_guard_fn g = { g with tx_timer_active := false, rx_guard_active := false } ∧
      (nodeb_rx_guard_fn g).omega_cmd_rpm = g.omega_cmd_rpm ∧
      (nodeb_rx_guard_fn g).v_cmd_rpm = g.v_cmd_rpm ∧ (nodeb_rx_guard_fn g).st = g.st ∧
      (nodeb_rx_guard_fn g).cfg = g.cfg ∧ (nodeb_rx_guard_fn g).Ts = g.Ts ∧
      (nodeb_rx_guard_fn g).Th = g.Th ∧ (nodeb_rx_guard_fn g).Tc = g.Tc ∧
      (nodeb_rx_guard_fn g).v_prev_rpm = g.v_prev_rpm ∧ (nodeb_rx_guard_fn g).dt_ms = g.dt_ms ∧
      (nodeb_rx_guard_fn g).have_feedback = g.have_feedback ∧
      ∀ cf : can_frame, cf.wf → cf.can_id &&& CAN_SFF_MASK = 0x202 → cf.len = 8 →
        ((0 < g.cfg.tau_d_min_s ∨ 0 < g.st.tau_d) →
          ∃ g1, nodeb_rx_dispatch (nodeb_rx_guard_fn g) cf = some g1) ∧
        ∀ g1, nodeb_rx_dispatch (nodeb_rx_guard_fn g) cf = some g1 →
          g1.tx_timer_active = true ∧ g1.rx_guard_active = true := by
  have heq : nodeb_rx_guard_fn g =
      { g with tx_timer_active := false, rx_guard_active := false } := by
    unfold nodeb_rx_guard_fn
    cases h : g.tx_timer_active <;> simp [h]
  refine ⟨by rw [heq], by rw [heq], heq, by rw [heq], by rw [heq], by rw [heq], by rw [heq],
    by rw [heq], by rw [heq], by rw [heq], by rw [heq], by rw [heq], by rw [heq], ?_⟩
  intro cf hwf hid hlen
  constructor
  · intro htau
    exact dispatch_defined _ cf hwf (by rw [heq]; exact htau)
  · intro g1 h
    obtain ⟨c1, _, rfl⟩ := dispatch_feedback_result _ g1 cf hid hlen h
    exact ⟨rfl, rfl⟩

theorem guard_disarms_feedback_rearms_witness :
    ({ ctx_stale with tx_timer_active := true, rx_guard_active := true } : nodeb_ctx).tx_timer_active
        = true ∧
      (nodeb_rx_guard_fn { ctx_stale with tx_timer_active := true, rx_guard_active := true }
        ).tx_timer_active = false ∧
      (nodeb_rx_guard_fn { ctx_stale with tx_timer_active := true, rx_guard_active := true }
        ).omega_cmd_rpm = 4000 ∧
      ∃ g1, nodeb_rx_dispatch
        (nodeb_rx_guard_fn { ctx_stale with tx_timer_active := true, rx_guard_active := true })
        frame_A = some g1 :=
  ⟨rfl,
    (guard_disarms_feedback_rearms
      { ctx_stale with tx_timer_active := true, rx_guard_active := true }).1,
    (guard_disarms_feedback_rearms
      { ctx_stale with tx_timer_active := true, rx_guard_active := true }).2.2.2.1,
    ((guard_disarms_feedback_rearms
      { ctx_stale with tx_timer_active := true, rx_guard_active := true }).2.2.2.2.2.2.2.2.2.2.2.2.2
        frame_A (by decide) (by decide) (by decide)).1 (Or.inl (by decide))⟩


/-! ## The configuration after one frame -/

theorem dispatch_setpoint_val (g : nodeb_ctx) (cf : can_frame) (hwf : cf.wf)
    (hid : cf.can_id &&& CAN_SFF_MASK = 0x301) (hlen : 2 ≤ cf.len) :
    nodeb_rx_dispatch g cf = some { g with cfg := { g.cfg with
      Ts_sp := Int.tdiv (s16_of_le (cf.byte 0) (cf.byte 1) * 65536) 10 } } := by
  have hb := byte_lt cf hwf
  have hr := s16_of_le_range (cf.byte 0) (cf.byte 1) (hb 0) (hb 1)
  rw [dispatch_setpoint g cf hid hlen, le_to_s16_eq _ _ (hb 0) (hb 1),
    q_from_q01_temp_eq _ hr.1 hr.2]

theorem dispatch_tgains_val (g : nodeb_ctx) (cf : can_frame) (hwf : cf.wf)
    (hid : cf.can_id &&& CAN_SFF_MASK = 0x300) (hlen : 7 ≤ cf.len) :
    nodeb_rx_dispatch g cf = some { g with cfg := { g.cfg with
      KpT := (u16_of_le (cf.byte 0) (cf.byte 1) : Int) * 256
      KiT := (u16_of_le (cf.byte 2) (cf.byte 3) : Int) * 256
      KdT := (u16_of_le (cf.byte 4) (cf.byte 5) : Int) * 256
      kawT := (cf.byte 6 : Int) * 4096 } } := by
  have hb := byte_lt cf hwf
  have hu : ∀ i j, u16_of_le (cf.byte i) (cf.byte j) < 65536 := by
    intro i j
    have := hb i
    have := hb j
    unfold u16_of_le
    omega
  rw [dispatch_tgains g cf hid hlen, le_to_u16_eq _ _ (hb 0) (hb 1),
    le_to_u16_eq _ _ (hb 2) (hb 3), le_to_u16_eq _ _ (hb 4) (hb 5),
    u16_gain_eq _ (hu 0 1) 256 (by norm_num) (by norm_num),
    u16_gain_eq _ (hu 2 3) 256 (by norm_num) (by norm_num),
    u16_gain_eq _ (hu 4 5) 256 (by norm_num) (by norm_num),
    u16_gain_eq _ (by have := hb 6; omega) 4096 (by norm_num) (by norm_num)]

theorem dispatch_fgains_val (g : nodeb_ctx) (cf : can_frame) (hwf : cf.wf)
    (hid : cf.can_id &&& CAN_SFF_MASK = 0x302) (hlen : 7 ≤ cf.len) :
    nodeb_rx_dispatch g cf = some { g with cfg := { g.cfg with
      Kpm := (u16_of_le (cf.byte 0) (cf.byte 1) : Int) * 256
      Kim := (u16_of_le (cf.byte 2) (cf.byte 3) : Int) * 256
      kawm := (cf.byte 4 : Int) * 4096
      kvw := (cf.byte 5 : Int) * 4096
      kwv := (cf.byte 6 : Int) * 4096 } } := by
  have hb := byte_lt cf hwf
  have hu : ∀ i j, u16_of_le (cf.byte i) (cf.byte j) < 65536 := by
    intro i j
    have := hb i
    have := hb j
    unfold u16_of_le
    omega
  have h8 : ∀ i, cf.byte i < 65536 := fun i => by have := hb i; omega
  rw [dispatch_fgains g cf hid hlen, le_to_u16_eq _ _ (hb 0) (hb 1),
    le_to_u16_eq _ _ (hb 2) (hb 3),
    u16_gain_eq _ (hu 0 1) 256 (by norm_num) (by norm_num),
    u16_gain_eq _ (hu 2 3) 256 (by norm_num) (by norm_num),
    u16_gain_eq _ (h8 4) 4096 (by norm_num) (by norm_num),
    u16_gain_eq _ (h8 5) 4096 (by norm_num) (by norm_num),
    u16_gain_eq _ (h8 6) 4096 (by norm_num) (by norm_num)]

/-- The configuration after any well-formed frame: unchanged, or a new setpoint
from a signed 16-bit raw value, or new temperature-loop gains, or new flow-loop
and decoupling gains, each from unsigned wire values. -/
theorem dispatch_cfg_cases (g g1 : nodeb_ctx) (cf : can_frame) (hwf : cf.wf)
    (h : nodeb_rx_dispatch g cf = some g1) :
    g1.cfg = g.cfg ∨
      (∃ t : Int, -32768 ≤ t ∧ t ≤ 32767 ∧
        g1.cfg = { g.cfg with Ts_sp := Int.tdiv (t * 65536) 10 }) ∨
      (∃ kp ki kd kaw : Nat, kp < 65536 ∧ ki < 65536 ∧ kd < 65536 ∧ kaw < 256 ∧
        g1.cfg = { g.cfg with KpT := (kp : Int) * 256, KiT := (ki : Int) * 256
                              KdT := (kd : Int) * 256, kawT := (kaw : Int) * 4096 }) ∨
      (∃ kpm kim kawm kvw kwv : Nat, kpm < 65536 ∧ kim < 65536 ∧ kawm < 256 ∧ kvw < 256 ∧
        kwv < 256 ∧
        g1.cfg = { g.cfg with Kpm := (kpm : Int) * 256, Kim := (kim : Int) * 256
                              kawm := (kawm : Int) * 4096, kvw := (kvw : Int) * 4096
                              kwv := (kwv : Int) * 4096 }) := by
  have hb := byte_lt cf hwf
  have hu : ∀ i j, u16_of_le (cf.byte i) (cf.byte j) < 65536 := by
    intro i j
    have := hb i
    have := hb j
    unfold u16_of_le
    omega
  by_cases hfb : cf.can_id &&& CAN_SFF_MASK = 0x202 ∧ cf.len = 8
  · left
    rw [dispatch_feedback g cf hfb.1 hfb.2] at h
    simp only [Option.bind_eq_some] at h
    obtain ⟨g2, hstep, hg1⟩ := h
    have fcfg := (controller_step_frame _ _ hstep).1
    rw [(feedback_ctx_keeps g cf).1] at fcfg
    cases hg1
    exact fcfg
  by_cases h301 : cf.can_id &&& CAN_SFF_MASK = 0x301 ∧ 2 ≤ cf.len
  · right; left
    rw [dispatch_setpoint_val g cf hwf h301.1 h301.2] at h
    cases h
    exact ⟨_, (s16_of_le_range _ _ (hb 0) (hb 1)).1, (s16_of_le_range _ _ (hb 0) (hb 1)).2, rfl⟩
  by_cases h300 : cf.can_id &&& CAN_SFF_MASK = 0x300 ∧ 7 ≤ cf.len
  · right; right; left
    rw [dispatch_tgains_val g cf hwf h300.1 h300.2] at h
    cases h
    exact ⟨_, _, _, _, hu 0 1, hu 2 3, hu 4 5, hb 6, rfl⟩
  by_cases h302 : cf.can_id &&& CAN_SFF_MASK = 0x302 ∧ 7 ≤ cf.len
  · right; right; right
    rw [dispatch_fgains_val g cf hwf h302.1 h302.2] at h
    cases h
    exact ⟨_, _, _, _, _, hu 0 1, hu 2 3, hb 4, hb 5, hb 6, rfl⟩
  left
  by_cases i101 : cf.can_id &&& CAN_SFF_MASK = 0x101
  · rw [dispatch_enable g cf i101] at h; cases h; rfl
  by_cases i202 : cf.can_id &&& CAN_SFF_MASK = 0x202
  · rw [dispatch_feedback_badlen g cf i202 (fun hl => hfb ⟨i202, hl⟩)] at h; cases h; rfl
  by_cases i301 : cf.can_id &&& CAN_SFF_MASK = 0x301
  · rw [dispatch_setpoint_short g cf i301 (by
      have : ¬ 2 ≤ cf.len := fun hl => h301 ⟨i301, hl⟩
      omega)] at h
    cases h; rfl
  by_cases i300 : cf.can_id &&& CAN_SFF_MASK = 0x300
  · rw [dispatch_tgains_short g cf i300 (by
      have : ¬ 7 ≤ cf.len := fun hl => h300 ⟨i300, hl⟩
      omega)] at h
    cases h; rfl
  by_cases i302 : cf.can_id &&& CAN_SFF_MASK = 0x302
  · rw [dispatch_fgains_short g cf i302 (by
      have : ¬ 7 ≤ cf.len := fun hl => h302 ⟨i302, hl⟩
      omega)] at h
    cases h; rfl
  rw [dispatch_unknown g cf i101 i202 i300 i301 i302] at h
  cases h; rfl


/-! ## Sign of the decoupling gains -/

theorem dispatch_decoupling_nonneg (g g1 : nodeb_ctx) (cf : can_frame) (hwf : cf.wf)
    (h : nodeb_rx_dispatch g cf = some g1) :
    (0 ≤ g.cfg.kvw → 0 ≤ g1.cfg.kvw) ∧ (0 ≤ g.cfg.kwv → 0 ≤ g1.cfg.kwv) := by
  rcases dispatch_cfg_cases g g1 cf hwf h with hc | ⟨t, _, _, hc⟩ | ⟨kp, ki, kd, kaw, _, _, _, _, hc⟩ |
    ⟨kpm, kim, kawm, kvw, kwv, _, _, _, _, _, hc⟩
  · rw [hc]; exact ⟨id, id⟩
  · rw [hc]; exact ⟨id, id⟩
  · rw [hc]; exact ⟨id, id⟩
  · rw [hc]
    constructor
    · intro _
      show 0 ≤ (kvw : Int) * 4096
      positivity
    · intro _
      show 0 ≤ (kwv : Int) * 4096
      positivity

theorem dispatch_all_decoupling_nonneg (frames : List can_frame) :
    ∀ g g1 : nodeb_ctx, (∀ f ∈ frames, f.wf) → nodeb_rx_dispatch_all g frames = some g1 →
      (0 ≤ g.cfg.kvw → 0 ≤ g1.cfg.kvw) ∧ (0 ≤ g.cfg.kwv → 0 ≤ g1.cfg.kwv) := by
  induction frames with
  | nil =>
    intro g g1 _ h
    simp only [nodeb_rx_dispatch_all] at h
    cases h
    exact ⟨id, id⟩
  | cons cf rest ih =>
    intro g g1 hwf h
    simp only [nodeb_rx_dispatch_all, Option.bind_eq_some] at h
    obtain ⟨g2, h2, hrest⟩ := h
    have h1 := dispatch_decoupling_nonneg g g2 cf (hwf cf (List.mem_cons_self _ _)) h2
    have h3 := ih g2 g1 (fun f hf => hwf f (List.mem_cons_of_mem _ hf)) hrest
    exact ⟨fun h0 => h3.1 (h1.1 h0), fun h0 => h3.2 (h1.2 h0)⟩

/-- C12: the decoupling gains are negative only through the defaults.
`ctrl_defaults` sets `kvw < 0` and `kwv < 0`; every FlowGains (0x302) frame of
length at least 7 is processed and leaves both `kvw` and `kwv` in
`[0, 255 * 4096]`; and once a gain is non-negative it stays non-negative through
every sequence of frames whatsoever. -/
theorem decoupling_gains_negative_only_by_default :
    (∀ ctx : nodeb_ctx, (ctrl_defaults ctx).cfg.kvw < 0 ∧ (ctrl_defaults ctx).cfg.kwv < 0) ∧
      (∀ (g : nodeb_ctx) (cf : can_frame), cf.wf → cf.can_id &&& CAN_SFF_MASK = 0x302 →
        7 ≤ cf.len →
        ∃ g1, nodeb_rx_dispatch g cf = some g1 ∧ 0 ≤ g1.cfg.kvw ∧ g1.cfg.kvw ≤ 255 * 4096 ∧
          0 ≤ g1.cfg.kwv ∧ g1.cfg.kwv ≤ 255 * 4096) ∧
      ∀ (g g1 : nodeb_ctx) (frames : List can_frame), (∀ f ∈ frames, f.wf) →
        nodeb_rx_dispatch_all g frames = some g1 →
        (0 ≤ g.cfg.kvw → 0 ≤ g1.cfg.kvw) ∧ (0 ≤ g.cfg.kwv → 0 ≤ g1.cfg.kwv) := by
  refine ⟨?_, ?_, ?_⟩
  · intro ctx
    have hv : (ctrl_defaults ctx).cfg.kvw = -13106 := by
      show wrap_s64 (-(wrap_s64 (Int.tdiv Q_ONE 6 + Int.tdiv Q_ONE 30))) = -13106
      decide
    have hw : (ctrl_defaults ctx).cfg.kwv = -1310 := by
      show wrap_s64 (-(Int.tdiv Q_ONE 50)) = -1310
      decide
    rw [hv, hw]
    exact ⟨by norm_num, by norm_num⟩
  · intro g cf hwf hid hlen
    have h5 := byte_lt cf hwf 5
    have h6 := byte_lt cf hwf 6
    refine ⟨_, dispatch_fgains_val g cf hwf hid hlen, ?_, ?_, ?_, ?_⟩
    · show 0 ≤ (cf.byte 5 : Int) * 4096
      positivity
    · show (cf.byte 5 : Int) * 4096 ≤ 255 * 4096
      omega
    · show 0 ≤ (cf.byte 6 : Int) * 4096
      positivity
    · show (cf.byte 6 : Int) * 4096 ≤ 255 * 4096
      omega
  · intro g g1 frames hwf h
    exact dispatch_all_decoupling_nonneg frames g g1 hwf h

theorem decoupling_gains_negative_only_by_default_witness :
    (ctrl_defaults nodeb_ctx_zero).cfg.kvw < 0 ∧
      (∃ g1, nodeb_rx_dispatch nodeb_init frame_fgains = some g1 ∧ 0 ≤ g1.cfg.kvw ∧
        g1.cfg.kvw ≤ 255 * 4096 ∧ 0 ≤ g1.cfg.kwv ∧ g1.cfg.kwv ≤ 255 * 4096) ∧
      ((0 : Int) ≤ 0 → 0 ≤ ({ nodeb_ctx_zero with state := 1 } : nodeb_ctx).cfg.kvw) :=
  ⟨(decoupling_gains_negative_only_by_default.1 nodeb_ctx_zero).1,
    decoupling_gains_negative_only_by_default.2.1 nodeb_init frame_fgains (by decide) (by decide)
      (by decide),
    (decoupling_gains_negative_only_by_default.2.2 nodeb_ctx_zero { nodeb_ctx_zero with state := 1 }
      [frame_enable] (by decide) (by rfl)).1⟩


/-! ## Interval arithmetic for the fixed-point kernel -/

theorem tdiv_mul_near (a b : Int) (hb : 0 < b) :
    a - b < Int.tdiv a b * b ∧ Int.tdiv a b * b < a + b ∧ (0 ≤ a → Int.tdiv a b * b ≤ a) ∧
      (a ≤ 0 → a ≤ Int.tdiv a b * b) := by
  have h1 := Int.lt_tdiv_add_one_mul_self a hb
  have h2 := Int.lt_tdiv_add_one_mul_self (-a) hb
  rw [Int.neg_tdiv] at h2
  have e1 : (Int.tdiv a b + 1) * b = Int.tdiv a b * b + b := by ring
  have e2 : (-Int.tdiv a b + 1) * b = -(Int.tdiv a b * b) + b := by ring
  rw [e1] at h1
  rw [e2] at h2
  refine ⟨by omega, by omega, ?_, ?_⟩
  · intro ha
    rw [Int.tdiv_eq_ediv ha (le_of_lt hb)]
    exact Int.ediv_mul_le a (ne_of_gt hb)
  · intro ha
    have h3 : (-a).tdiv b * b ≤ -a := by
      rw [Int.tdiv_eq_ediv (by omega) (le_of_lt hb)]
      exact Int.ediv_mul_le (-a) (ne_of_gt hb)
    rw [Int.neg_tdiv] at h3
    have e3 : -Int.tdiv a b * b = -(Int.tdiv a b * b) := by ring
    rw [e3] at h3
    omega

theorem tdiv_abs_le (a b M : Int) (hb : 0 < b) (h : -M ≤ a ∧ a ≤ M) :
    -M ≤ Int.tdiv a b ∧ Int.tdiv a b ≤ M := by
  obtain ⟨_, _, h3, h4⟩ := tdiv_mul_near a b hb
  rcases le_total 0 a with ha | ha
  · have h0 : 0 ≤ Int.tdiv a b := Int.tdiv_nonneg ha (le_of_lt hb)
    have := h3 ha
    constructor
    · omega
    · nlinarith
  · have h0 : 0 ≤ Int.tdiv (-a) b := Int.tdiv_nonneg (by omega) (le_of_lt hb)
    rw [Int.neg_tdiv] at h0
    have := h4 ha
    constructor
    · nlinarith
    · omega

theorem mul_bound (a b A B : Int) (ha : -A ≤ a ∧ a ≤ A) (hb : -B ≤ b ∧ b ≤ B) :
    -(A * B) ≤ a * b ∧ a * b ≤ A * B := by
  constructor
  · nlinarith [mul_nonneg (sub_nonneg.2 ha.2) (sub_nonneg.2 (show -B ≤ b from hb.1)),
      mul_nonneg (sub_nonneg.2 (show -A ≤ a from ha.1)) (sub_nonneg.2 hb.2)]
  · nlinarith [mul_nonneg (sub_nonneg.2 ha.2) (sub_nonneg.2 hb.2),
      mul_nonneg (sub_nonneg.2 (show -A ≤ a from ha.1)) (sub_nonneg.2 (show -B ≤ b from hb.1))]

theorem Q_MUL_ok (a b P : Int) (h : -P ≤ a * b ∧ a * b ≤ P) (hP : P ≤ 9223372036854775807) :
    s64_ok (a * b) ∧ Q_MUL a b = a * b / 65536 ∧ -(P / 65536) - 1 ≤ Q_MUL a b ∧
      Q_MUL a b ≤ P / 65536 := by
  unfold Q_MUL wrap_s64 s64_ok
  generalize a * b = p at h ⊢
  omega

theorem wrap_s64_id (x : Int) (h : s64_ok x) : wrap_s64 x = x := by
  unfold s64_ok at h
  unfold wrap_s64
  omega

/-- One update of the derivative filter with `tau_d = 1.0`: no operation leaves
`s64`, and the new state is `Th - dTh_f * dt` up to rounding. -/
theorem filter_step (Th d dt A t1 t2 x n : Int) (hTh : -214748364 ≤ Th ∧ Th ≤ 214748364)
    (hd : -300000000 ≤ d ∧ d ≤ 300000000) (hdt : 65 ≤ dt ∧ dt ≤ 16711)
    (hA : A = wrap_s64 (Th - d)) (ht1 : t1 = Int.tdiv (wrap_s64 (A * 65536)) dt)
    (ht2 : t2 = Int.tdiv (wrap_s64 (d * 65536)) 65536) (hx : x = wrap_s64 (t1 - t2))
    (hn : n = wrap_s64 (d + Q_MUL x dt)) :
    s64_ok (Th - d) ∧ s64_ok (A * 65536) ∧ s64_ok (d * 65536) ∧ s64_ok (t1 - t2) ∧
      s64_ok (x * dt) ∧ s64_ok (d + Q_MUL x dt) ∧
      65536 * Th - d * dt - dt - 65536 < 65536 * n ∧ 65536 * n ≤ 65536 * Th - d * dt + dt := by
  have o1 : s64_ok (Th - d) := by unfold s64_ok; omega
  have eA : A = Th - d := by rw [hA, wrap_s64_id _ o1]
  have o2 : s64_ok (A * 65536) := by unfold s64_ok; omega
  have o3 : s64_ok (d * 65536) := by unfold s64_ok; omega
  have e2 : t2 = d := by
    rw [ht2, wrap_s64_id _ o3]
    exact Int.mul_tdiv_cancel d (by norm_num)
  rw [wrap_s64_id _ o2] at ht1
  obtain ⟨n1, n2, _, _⟩ := tdiv_mul_near (A * 65536) dt (by omega)
  rw [← ht1] at n1 n2
  have b1 := tdiv_abs_le (A * 65536) dt (514748364 * 65536) (by omega) (by omega)
  rw [← ht1] at b1
  have o4 : s64_ok (t1 - t2) := by unfold s64_ok; omega
  have ex : x = t1 - d := by rw [hx, wrap_s64_id _ o4, e2]
  have hp := mul_bound d dt 300000000 16711 hd (by omega)
  have exd : x * dt = t1 * dt - d * dt := by rw [ex]; ring
  have o5 : s64_ok (x * dt) := by
    rw [exd]
    unfold s64_ok
    omega
  have eq : Q_MUL x dt = (t1 * dt - d * dt) / 65536 := by
    unfold Q_MUL
    rw [wrap_s64_id _ o5, exd]
  have o6 : s64_ok (d + Q_MUL x dt) := by
    rw [eq]
    unfold s64_ok
    omega
  rw [wrap_s64_id _ o6, eq] at hn
  refine ⟨o1, o2, o3, o4, o5, o6, ?_, ?_⟩
  · omega
  · omega


/-! ## Ranges kept by the running node -/

theorem controller_step_next (c : nodeb_ctx) (hdt : c.dt_ms < 256) (h : nonidle c)
    (htau : 0 < step_tau_d c) : controller_step c = some (step_next c) :=
  controller_step_defined c hdt h htau

theorem temp_range (t : Int) (h0 : -32768 ≤ t) (h1 : t ≤ 32767) :
    -214748364 ≤ Int.tdiv (t * 65536) 10 ∧ Int.tdiv (t * 65536) 10 ≤ 214748364 := by
  obtain ⟨n1, n2, n3, n4⟩ := tdiv_mul_near (t * 65536) 10 (by norm_num)
  rcases le_total 0 t with ht | ht
  · have := n3 (by omega)
    omega
  · have := n4 (by omega)
    omega

theorem step_dt_range (n : Nat) (h0 : n ≠ 0) (h1 : n ≤ 255) :
    65 ≤ step_dt n ∧ step_dt n ≤ 16711 := by
  unfold step_dt
  omega

theorem step_tau_d_eq (c : nodeb_ctx) (h : step_ranges c) : step_tau_d c = 65536 := by
  obtain ⟨hcfg, _, _, htau, _⟩ := h
  have hmin : c.cfg.tau_d_min_s = 65 := hcfg.2.2.2.2.2.2.2.2.2.2.2.2.2.2.2
  unfold step_tau_d
  rw [htau, hmin]
  decide

/-- The filter state after a step taken within `step_ranges`. -/
theorem step_next_dTh_f (c : nodeb_ctx) (h : step_ranges c) (hni : nonidle c) :
    65536 * c.Th - c.st.dTh_f * step_dt c.dt_ms - step_dt c.dt_ms - 65536
        < 65536 * (step_next c).st.dTh_f ∧
      65536 * (step_next c).st.dTh_f
        ≤ 65536 * c.Th - c.st.dTh_f * step_dt c.dt_ms + step_dt c.dt_ms := by
  have htau := step_tau_d_eq c h
  obtain ⟨_, _, hd, _, _, hTh, _, hdt⟩ := h
  have hr := step_dt_range c.dt_ms hni.2 hdt
  have hf := filter_step c.Th c.st.dTh_f (step_dt c.dt_ms) _ (step_term1 c) (step_term2 c) _
    (step_next c).st.dTh_f hTh hd hr rfl rfl (by unfold step_term2; rw [htau]) rfl rfl
  exact ⟨hf.2.2.2.2.2.2.1, hf.2.2.2.2.2.2.2⟩

/-- A step taken within `step_ranges` returns, stays within `step_ranges` and
gives commands within the default limits. -/
theorem step_ranges_next (c : nodeb_ctx) (h : step_ranges c) (hni : nonidle c) :
    controller_step c = some (step_next c) ∧ step_ranges (step_next c) ∧
      (step_next c).omega_cmd_rpm ≤ 4000 ∧ (step_next c).v_cmd_rpm ≤ 2800 := by
  have htau := step_tau_d_eq c h
  have hfl := step_next_dTh_f c h hni
  obtain ⟨hcfg, heta, hd, htd, hTs, hTh, hv, hdt⟩ := h
  have hr := step_dt_range c.dt_ms hni.2 hdt
  have hp := mul_bound c.st.dTh_f (step_dt c.dt_ms) 300000000 16711 hd (by omega)
  have hom : c.cfg.omega_max_rpm = 4000 := hcfg.2.2.2.2.2.2.2.2.2.2.2.2.1
  have hvm : c.cfg.v_max_rpm = 2800 := hcfg.2.2.2.2.2.2.2.2.2.2.2.2.2.1
  have hcmd := step_result_cmd c
    (by
      obtain ⟨a1, a2, a3, a4, a5, a6, a7, a8, a9, a10, a11, a12, a13, a14, a15, a16⟩ := hcfg
      unfold ctrl_cfg.wf s64_ok
      omega)
    (step_dt c.dt_ms) (step_term1 c) (step_term2 c)
  rw [hom, hvm] at hcmd
  refine ⟨controller_step_next c (by omega) hni (by rw [htau]; norm_num), ?_, hcmd.1, hcmd.2.1⟩
  refine ⟨hcfg, step_result_eta c _ _ _, ?_, htau, hTs, hTh, hv, hdt⟩
  constructor
  · omega
  · omega


theorem dispatch_state (g g1 : nodeb_ctx) (cf : can_frame)
    (h : nodeb_rx_dispatch g cf = some g1) :
    g1.state = g.state ∨ g1.state = 1 ∨ g1.state = 2 := by
  by_cases hfb : cf.can_id &&& CAN_SFF_MASK = 0x202 ∧ cf.len = 8
  · obtain ⟨c1, _, rfl⟩ := dispatch_feedback_result g g1 cf hfb.1 hfb.2 h
    exact Or.inr (Or.inr rfl)
  by_cases i101 : cf.can_id &&& CAN_SFF_MASK = 0x101
  · rw [dispatch_enable g cf i101] at h; cases h; exact Or.inr (Or.inl rfl)
  by_cases i202 : cf.can_id &&& CAN_SFF_MASK = 0x202
  · rw [dispatch_feedback_badlen g cf i202 (fun hl => hfb ⟨i202, hl⟩)] at h
    cases h; exact Or.inr (Or.inr rfl)
  by_cases i301 : cf.can_id &&& CAN_SFF_MASK = 0x301
  · by_cases hl : 2 ≤ cf.len
    · rw [dispatch_setpoint g cf i301 hl] at h; cases h; exact Or.inl rfl
    · rw [dispatch_setpoint_short g cf i301 (by omega)] at h; cases h; exact Or.inl rfl
  by_cases i300 : cf.can_id &&& CAN_SFF_MASK = 0x300
  · by_cases hl : 7 ≤ cf.len
    · rw [dispatch_tgains g cf i300 hl] at h; cases h; exact Or.inl rfl
    · rw [dispatch_tgains_short g cf i300 (by omega)] at h; cases h; exact Or.inl rfl
  by_cases i302 : cf.can_id &&& CAN_SFF_MASK = 0x302
  · by_cases hl : 7 ≤ cf.len
    · rw [dispatch_fgains g cf i302 hl] at h; cases h; exact Or.inl rfl
    · rw [dispatch_fgains_short g cf i302 (by omega)] at h; cases h; exact Or.inl rfl
  rw [dispatch_unknown g cf i101 i202 i300 i301 i302] at h
  cases h; exact Or.inl rfl

theorem dispatch_cfg_ranges (g g1 : nodeb_ctx) (cf : can_frame) (hwf : cf.wf)
    (hr : cfg_ranges g.cfg) (h : nodeb_rx_dispatch g cf = some g1) : cfg_ranges g1.cfg := by
  obtain ⟨a1, a2, a3, a4, a5, a6, a7, a8, a9, a10, a11, a12, a13, a14, a15, a16⟩ := hr
  rcases dispatch_cfg_cases g g1 cf hwf h with hc | ⟨t, t0, t1, hc⟩ |
    ⟨kp, ki, kd, kaw, _, _, _, _, hc⟩ | ⟨kpm, kim, kawm, kvw, kwv, _, _, _, _, _, hc⟩
  · rw [hc]; exact ⟨a1, a2, a3, a4, a5, a6, a7, a8, a9, a10, a11, a12, a13, a14, a15, a16⟩
  · rw [hc]
    exact ⟨temp_range t t0 t1, a2, a3, a4, a5, a6, a7, a8, a9, a10, a11, a12, a13, a14, a15, a16⟩
  · rw [hc]
    refine ⟨a1, ?_, ?_, ?_, a5, a6, ?_, a8, a9, a10, a11, a12, a13, a14, a15, a16⟩ <;>
      simp only <;> omega
  · rw [hc]
    refine ⟨a1, a2, a3, a4, ?_, ?_, a7, ?_, ?_, ?_, a11, a12, a13, a14, a15, a16⟩ <;>
      simp only <;> omega

/-- The sample stored from a well-formed Feedback frame, within `step_ranges`. -/
theorem feedback_ctx_ranges (g : nodeb_ctx) (cf : can_frame) (hwf : cf.wf)
    (hr : step_ranges g) :
    step_ranges (feedback_ctx g cf) ∧ nonidle (feedback_ctx g cf) ∧
      (-214748364 ≤ (feedback_ctx g cf).Tc ∧ (feedback_ctx g cf).Tc ≤ 214748364) := by
  have hb := byte_lt cf hwf
  obtain ⟨hTs, hTh, hTc, hv, hdt, hfb⟩ := feedback_ctx_sample g cf hwf
  obtain ⟨kcfg, kst, _⟩ := feedback_ctx_keeps g cf
  obtain ⟨hcfg, heta, hd, htd, _, _, _, _⟩ := hr
  have r01 := s16_of_le_range _ _ (hb 0) (hb 1)
  have r23 := s16_of_le_range _ _ (hb 2) (hb 3)
  have r45 := s16_of_le_range _ _ (hb 4) (hb 5)
  have h6 := hb 6
  have h7 := hb 7
  refine ⟨⟨by rw [kcfg]; exact hcfg, by rw [kst]; exact heta, by rw [kst]; exact hd,
    by rw [kst]; exact htd, by rw [hTs]; exact temp_range _ r01.1 r01.2,
    by rw [hTh]; exact temp_range _ r23.1 r23.2, by rw [hv]; omega,
    by rw [hdt]; split_ifs <;> omega⟩, ⟨hfb, by rw [hdt]; split_ifs <;> omega⟩,
    by rw [hTc]; exact temp_range _ r45.1 r45.2⟩

theorem dispatch_feedback_next (g c1 : nodeb_ctx) (cf : can_frame)
    (hid : cf.can_id &&& CAN_SFF_MASK = 0x202) (hlen : cf.len = 8)
    (hstep : controller_step (feedback_ctx g cf) = some c1) :
    nodeb_rx_dispatch g cf =
      some { c1 with tx_timer_active := true, rx_guard_active := true, state := 2 } := by
  rw [dispatch_feedback g cf hid hlen, hstep]
  rfl

theorem node_ranges_arm (c1 : nodeb_ctx) (h : step_ranges c1)
    (hTc : -214748364 ≤ c1.Tc ∧ c1.Tc ≤ 214748364) (hfb : c1.have_feedback = true)
    (hdt : c1.dt_ms ≠ 0) (ho : c1.omega_cmd_rpm ≤ 4000) (hv : c1.v_cmd_rpm ≤ 2800)
    (hseq : c1.seq < 256) (hlen : c1.rx_fifo.length ≤ 128) (hq : ∀ f ∈ c1.rx_fifo, f.wf) :
    node_ranges { c1 with tx_timer_active := true, rx_guard_active := true, state := 2 } :=
  ⟨h, hTc, fun _ => hdt, ho, hv, fun _ => hfb, fun _ => hfb, Or.inr (Or.inr rfl), hseq, hlen, hq⟩

/-- Every well-formed frame is processed without fault in a state within
`node_ranges`, and the state after it is within `node_ranges` again. -/
theorem dispatch_node_ranges (g : nodeb_ctx) (cf : can_frame) (hwf : cf.wf)
    (hr : node_ranges g) : ∃ g1, nodeb_rx_dispatch g cf = some g1 ∧ node_ranges g1 := by
  obtain ⟨hs, hTc, hfd, hoc, hvc, htx, hgu, hst, hseq, hlen, hq⟩ := hr
  by_cases hfb : cf.can_id &&& CAN_SFF_MASK = 0x202 ∧ cf.len = 8
  · obtain ⟨hcs, hni, hTc1⟩ := feedback_ctx_ranges g cf hwf hs
    obtain ⟨hstep, hnext, ho, hv⟩ := step_ranges_next (feedback_ctx g cf) hcs hni
    obtain ⟨_, _, _, fTc, _, fdt, ffb, _, fseq, ffifo, _⟩ := controller_step_frame _ _ hstep
    obtain ⟨_, _, kfifo, kseq, _⟩ := feedback_ctx_keeps g cf
    exact ⟨_, dispatch_feedback_next g (step_next (feedback_ctx g cf)) cf hfb.1 hfb.2 hstep,
      node_ranges_arm _ hnext (by rw [fTc]; exact hTc1) (by rw [ffb]; exact hni.1)
        (by rw [fdt]; exact hni.2) ho hv (by rw [fseq, kseq]; exact hseq)
        (by rw [ffifo, kfifo]; exact hlen) (by rw [ffifo, kfifo]; exact hq)⟩
  · obtain ⟨g1, hd, e1, e2, e3, e4, e5, e6, e7, e8, e9, e10, e11, e12, e13, _⟩ :=
      dispatch_other g cf hfb
    have hcfg := dispatch_cfg_ranges g g1 cf hwf hs.1 hd
    have hstate := dispatch_state g g1 cf hd
    obtain ⟨_, heta, hdf, htd, hTs, hTh, hv, hdt⟩ := hs
    refine ⟨g1, hd, ⟨hcfg, by rw [e1]; exact heta, by rw [e1]; exact hdf, by rw [e1]; exact htd,
      by rw [e2]; exact hTs, by rw [e3]; exact hTh, by rw [e5]; exact hv,
      by rw [e6]; exact hdt⟩, by rw [e4]; exact hTc, by rw [e7, e6]; exact hfd,
      by rw [e8]; exact hoc, by rw [e9]; exact hvc, by rw [e12, e7]; exact htx,
      by rw [e13, e7]; exact hgu, ?_, by rw [e10]; exact hseq, by rw [e11]; exact hlen,
      by rw [e11]; exact hq⟩
    rcases hstate with h | h | h
    · rw [h]; exact hst
    · exact Or.inr (Or.inl h)
    · exact Or.inr (Or.inr h)


theorem reachable_node_ranges (g : nodeb_ctx) (hg : Reachable g) : node_ranges g := by
  induction hg with
  | init =>
    refine ⟨⟨?_, by decide, by decide, by decide, by decide, by decide, by decide, by decide⟩,
      by decide, by decide, by decide, by decide, by decide, by decide, by decide, by decide,
      by decide, by decide⟩
    unfold cfg_ranges
    decide
  | rx g cf _ hcf ih =>
    obtain ⟨hs, hTc, hfd, hoc, hvc, htx, hgu, hst, hseq, hlen, hq⟩ := ih
    unfold nodeb_can_rx_cb
    split_ifs with hfull
    · exact ⟨hs, hTc, hfd, hoc, hvc, htx, hgu, hst, hseq, hlen, hq⟩
    · refine ⟨hs, hTc, hfd, hoc, hvc, htx, hgu, hst, hseq, ?_, ?_⟩
      · show (g.rx_fifo ++ [cf]).length ≤ 128
        rw [List.length_append, List.length_singleton]
        unfold RX_FIFO_ELEMS at hfull
        omega
      · intro f hf
        rcases List.mem_append.1 hf with h | h
        · exact hq f h
        · rw [List.mem_singleton.1 h]; exact hcf
  | work g g1 _ hw ih =>
    unfold nodeb_rx_work_iter at hw
    split at hw
    · cases hw
    · rename_i item rest hfifo
      obtain ⟨hs, hTc, hfd, hoc, hvc, htx, hgu, hst, hseq, hlen, hq⟩ := ih
      have hpop : node_ranges { g with rx_fifo := rest } := by
        refine ⟨hs, hTc, hfd, hoc, hvc, htx, hgu, hst, hseq, ?_, ?_⟩
        · show rest.length ≤ 128
          rw [hfifo, List.length_cons] at hlen
          omega
        · intro f hf
          exact hq f (by rw [hfifo]; exact List.mem_cons_of_mem _ hf)
      obtain ⟨g2, hd, hr⟩ := dispatch_node_ranges { g with rx_fifo := rest } item
        (hq item (by rw [hfifo]; exact List.mem_cons_self _ _)) hpop
      have heq := Option.some.inj hw
      rw [hd] at heq
      rw [← Option.some.inj heq]
      exact hr
  | tx_tick g ok _ hact ih =>
    obtain ⟨hs, hTc, hfd, hoc, hvc, htx, hgu, hst, hseq, hlen, hq⟩ := ih
    cases ok
    · exact ⟨hs, hTc, hfd, hoc, hvc, fun _ => htx hact, hgu, hst, hseq, hlen, hq⟩
    · refine ⟨hs, hTc, hfd, hoc, hvc, fun _ => htx hact, hgu, hst, ?_, hlen, hq⟩
      show (g.seq + 1) % 256 < 256
      omega
  | guard g _ _ ih =>
    obtain ⟨hs, hTc, hfd, hoc, hvc, htx, hgu, hst, hseq, hlen, hq⟩ := ih
    have heq : nodeb_rx_guard_fn g =
        { g with tx_timer_active := false, rx_guard_active := false } := by
      unfold nodeb_rx_guard_fn
      cases h : g.tx_timer_active <;> simp [h]
    rw [heq]
    exact ⟨hs, hTc, hfd, hoc, hvc, fun h => absurd h (by simp), fun h => absurd h (by simp),
      hst, hseq, hlen, hq⟩

/-! ## Divisors of `controller_step` -/

/-- C16: in every state reachable from `nodeb_init` by bus frames and timer
events both divisors of the non-idle path of `controller_step` are strictly
positive. The divisor `dt` is `floor(dt_ms * 65536 / 1000)`, at least 65 for
every `dt_ms` in 1..255, and the stored `dt_ms` is in that range once feedback
was received; the floored `tau_d` is at least `tau_d_min_s`, which is positive.
Hence `controller_step`, the dispatch of any well-formed frame and every
iteration of the worker loop return without a division fault. -/
theorem divisors_positive :
    (∀ n : Nat, 1 ≤ n → n ≤ 255 →
      Q_DIV (Q_FROM_INT n) (Q_FROM_INT 1000) = some ((n : Int) * 65536 / 1000) ∧
        65 ≤ (n : Int) * 65536 / 1000) ∧
      ∀ g : nodeb_ctx, Reachable g →
        g.dt_ms ≤ 255 ∧ (g.have_feedback = true → 1 ≤ g.dt_ms) ∧
        0 < g.cfg.tau_d_min_s ∧ g.cfg.tau_d_min_s ≤ step_tau_d g ∧
        (∃ c1, controller_step g = some c1) ∧
        (∀ cf : can_frame, cf.wf → ∃ g1, nodeb_rx_dispatch g cf = some g1) ∧
        (g.rx_fifo ≠ [] → ∃ g1, nodeb_rx_work_iter g = some (some g1)) := by
  constructor
  · intro n h1 h2
    exact Q_DIV_dt n (by omega) (by omega)
  · intro g hg
    have hr := reachable_node_ranges g hg
    obtain ⟨hs, hTc, hfd, _⟩ := hr
    have htau := step_tau_d_eq g hs
    have hmin : g.cfg.tau_d_min_s = 65 := hs.1.2.2.2.2.2.2.2.2.2.2.2.2.2.2.2
    refine ⟨hs.2.2.2.2.2.2.2, ?_, by omega, by omega, ?_, ?_, ?_⟩
    · intro hfb
      have := hfd hfb
      omega
    · by_cases hni : nonidle g
      · exact ⟨_, (step_ranges_next g hs hni).1⟩
      · have hidle : g.have_feedback = false ∨ g.dt_ms = 0 := by
          unfold nonidle at hni
          by_cases hf : g.have_feedback = true
          · right; by_contra hd; exact hni ⟨hf, hd⟩
          · left; simpa using hf
        exact ⟨_, controller_step_idle g hidle⟩
    · intro cf hwf
      obtain ⟨g1, hd, _⟩ := dispatch_node_ranges g cf hwf (reachable_node_ranges g hg)
      exact ⟨g1, hd⟩
    · intro hq
      exact reachable_work_defined g hg hq

theorem divisors_positive_witness :
    (Q_DIV (Q_FROM_INT (1 : Nat)) (Q_FROM_INT 1000) = some (((1 : Nat) : Int) * 65536 / 1000) ∧
      65 ≤ ((1 : Nat) : Int) * 65536 / 1000) ∧
      0 < (nodeb_can_rx_cb nodeb_init frame_A).cfg.tau_d_min_s ∧
      ∃ g1, nodeb_rx_work_iter (nodeb_can_rx_cb nodeb_init frame_A) = some (some g1) :=
  ⟨divisors_positive.1 1 (by decide) (by decide),
    (divisors_positive.2 (nodeb_can_rx_cb nodeb_init frame_A)
      (Reachable.rx nodeb_init frame_A Reachable.init (by decide))).2.2.1,
    (divisors_positive.2 (nodeb_can_rx_cb nodeb_init frame_A)
      (Reachable.rx nodeb_init frame_A Reachable.init (by decide))).2.2.2.2.2.2 (by decide)⟩


/-! ## Absence of overflow in `controller_step` -/

/-- The named operands are the ones of the C body: the updates of `eta_m` and
`eta_T` written with them are the fields of `step_result`. -/
theorem step_operands_eq (c : nodeb_ctx) (dt term1 term2 : Int) :
    (step_result c dt term1 term2).st.eta_m =
        q_sat (wrap_s64 (c.st.eta_m + Q_MUL (step_aw_m c) dt)) (Q_FROM_INT (-200))
          (Q_FROM_INT 200) ∧
      (step_result c dt term1 term2).st.eta_T =
        q_sat (wrap_s64 (c.st.eta_T + Q_MUL (step_aw_T c (step_dTh_f c dt term1 term2)) dt))
          (Q_FROM_INT (-500)) (Q_FROM_INT 500) ∧
      step_omega_cmd_q c = wrap_s64 (step_omega_raw_q c + Q_MUL c.cfg.kwv (step_v_diff_q c)) ∧
      step_v_cmd_q c (step_dTh_f c dt term1 term2) =
        wrap_s64 (step_v_raw_q c (step_dTh_f c dt term1 term2)
          + Q_MUL c.cfg.kvw (step_omega_diff_q c)) :=
  ⟨rfl, rfl, rfl, rfl⟩


theorem Q_FROM_INT_ok (x : Int) (h : -1000000 ≤ x ∧ x ≤ 1000000) :
    s64_ok (x * 65536) ∧ Q_FROM_INT x = x * 65536 := by
  unfold Q_FROM_INT wrap_s64 s64_ok
  omega

theorem Q_TO_INT_ok (x : Int) (h : -140737488355328 ≤ x ∧ x ≤ 140737488355327) :
    s32_ok (x / 65536) ∧ Q_TO_INT x = x / 65536 := by
  unfold Q_TO_INT wrap_s32 s32_ok
  omega

/-- The flow loop within `step_ranges`: no operation overflows, and the raw and
decoupled pump commands are given by the wrap-free expressions. -/
theorem flow_exact (c : nodeb_ctx) (h : step_ranges c) (dt : Int) (hdt : 65 ≤ dt ∧ dt ≤ 16711) :
    flow_no_overflow c dt ∧ step_e c = c.cfg.Ts_sp - c.Ts ∧
      step_omega_raw_q c =
        -(6553600 + c.cfg.Kpm * (c.cfg.Ts_sp - c.Ts) / 65536 + c.cfg.Kim * c.st.eta_m / 65536) ∧
      step_omega_cmd_q c =
        step_omega_raw_q c + c.cfg.kwv * (((c.v_prev_rpm : Int) - 100) * 65536) / 65536 ∧
      Q_TO_INT (step_omega_cmd_q c) = step_omega_cmd_q c / 65536 ∧
      (0 ≤ step_omega_cmd_i c ∧ step_omega_cmd_i c ≤ 4000) := by
  obtain ⟨hcfg, heta, hd, htd, hTs, hTh, hv, hdtms⟩ := h
  obtain ⟨cTs, cKpT, cKiT, cKdT, cKpm, cKim, ckawT, ckawm, ckvw, ckwv, co0, cv0, com, cvm, cvc,
    ctm⟩ := hcfg
  obtain ⟨em0, em1, eT0, eT1⟩ := heta
  -- dt
  have d1 := Q_FROM_INT_ok (c.dt_ms : Int) (by clear * - hdtms; omega)
  have d2 : s64_ok (1000 * 65536) := by decide
  have d3 : s64_ok (Q_FROM_INT c.dt_ms * 65536) := by
    rw [d1.2]; unfold s64_ok; clear * - hdtms; omega
  -- e_m
  have o1 : s64_ok (c.cfg.Ts_sp - c.Ts) := by unfold s64_ok; clear * - cTs hTs; omega
  have ee : step_e c = c.cfg.Ts_sp - c.Ts := wrap_s64_id _ o1
  have eb : -429496728 ≤ step_e c ∧ step_e c ≤ 429496728 := by
    rw [ee]; clear * - cTs hTs; omega
  have fo := Q_FROM_INT_ok (c.cfg.omega0_rpm : Int) (by clear * - co0; omega)
  have efo : Q_FROM_INT c.cfg.omega0_rpm = 6553600 := by rw [fo.2, co0]; rfl
  -- Q_MUL(Kpm, e_m), Q_MUL(Kim, eta_m)
  have m1 := mul_bound c.cfg.Kpm (step_e c) 16776960 429496728
    ⟨by clear * - cKpm; omega, cKpm.2⟩ eb
  obtain ⟨o2, -, q1l, q1u⟩ := Q_MUL_ok _ _ _ m1 (by norm_num)
  have m2 := mul_bound c.cfg.Kim c.st.eta_m 16776960 13107200
    ⟨by clear * - cKim; omega, cKim.2⟩ ⟨by clear * - em0; omega, by clear * - em1; omega⟩
  obtain ⟨o4, -, q2l, q2u⟩ := Q_MUL_ok _ _ _ m2 (by norm_num)
  have o3 : s64_ok (Q_FROM_INT c.cfg.omega0_rpm + Q_MUL c.cfg.Kpm (step_e c)) := by
    rw [efo]; unfold s64_ok; clear * - q1l q1u; omega
  have o5 : s64_ok (wrap_s64 (Q_FROM_INT c.cfg.omega0_rpm + Q_MUL c.cfg.Kpm (step_e c))
      + Q_MUL c.cfg.Kim c.st.eta_m) := by
    rw [wrap_s64_id _ o3, efo]; unfold s64_ok; clear * - q1l q1u q2l q2u; omega
  have o6 : s64_ok (-(wrap_s64 (wrap_s64 (Q_FROM_INT c.cfg.omega0_rpm
      + Q_MUL c.cfg.Kpm (step_e c)) + Q_MUL c.cfg.Kim c.st.eta_m))) := by
    rw [wrap_s64_id _ o5, wrap_s64_id _ o3, efo]; unfold s64_ok
    clear * - q1l q1u q2l q2u; omega
  have eraw : step_omega_raw_q c =
      -(6553600 + Q_MUL c.cfg.Kpm (step_e c) + Q_MUL c.cfg.Kim c.st.eta_m) := by
    unfold step_omega_raw_q
    rw [wrap_s64_id _ o6, wrap_s64_id _ o5, wrap_s64_id _ o3, efo]
  have rawb : -113311430248 ≤ step_omega_raw_q c ∧ step_omega_raw_q c ≤ 113311430248 := by
    rw [eraw]; clear * - q1l q1u q2l q2u; omega
  -- decoupling
  have fv := Q_FROM_INT_ok (c.v_prev_rpm : Int) (by clear * - hv; omega)
  have f0 := Q_FROM_INT_ok (c.cfg.v0_rpm : Int) (by clear * - cv0; omega)
  have o9 : s64_ok (Q_FROM_INT c.v_prev_rpm - Q_FROM_INT c.cfg.v0_rpm) := by
    rw [fv.2, f0.2]; unfold s64_ok; clear * - hv cv0; omega
  have edf : step_v_diff_q c = ((c.v_prev_rpm : Int) - 100) * 65536 := by
    unfold step_v_diff_q
    rw [wrap_s64_id _ o9, fv.2, f0.2, cv0]
    push_cast
    ring
  have dfb : -160563200 ≤ step_v_diff_q c ∧ step_v_diff_q c ≤ 160563200 := by
    rw [edf]; clear * - hv; omega
  have m3 := mul_bound c.cfg.kwv (step_v_diff_q c) 1044480 160563200
    ⟨by clear * - ckwv; omega, ckwv.2⟩ dfb
  obtain ⟨o10, -, q3l, q3u⟩ := Q_MUL_ok _ _ _ m3 (by norm_num)
  have o11 : s64_ok (step_omega_raw_q c + Q_MUL c.cfg.kwv (step_v_diff_q c)) := by
    unfold s64_ok; clear * - rawb q3l q3u; omega
  have ecq : step_omega_cmd_q c = step_omega_raw_q c + Q_MUL c.cfg.kwv (step_v_diff_q c) :=
    wrap_s64_id _ o11
  have cqb : -115870406249 ≤ step_omega_cmd_q c ∧ step_omega_cmd_q c ≤ 115870406249 := by
    rw [ecq]; clear * - rawb q3l q3u; omega
  have ti := Q_TO_INT_ok (step_omega_cmd_q c) (by clear * - cqb; omega)
  have ci := clamp_cmd_range (Q_TO_INT (step_omega_cmd_q c)) c.cfg.omega_max_rpm
  rw [com] at ci
  have cib : 0 ≤ step_omega_cmd_i c ∧ step_omega_cmd_i c ≤ 4000 := by
    unfold step_omega_cmd_i
    rw [com]
    exact ⟨ci.1, by have := ci.2; clear * - this; omega⟩
  -- anti-windup
  have fc := Q_FROM_INT_ok (step_omega_cmd_i c) (by clear * - cib; omega)
  have o14 : s64_ok (Q_FROM_INT (step_omega_cmd_i c) - step_omega_raw_q c) := by
    rw [fc.2]; unfold s64_ok
    generalize step_omega_cmd_i c = i at cib ⊢
    generalize step_omega_raw_q c = r at rawb ⊢
    clear * - cib rawb; omega
  have eer : step_omega_err_q c = step_omega_cmd_i c * 65536 - step_omega_raw_q c := by
    unfold step_omega_err_q
    rw [wrap_s64_id _ o14, fc.2]
  have erb : -113573574248 ≤ step_omega_err_q c ∧ step_omega_err_q c ≤ 113573574248 := by
    rw [eer]
    generalize step_omega_cmd_i c = i at cib ⊢
    generalize step_omega_raw_q c = r at rawb ⊢
    clear * - cib rawb; omega
  have m4 := mul_bound c.cfg.kawm (step_omega_err_q c) 1044480 113573574248
    ⟨by clear * - ckawm; omega, ckawm.2⟩ erb
  obtain ⟨o15, -, q4l, q4u⟩ := Q_MUL_ok _ _ _ m4 (by norm_num)
  have o16 : s64_ok (step_e c + Q_MUL c.cfg.kawm (step_omega_err_q c)) := by
    unfold s64_ok
    generalize step_e c = e at eb ⊢
    generalize Q_MUL c.cfg.kawm (step_omega_err_q c) = q at q4l q4u ⊢
    clear * - eb q4l q4u; omega
  have eaw : step_aw_m c = step_e c + Q_MUL c.cfg.kawm (step_omega_err_q c) :=
    wrap_s64_id _ o16
  have awb : -1810508336306 ≤ step_aw_m c ∧ step_aw_m c ≤ 1810508336306 := by
    rw [eaw]
    generalize step_e c = e at eb ⊢
    generalize Q_MUL c.cfg.kawm (step_omega_err_q c) = q at q4l q4u ⊢
    clear * - eb q4l q4u; omega
  have m5 := mul_bound (step_aw_m c) dt 1810508336306 16711 awb
    ⟨by clear * - hdt; omega, hdt.2⟩
  obtain ⟨o17, -, q5l, q5u⟩ := Q_MUL_ok _ _ _ m5 (by norm_num)
  have o18 : s64_ok (c.st.eta_m + Q_MUL (step_aw_m c) dt) := by
    unfold s64_ok
    generalize Q_MUL (step_aw_m c) dt = q at q5l q5u ⊢
    clear * - em0 em1 q5l q5u; omega
  refine ⟨⟨d1.1, d2, d3, o1, fo.1, o2, o3, o4, o5, o6, fv.1, f0.1, o9, o10, o11, ti.1, fc.1, o14,
    o15, o16, o17, o18, by decide, by decide, cib.1, by clear * - cib; omega⟩, ee, ?_, ?_, ti.2,
    cib⟩
  · rw [eraw, (Q_MUL_ok _ _ _ m1 (by norm_num)).2.1, (Q_MUL_ok _ _ _ m2 (by norm_num)).2.1, ee]
  · rw [ecq, (Q_MUL_ok _ _ _ m3 (by norm_num)).2.1, edf]

/-- The temperature loop within `step_ranges`, for an updated filter state `d`
within its bound: no operation overflows, and the raw and decoupled fan commands
are given by the wrap-free expressions. -/
theorem fan_exact (c : nodeb_ctx) (h : step_ranges c) (dt : Int) (hdt : 65 ≤ dt ∧ dt ≤ 16711)
    (d : Int) (hd1 : -300000000 ≤ d ∧ d ≤ 300000000) :
    fan_no_overflow c dt d ∧
      step_v_raw_q c d =
        -(6553600 + c.cfg.KpT * (c.cfg.Ts_sp - c.Ts) / 65536 + c.cfg.KiT * c.st.eta_T / 65536
          - c.cfg.KdT * d / 65536) ∧
      step_v_cmd_q c d =
        step_v_raw_q c d + c.cfg.kvw * ((step_omega_cmd_i c - 100) * 65536) / 65536 ∧
      Q_TO_INT (step_v_cmd_q c d) = step_v_cmd_q c d / 65536 ∧
      (0 ≤ step_v_cmd_i c d ∧ step_v_cmd_i c d ≤ 2800) := by
  obtain ⟨hcfg, heta, hd, htd, hTs, hTh, hv, hdtms⟩ := h
  obtain ⟨cTs, cKpT, cKiT, cKdT, cKpm, cKim, ckawT, ckawm, ckvw, ckwv, co0, cv0, com, cvm, cvc,
    ctm⟩ := hcfg
  obtain ⟨em0, em1, eT0, eT1⟩ := heta
  have o1 : s64_ok (c.cfg.Ts_sp - c.Ts) := by unfold s64_ok; clear * - cTs hTs; omega
  have ee : step_e c = c.cfg.Ts_sp - c.Ts := wrap_s64_id _ o1
  have eb : -429496728 ≤ step_e c ∧ step_e c ≤ 429496728 := by
    rw [ee]; clear * - cTs hTs; omega
  have f0 := Q_FROM_INT_ok (c.cfg.v0_rpm : Int) (by clear * - cv0; omega)
  have ef0 : Q_FROM_INT c.cfg.v0_rpm = 6553600 := by rw [f0.2, cv0]; rfl
  have fo := Q_FROM_INT_ok (c.cfg.omega0_rpm : Int) (by clear * - co0; omega)
  have efo : Q_FROM_INT c.cfg.omega0_rpm = 6553600 := by rw [fo.2, co0]; rfl
  -- products
  have m1 := mul_bound c.cfg.KpT (step_e c) 16776960 429496728
    ⟨by clear * - cKpT; omega, cKpT.2⟩ eb
  obtain ⟨o2, -, q1l, q1u⟩ := Q_MUL_ok _ _ _ m1 (by norm_num)
  have m2 := mul_bound c.cfg.KiT c.st.eta_T 16776960 32768000
    ⟨by clear * - cKiT; omega, cKiT.2⟩ ⟨by clear * - eT0; omega, by clear * - eT1; omega⟩
  obtain ⟨o4, -, q2l, q2u⟩ := Q_MUL_ok _ _ _ m2 (by norm_num)
  have m3 := mul_bound c.cfg.KdT d 16776960 300000000
    ⟨by clear * - cKdT; omega, cKdT.2⟩ hd1
  obtain ⟨o6, -, q3l, q3u⟩ := Q_MUL_ok _ _ _ m3 (by norm_num)
  have o3 : s64_ok (Q_FROM_INT c.cfg.v0_rpm + Q_MUL c.cfg.KpT (step_e c)) := by
    rw [ef0]; unfold s64_ok; clear * - q1l q1u; omega
  have o5 : s64_ok (wrap_s64 (Q_FROM_INT c.cfg.v0_rpm + Q_MUL c.cfg.KpT (step_e c))
      + Q_MUL c.cfg.KiT c.st.eta_T) := by
    rw [wrap_s64_id _ o3, ef0]; unfold s64_ok; clear * - q1l q1u q2l q2u; omega
  have o7 : s64_ok (wrap_s64 (wrap_s64 (Q_FROM_INT c.cfg.v0_rpm
      + Q_MUL c.cfg.KpT (step_e c)) + Q_MUL c.cfg.KiT c.st.eta_T) - Q_MUL c.cfg.KdT d) := by
    rw [wrap_s64_id _ o5, wrap_s64_id _ o3, ef0]; unfold s64_ok
    clear * - q1l q1u q2l q2u q3l q3u; omega
  have o8 : s64_ok (-(wrap_s64 (wrap_s64 (wrap_s64 (Q_FROM_INT c.cfg.v0_rpm
      + Q_MUL c.cfg.KpT (step_e c)) + Q_MUL c.cfg.KiT c.st.eta_T) - Q_MUL c.cfg.KdT d))) := by
    rw [wrap_s64_id _ o7, wrap_s64_id _ o5, wrap_s64_id _ o3, ef0]; unfold s64_ok
    clear * - q1l q1u q2l q2u q3l q3u; omega
  have eraw : step_v_raw_q c d =
      -(6553600 + Q_MUL c.cfg.KpT (step_e c) + Q_MUL c.cfg.KiT c.st.eta_T
        - Q_MUL c.cfg.KdT d) := by
    unfold step_v_raw_q
    rw [wrap_s64_id _ o8, wrap_s64_id _ o7, wrap_s64_id _ o5, wrap_s64_id _ o3, ef0]
  have rawb : -195143346374 ≤ step_v_raw_q c d ∧ step_v_raw_q c d ≤ 195143346374 := by
    rw [eraw]; clear * - q1l q1u q2l q2u q3l q3u; omega
  -- decoupling
  have ci := clamp_cmd_range (Q_TO_INT (step_omega_cmd_q c)) c.cfg.omega_max_rpm
  rw [com] at ci
  have cib : 0 ≤ step_omega_cmd_i c ∧ step_omega_cmd_i c ≤ 4000 := by
    unfold step_omega_cmd_i
    rw [com]
    exact ⟨ci.1, by have := ci.2; clear * - this; omega⟩
  have fc := Q_FROM_INT_ok (step_omega_cmd_i c) (by clear * - cib; omega)
  have o10 : s64_ok (Q_FROM_INT (step_omega_cmd_i c) - Q_FROM_INT c.cfg.omega0_rpm) := by
    rw [fc.2, efo]; unfold s64_ok
    generalize step_omega_cmd_i c = i at cib ⊢
    clear * - cib; omega
  have edf : step_omega_diff_q c = (step_omega_cmd_i c - 100) * 65536 := by
    unfold step_omega_diff_q
    rw [wrap_s64_id _ o10, fc.2, efo]
    ring
  have dfb : -255590400 ≤ step_omega_diff_q c ∧ step_omega_diff_q c ≤ 255590400 := by
    rw [edf]
    generalize step_omega_cmd_i c = i at cib ⊢
    clear * - cib; omega
  have m4 := mul_bound c.cfg.kvw (step_omega_diff_q c) 1044480 255590400
    ⟨by clear * - ckvw; omega, ckvw.2⟩ dfb
  obtain ⟨o11, -, q4l, q4u⟩ := Q_MUL_ok _ _ _ m4 (by norm_num)
  have o12 : s64_ok (step_v_raw_q c d + Q_MUL c.cfg.kvw (step_omega_diff_q c)) := by
    unfold s64_ok
    generalize step_v_raw_q c d = r at rawb ⊢
    generalize Q_MUL c.cfg.kvw (step_omega_diff_q c) = q at q4l q4u ⊢
    clear * - rawb q4l q4u; omega
  have ecq : step_v_cmd_q c d = step_v_raw_q c d + Q_MUL c.cfg.kvw (step_omega_diff_q c) :=
    wrap_s64_id _ o12
  have cqb : -199216818375 ≤ step_v_cmd_q c d ∧ step_v_cmd_q c d ≤ 199216818375 := by
    rw [ecq]
    generalize step_v_raw_q c d = r at rawb ⊢
    generalize Q_MUL c.cfg.kvw (step_omega_diff_q c) = q at q4l q4u ⊢
    clear * - rawb q4l q4u; omega
  have ti := Q_TO_INT_ok (step_v_cmd_q c d) (by clear * - cqb; omega)
  have vi := clamp_cmd_range (Q_TO_INT (step_v_cmd_q c d)) c.cfg.v_max_rpm
  rw [cvm] at vi
  have vc := cut_in_cases (clamp_cmd (Q_TO_INT (step_v_cmd_q c d)) c.cfg.v_max_rpm)
    c.cfg.v_cut_rpm (by rw [cvm]; exact vi.1)
  have vib : 0 ≤ step_v_cmd_i c d ∧ step_v_cmd_i c d ≤ 2800 := by
    unfold step_v_cmd_i
    rw [cvm] at vc ⊢
    exact ⟨vc.2.1, by have h1 := vc.2.2; have h2 := vi.2; clear * - h1 h2; omega⟩
  -- anti-windup
  have fvc := Q_FROM_INT_ok (step_v_cmd_i c d) (by clear * - vib; omega)
  have o15 : s64_ok (Q_FROM_INT (step_v_cmd_i c d) - step_v_raw_q c d) := by
    rw [fvc.2]; unfold s64_ok
    generalize step_v_cmd_i c d = i at vib ⊢
    generalize step_v_raw_q c d = r at rawb ⊢
    clear * - vib rawb; omega
  have eer : step_v_err_q c d = step_v_cmd_i c d * 65536 - step_v_raw_q c d := by
    unfold step_v_err_q
    rw [wrap_s64_id _ o15, fvc.2]
  have erb : -195326847174 ≤ step_v_err_q c d ∧ step_v_err_q c d ≤ 195326847174 := by
    rw [eer]
    generalize step_v_cmd_i c d = i at vib ⊢
    generalize step_v_raw_q c d = r at rawb ⊢
    clear * - vib rawb; omega
  have m5 := mul_bound c.cfg.kawT (step_v_err_q c d) 1044480 195326847174
    ⟨by clear * - ckawT; omega, ckawT.2⟩ erb
  obtain ⟨o16, -, q5l, q5u⟩ := Q_MUL_ok _ _ _ m5 (by norm_num)
  have o17 : s64_ok (step_e c + Q_MUL c.cfg.kawT (step_v_err_q c d)) := by
    unfold s64_ok
    generalize step_e c = e at eb ⊢
    generalize Q_MUL c.cfg.kawT (step_v_err_q c d) = q at q5l q5u ⊢
    clear * - eb q5l q5u; omega
  have eaw : step_aw_T c d = step_e c + Q_MUL c.cfg.kawT (step_v_err_q c d) :=
    wrap_s64_id _ o17
  have awb : -3113451123564 ≤ step_aw_T c d ∧ step_aw_T c d ≤ 3113451123564 := by
    rw [eaw]
    generalize step_e c = e at eb ⊢
    generalize Q_MUL c.cfg.kawT (step_v_err_q c d) = q at q5l q5u ⊢
    clear * - eb q5l q5u; omega
  have m6 := mul_bound (step_aw_T c d) dt 3113451123564 16711 awb
    ⟨by clear * - hdt; omega, hdt.2⟩
  obtain ⟨o18, -, q6l, q6u⟩ := Q_MUL_ok _ _ _ m6 (by norm_num)
  have o19 : s64_ok (c.st.eta_T + Q_MUL (step_aw_T c d) dt) := by
    unfold s64_ok
    generalize Q_MUL (step_aw_T c d) dt = q at q6l q6u ⊢
    clear * - eT0 eT1 q6l q6u; omega
  refine ⟨⟨f0.1, o2, o3, o4, o5, o6, o7, o8, fo.1, o10, o11, o12, ti.1, fvc.1, o15, o16, o17,
    o18, o19, by decide, by decide, vib.1, by clear * - vib; omega⟩, ?_, ?_, ti.2, vib⟩
  · rw [eraw, (Q_MUL_ok _ _ _ m1 (by norm_num)).2.1, (Q_MUL_ok _ _ _ m2 (by norm_num)).2.1,
      (Q_MUL_ok _ _ _ m3 (by norm_num)).2.1, ee]
  · rw [ecq, (Q_MUL_ok _ _ _ m4 (by norm_num)).2.1, edf]


/-- Within `step_ranges` no intermediate value of the non-idle path overflows,
and the step returns. -/
theorem step_ranges_no_overflow (c : nodeb_ctx) (h : step_ranges c) (hni : nonidle c) :
    step_no_overflow c ∧ controller_step c = some (step_next c) := by
  have hr := step_dt_range c.dt_ms hni.2 h.2.2.2.2.2.2.2
  have hnext := step_ranges_next c h hni
  have htau := step_tau_d_eq c h
  have hf := filter_step c.Th c.st.dTh_f (step_dt c.dt_ms) _ (step_term1 c) (step_term2 c) _
    (step_next c).st.dTh_f h.2.2.2.2.2.1 h.2.2.1 hr rfl rfl (by unfold step_term2; rw [htau])
    rfl rfl
  obtain ⟨f1, f2, f3, f4, f5, f6, _, _⟩ := hf
  exact ⟨⟨(flow_exact c h (step_dt c.dt_ms) hr).1, ⟨f1, f2, f3, f4, f5, f6⟩,
    (fan_exact c h (step_dt c.dt_ms) hr (step_next c).st.dTh_f hnext.2.1.2.2.1).1⟩, hnext.1⟩

/-- C17: in every state reachable from `nodeb_init` by bus frames and timer
events no intermediate value of `controller_step` overflows. For every context
within `step_ranges` (setpoint, temperatures, `v_prev` and `dt` from wire values,
gains default or from wire values, clamped integrators, bounded filter state) on
the non-idle path, every `Q_MUL` product, every shifted `Q_DIV` dividend and
every sum, difference, negation and `Q_FROM_INT` shift fits `s64`, both values
narrowed by `Q_TO_INT` fit `int`, and both commands fit `u16`
(`step_no_overflow`), and the step returns. Every reachable state is within
`step_ranges`, hence so is every context on which the worker calls
`controller_step` (the stored sample of a well-formed Feedback frame, with any
queue content). -/
theorem controller_step_no_overflow :
    (∀ c : nodeb_ctx, step_ranges c → nonidle c →
      step_no_overflow c ∧ controller_step c = some (step_next c)) ∧
      (∀ g : nodeb_ctx, Reachable g → step_ranges g ∧ (nonidle g → step_no_overflow g)) ∧
      ∀ g : nodeb_ctx, Reachable g → ∀ (q : List can_frame) (cf : can_frame), cf.wf →
        step_no_overflow (feedback_ctx { g with rx_fifo := q } cf) ∧
        ∃ c1, controller_step (feedback_ctx { g with rx_fifo := q } cf) = some c1 := by
  refine ⟨step_ranges_no_overflow, ?_, ?_⟩
  · intro g hg
    have hr := (reachable_node_ranges g hg).1
    exact ⟨hr, fun hni => (step_ranges_no_overflow g hr hni).1⟩
  · intro g hg q cf hwf
    have hr : step_ranges { g with rx_fifo := q } := (reachable_node_ranges g hg).1
    obtain ⟨hcs, hni, _⟩ := feedback_ctx_ranges { g with rx_fifo := q } cf hwf hr
    obtain ⟨h1, h2⟩ := step_ranges_no_overflow _ hcs hni
    exact ⟨h1, _, h2⟩

theorem controller_step_no_overflow_witness :
    step_no_overflow (feedback_ctx { nodeb_init with rx_fifo := [] } frame_hot) ∧
      ∃ c1, controller_step (feedback_ctx { nodeb_init with rx_fifo := [] } frame_hot) = some c1 :=
  controller_step_no_overflow.2.2 nodeb_init Reachable.init [] frame_hot (by decide)


/-! ## Sustained over-temperature with the default configuration -/

theorem default_cfg_values (c : nodeb_ctx) (h : c.cfg = nodeb_init.cfg) :
    c.cfg.Ts_sp = 1638400 ∧ c.cfg.KpT = 6573260 ∧ c.cfg.KiT = 6553 ∧ c.cfg.KdT = 262144 ∧
      c.cfg.Kpm = 8519680 ∧ c.cfg.Kim = 655 ∧ c.cfg.kawT = 327680 ∧ c.cfg.kawm = 655360 ∧
      c.cfg.kvw = -13106 ∧ c.cfg.kwv = -1310 ∧ c.cfg.omega0_rpm = 100 ∧ c.cfg.v0_rpm = 100 ∧
      c.cfg.omega_max_rpm = 4000 ∧ c.cfg.v_max_rpm = 2800 ∧ c.cfg.v_cut_rpm = 700 ∧
      c.cfg.tau_d_min_s = 65 := by
  rw [h]
  decide

theorem clamp_cmd_sat (x : Int) (m : Nat) (h : (m : Int) ≤ x) : clamp_cmd x m = m := by
  simp only [clamp_cmd]
  split_ifs <;> omega

theorem step_next_cmd1 (c : nodeb_ctx) :
    (step_next c).omega_cmd_rpm = wrap_u16 (step_omega_cmd_i c) := by
  simp only [step_next, step_result]

theorem step_next_cmd2 (c : nodeb_ctx) :
    (step_next c).v_cmd_rpm = wrap_u16 (step_v_cmd_i c (step_next c).st.dTh_f) := by
  simp only [step_next, step_result]

/-- One step with the default configuration, Ts = 100.0, Th in 0.0..100.0 and a
filter state between -30.5 and 108.3: both commands saturate and the filter
state stays in that interval. -/
theorem hot_step (c : nodeb_ctx) (hcfg : c.cfg = nodeb_init.cfg) (heta : eta_bounded c.st)
    (hd : -2000000 ≤ c.st.dTh_f ∧ c.st.dTh_f ≤ 7100000) (htau : c.st.tau_d = 65536)
    (hTs : c.Ts = 6553600) (hTh : 0 ≤ c.Th ∧ c.Th ≤ 6553600) (hv : c.v_prev_rpm ≤ 2550)
    (hdt : c.dt_ms ≤ 255) (hni : nonidle c) :
    controller_step c = some (step_next c) ∧ (step_next c).omega_cmd_rpm = 4000 ∧
      (step_next c).v_cmd_rpm = 2800 ∧ eta_bounded (step_next c).st ∧
      (-2000000 ≤ (step_next c).st.dTh_f ∧ (step_next c).st.dTh_f ≤ 7100000) ∧
      (step_next c).st.tau_d = 65536 := by
  obtain ⟨k1, k2, k3, k4, k5, k6, k7, k8, k9, k10, k11, k12, k13, k14, k15, k16⟩ :=
    default_cfg_values c hcfg
  have hcr : cfg_ranges c.cfg := by
    rw [hcfg]
    unfold cfg_ranges
    decide
  have hs : step_ranges c := ⟨hcr, heta, by clear * - hd; omega, htau,
    by clear * - hTs; omega, by clear * - hTh; omega, hv, hdt⟩
  have hr := step_dt_range c.dt_ms hni.2 hdt
  obtain ⟨hstep, hnext, _, _⟩ := step_ranges_next c hs hni
  obtain ⟨fl, fu⟩ := step_next_dTh_f c hs hni
  -- filter state
  have hdn : -2000000 ≤ (step_next c).st.dTh_f ∧ (step_next c).st.dTh_f ≤ 7100000 := by
    have p1 : c.st.dTh_f * step_dt c.dt_ms ≤ 7100000 * 16711 := by nlinarith
    have p2 : -(2000000 * 16711) ≤ c.st.dTh_f * step_dt c.dt_ms := by nlinarith
    generalize c.st.dTh_f * step_dt c.dt_ms = p at fl fu p1 p2
    generalize (step_next c).st.dTh_f = n at fl fu ⊢
    generalize step_dt c.dt_ms = t at fl fu hr
    clear * - fl fu p1 p2 hTh hr
    omega
  -- pump
  obtain ⟨_, _, eraw, ecq, eti, _⟩ := flow_exact c hs (step_dt c.dt_ms) hr
  have hom : step_omega_cmd_i c = 4000 := by
    unfold step_omega_cmd_i
    rw [k13]
    apply clamp_cmd_sat
    rw [eti, ecq, eraw, k1, k5, k6, k10, hTs]
    obtain ⟨em0, em1, _, _⟩ := heta
    have hv0 : (0 : Int) ≤ (c.v_prev_rpm : Int) := Int.ofNat_nonneg _
    have hv1 : (c.v_prev_rpm : Int) ≤ 2550 := by exact_mod_cast hv
    generalize c.st.eta_m = m at em0 em1 ⊢
    generalize (c.v_prev_rpm : Int) = v at hv0 hv1 ⊢
    clear * - em0 em1 hv0 hv1
    omega
  -- fan
  obtain ⟨_, eraw2, ecq2, eti2, _⟩ := fan_exact c hs (step_dt c.dt_ms) hr (step_next c).st.dTh_f
    hnext.2.2.1
  have hvm : step_v_cmd_i c (step_next c).st.dTh_f = 2800 := by
    have hcl : clamp_cmd (Q_TO_INT (step_v_cmd_q c (step_next c).st.dTh_f)) c.cfg.v_max_rpm
        = 2800 := by
      rw [k14]
      apply clamp_cmd_sat
      rw [eti2, ecq2, eraw2, hom, k1, k2, k3, k4, k9, hTs]
      obtain ⟨_, _, eT0, eT1⟩ := heta
      generalize c.st.eta_T = m at eT0 eT1 ⊢
      generalize (step_next c).st.dTh_f = n at hdn ⊢
      clear * - eT0 eT1 hdn
      omega
    unfold step_v_cmd_i cut_in
    rw [hcl, k15]
    norm_num
  refine ⟨hstep, ?_, ?_, hnext.2.1, hdn, hnext.2.2.2.1⟩
  · rw [step_next_cmd1, hom]
    unfold wrap_u16
    omega
  · rw [step_next_cmd2, hvm]
    unfold wrap_u16
    omega

theorem hot_arm (c1 : nodeb_ctx) (h : hot_inv c1) (ho : c1.omega_cmd_rpm = 4000)
    (hv : c1.v_cmd_rpm = 2800) :
    hot_inv { c1 with tx_timer_active := true, rx_guard_active := true, state := 2 } ∧
      ({ c1 with tx_timer_active := true, rx_guard_active := true, state := 2 } :
        nodeb_ctx).omega_cmd_rpm = 4000 ∧
      ({ c1 with tx_timer_active := true, rx_guard_active := true, state := 2 } :
        nodeb_ctx).v_cmd_rpm = 2800 :=
  ⟨h, ho, hv⟩

/-- A `hot_frame` processed in a state within `hot_inv`. -/
theorem hot_dispatch (g : nodeb_ctx) (cf : can_frame) (hg : hot_inv g) (hf : hot_frame cf) :
    ∃ g1, nodeb_rx_dispatch g cf = some g1 ∧ hot_inv g1 ∧ g1.omega_cmd_rpm = 4000 ∧
      g1.v_cmd_rpm = 2800 := by
  obtain ⟨hcfg, heta, hd, htau⟩ := hg
  obtain ⟨hwf, hid, hlen, hTs, hTh0, hTh1⟩ := hf
  obtain ⟨sTs, sTh, _, sv, sdt, sfb⟩ := feedback_ctx_sample g cf hwf
  obtain ⟨kcfg, kst, _⟩ := feedback_ctx_keeps g cf
  have hb := byte_lt cf hwf
  have h6 := hb 6
  have h7 := hb 7
  have eTs : (feedback_ctx g cf).Ts = 6553600 := by rw [sTs, hTs]; decide
  have eTh : 0 ≤ (feedback_ctx g cf).Th ∧ (feedback_ctx g cf).Th ≤ 6553600 := by
    rw [sTh]
    have n0 := Int.tdiv_nonneg (a := s16_of_le (cf.byte 2) (cf.byte 3) * 65536) (b := 10)
      (by clear * - hTh0; omega) (by norm_num)
    have n3 := (tdiv_mul_near (s16_of_le (cf.byte 2) (cf.byte 3) * 65536) 10 (by norm_num)).2.2.1
      (by clear * - hTh0; omega)
    generalize Int.tdiv (s16_of_le (cf.byte 2) (cf.byte 3) * 65536) 10 = q at n0 n3 ⊢
    generalize s16_of_le (cf.byte 2) (cf.byte 3) = t at hTh0 hTh1 n3
    clear * - n0 n3 hTh0 hTh1
    omega
  obtain ⟨hstep, ho, hv, heta1, hd1, htau1⟩ := hot_step (feedback_ctx g cf)
    (by rw [kcfg]; exact hcfg) (by rw [kst]; exact heta) (by rw [kst]; exact hd)
    (by rw [kst]; exact htau) eTs eTh (by rw [sv]; clear * - h6; omega)
    (by rw [sdt]; split_ifs <;> omega) ⟨sfb, by rw [sdt]; split_ifs <;> omega⟩
  have fcfg := (controller_step_frame _ _ hstep).1
  exact ⟨_, dispatch_feedback_next g (step_next (feedback_ctx g cf)) cf hid hlen hstep,
    hot_arm _ ⟨fcfg.trans (kcfg.trans hcfg), heta1, hd1, htau1⟩ ho hv⟩

theorem hot_dispatch_all (frames : List can_frame) :
    ∀ g : nodeb_ctx, hot_inv g → (∀ f ∈ frames, hot_frame f) →
      ∃ g1, nodeb_rx_dispatch_all g frames = some g1 ∧ hot_inv g1 ∧
        (frames ≠ [] → g1.omega_cmd_rpm = 4000 ∧ g1.v_cmd_rpm = 2800) := by
  induction frames with
  | nil =>
    intro g hg _
    exact ⟨g, rfl, hg, fun h => absurd rfl h⟩
  | cons cf rest ih =>
    intro g hg hf
    obtain ⟨g1, hd, hg1, ho, hv⟩ := hot_dispatch g cf hg (hf cf (List.mem_cons_self _ _))
    obtain ⟨g2, hd2, hg2, hcmd⟩ := ih g1 hg1 (fun f h => hf f (List.mem_cons_of_mem _ h))
    refine ⟨g2, by simp only [nodeb_rx_dispatch_all, hd, Option.some_bind]; exact hd2, hg2, ?_⟩
    intro _
    by_cases hrest : rest = []
    · subst hrest
      simp only [nodeb_rx_dispatch_all] at hd2
      cases hd2
      exact ⟨ho, hv⟩
    · exact hcmd hrest

/-- C19: starting from the initial (default) context, for every sequence of
valid Feedback frames that all carry Ts = 100.0 and a hot-leg temperature between
0.0 and 100.0 (any Tc, v_prev and dt), and every `k ≥ 1` up to its length, the
first `k` frames are processed without fault and leave
`omega_cmd_rpm = omega_max_rpm = 4000` and `v_cmd_rpm = v_max_rpm = 2800`. -/
theorem sustained_hot_saturates (frames : List can_frame) (hf : ∀ f ∈ frames, hot_frame f)
    (k : Nat) (hk1 : 1 ≤ k) (hk2 : k ≤ frames.length) :
    ∃ g1, nodeb_rx_dispatch_all nodeb_init (frames.take k) = some g1 ∧
      g1.omega_cmd_rpm = 4000 ∧ g1.v_cmd_rpm = 2800 ∧
      g1.cfg.omega_max_rpm = 4000 ∧ g1.cfg.v_max_rpm = 2800 := by
  have hinit : hot_inv nodeb_init := ⟨rfl, by decide, by decide, by decide⟩
  obtain ⟨g1, hd, hinv, hcmd⟩ := hot_dispatch_all (frames.take k) nodeb_init hinit
    (fun f h => hf f (List.mem_of_mem_take h))
  have hne : frames.take k ≠ [] := by
    intro h
    have hl := congrArg List.length h
    rw [List.length_take] at hl
    simp only [List.length_nil] at hl
    omega
  obtain ⟨ho, hv⟩ := hcmd hne
  have kv := default_cfg_values g1 hinv.1
  exact ⟨g1, hd, ho, hv, kv.2.2.2.2.2.2.2.2.2.2.2.2.1, kv.2.2.2.2.2.2.2.2.2.2.2.2.2.1⟩

theorem sustained_hot_saturates_witness :
    (∀ f ∈ [frame_A_hot, frame_A_hot, frame_A_hot], hot_frame f) ∧
      ∃ g1, nodeb_rx_dispatch_all nodeb_init
          ([frame_A_hot, frame_A_hot, frame_A_hot].take 2) = some g1 ∧
        g1.omega_cmd_rpm = 4000 ∧ g1.v_cmd_rpm = 2800 ∧
        g1.cfg.omega_max_rpm = 4000 ∧ g1.cfg.v_max_rpm = 2800 :=
  ⟨by decide,
    sustained_hot_saturates [frame_A_hot, frame_A_hot, frame_A_hot] (by decide) 2 (by decide)
      (by decide)⟩


/-! ## Arming, the receive queue and the transmit tick -/

theorem ctrl_defaults_cfg (ctx : nodeb_ctx) : (ctrl_defaults ctx).cfg = nodeb_init.cfg := rfl

/-- C21: the TX timer is not armed after `nodeb_init`; in every state reachable
from it by received frames, worker iterations, TX timer expiries and guard
expiries, an armed TX timer implies `have_feedback`; and every frame other than
a Feedback frame (0x202) of length 8, in particular every Enable, Setpoint and
gain frame, is processed and leaves the TX timer, the guard and `have_feedback`
as they were. -/
theorem tx_armed_only_after_feedback :
    nodeb_init.tx_timer_active = false ∧ nodeb_init.have_feedback = false ∧
      (∀ g : nodeb_ctx, Reachable g → g.tx_timer_active = true → g.have_feedback = true) ∧
      ∀ (g : nodeb_ctx) (cf : can_frame),
        ¬ (cf.can_id &&& CAN_SFF_MASK = 0x202 ∧ cf.len = 8) →
        ∃ g1, nodeb_rx_dispatch g cf = some g1 ∧ g1.tx_timer_active = g.tx_timer_active ∧
          g1.rx_guard_active = g.rx_guard_active ∧ g1.have_feedback = g.have_feedback := by
  refine ⟨rfl, rfl, ?_, ?_⟩
  · intro g hg
    exact (reachable_node_ranges g hg).2.2.2.2.2.1
  · intro g cf h
    obtain ⟨g1, hd, hs⟩ := dispatch_other g cf h
    exact ⟨g1, hd, hs.2.2.2.2.2.2.2.2.2.2.2.1, hs.2.2.2.2.2.2.2.2.2.2.2.2.1, hs.2.2.2.2.2.2.1⟩

theorem tx_armed_only_after_feedback_witness :
    (∃ g1, nodeb_rx_work_iter (nodeb_can_rx_cb nodeb_init frame_A) = some (some g1) ∧
        g1.tx_timer_active = true ∧ g1.have_feedback = true) ∧
      ∃ g1, nodeb_rx_dispatch nodeb_init frame_setpoint = some g1 ∧
        g1.tx_timer_active = false ∧ g1.rx_guard_active = false ∧ g1.have_feedback = false := by
  have h : ∃ g1, nodeb_rx_work_iter (nodeb_can_rx_cb nodeb_init frame_A) = some (some g1) ∧
      g1.tx_timer_active = true := ⟨_, rfl, rfl⟩
  obtain ⟨g1, h1, h2⟩ := h
  exact ⟨⟨g1, h1, h2, tx_armed_only_after_feedback.2.2.1 g1
      (Reachable.work _ g1 (Reachable.rx _ frame_A Reachable.init (by decide)) h1) h2⟩,
    tx_armed_only_after_feedback.2.2.2 nodeb_init frame_setpoint (by decide)⟩

/-- C22: the receive queue holds at most `RX_FIFO_ELEMS = 128` frames. With
fewer than 128 frames queued, `nodeb_can_rx_cb` appends the new frame at the
tail and changes nothing else; with exactly 128 queued it leaves the context,
hence the queued frames and their order, unchanged; a queue of at most 128
frames stays so, and in every reachable state the queue length is at most
128. -/
theorem rx_queue_bounded (ctx : nodeb_ctx) (it : can_frame) :
    RX_FIFO_ELEMS = 128 ∧
      (ctx.rx_fifo.length < 128 →
        nodeb_can_rx_cb ctx it = { ctx with rx_fifo := ctx.rx_fifo ++ [it] }) ∧
      (ctx.rx_fifo.length = 128 → nodeb_can_rx_cb ctx it = ctx) ∧
      (ctx.rx_fifo.length ≤ 128 → (nodeb_can_rx_cb ctx it).rx_fifo.length ≤ 128) ∧
      (Reachable ctx → ctx.rx_fifo.length ≤ 128 ∧
        (nodeb_can_rx_cb ctx it).rx_fifo.length ≤ 128) := by
  have hlen : ctx.rx_fifo.length ≤ 128 → (nodeb_can_rx_cb ctx it).rx_fifo.length ≤ 128 := by
    intro h
    unfold nodeb_can_rx_cb RX_FIFO_ELEMS
    split_ifs with hc
    · exact h
    · simp only [List.length_append, List.length_singleton]
      omega
  refine ⟨rfl, ?_, ?_, hlen, ?_⟩
  · intro h
    unfold nodeb_can_rx_cb RX_FIFO_ELEMS
    rw [if_pos (by omega)]
  · intro h
    unfold nodeb_can_rx_cb RX_FIFO_ELEMS
    rw [if_neg (by omega)]
  · intro h
    have hr := (reachable_node_ranges ctx h).2.2.2.2.2.2.2.2.2.1
    exact ⟨hr, hlen hr⟩

theorem rx_queue_bounded_witness :
    nodeb_can_rx_cb nodeb_init frame_A = { nodeb_init with rx_fifo := [frame_A] } ∧
      nodeb_can_rx_cb { nodeb_init with rx_fifo := List.replicate 128 frame_A } frame_enable =
        { nodeb_init with rx_fifo := List.replicate 128 frame_A } ∧
      nodeb_init.rx_fifo.length ≤ 128 :=
  ⟨(rx_queue_bounded nodeb_init frame_A).2.1 (by decide),
    (rx_queue_bounded { nodeb_init with rx_fifo := List.replicate 128 frame_A } frame_enable).2.2.1
      (by simp),
    ((rx_queue_bounded nodeb_init frame_A).2.2.2.2 Reachable.init).1⟩

/-- C24: a TX timer expiry, whether the send succeeds or fails, leaves the TX
timer armed and the command, the controller state, the configuration, the
sample and the queue unchanged, and hands the same frame to the socket; the
counter `seq` (a `u8`) is incremented when the send succeeds and kept when it
fails, so it changes exactly when the send succeeds. -/
theorem tx_tick_effect (g : nodeb_ctx) (send_ok : Bool) :
    (nodeb_tx_timer_fn g send_ok).2.tx_timer_active = true ∧
      (nodeb_tx_timer_fn g send_ok).2.omega_cmd_rpm = g.omega_cmd_rpm ∧
      (nodeb_tx_timer_fn g send_ok).2.v_cmd_rpm = g.v_cmd_rpm ∧
      (send_ok = true → (nodeb_tx_timer_fn g send_ok).2.seq = (g.seq + 1) % 256) ∧
      (send_ok = false → (nodeb_tx_timer_fn g send_ok).2.seq = g.seq) ∧
      (g.seq < 255 → send_ok = true → (nodeb_tx_timer_fn g send_ok).2.seq = g.seq + 1) ∧
      (g.seq < 256 → ((nodeb_tx_timer_fn g send_ok).2.seq ≠ g.seq ↔ send_ok = true)) ∧
      (nodeb_tx_timer_fn g send_ok).1 = (nodeb_tx_timer_fn g (!send_ok)).1 ∧
      (nodeb_tx_timer_fn g send_ok).2.st = g.st ∧ (nodeb_tx_timer_fn g send_ok).2.cfg = g.cfg ∧
      (nodeb_tx_timer_fn g send_ok).2.have_feedback = g.have_feedback ∧
      (nodeb_tx_timer_fn g send_ok).2.rx_guard_active = g.rx_guard_active ∧
      (nodeb_tx_timer_fn g send_ok).2.rx_fifo = g.rx_fifo ∧
      (nodeb_tx_timer_fn g send_ok).2.state = g.state := by
  cases send_ok
  · refine ⟨rfl, rfl, rfl, ?_, ?_, ?_, ?_, rfl, rfl, rfl, rfl, rfl, rfl, rfl⟩
    · intro h
      cases h
    · intro _
      rfl
    · intro _ h
      cases h
    · intro _
      constructor
      · intro h
        exact absurd rfl h
      · intro h
        cases h
  · refine ⟨rfl, rfl, rfl, ?_, ?_, ?_, ?_, rfl, rfl, rfl, rfl, rfl, rfl, rfl⟩
    · intro _
      rfl
    · intro h
      cases h
    · intro h _
      show (g.seq + 1) % 256 = g.seq + 1
      omega
    · intro h
      constructor
      · intro _
        rfl
      · intro _
        show (g.seq + 1) % 256 ≠ g.seq
        omega

theorem tx_tick_effect_witness :
    (nodeb_tx_timer_fn { ctx_stale with seq := 255 } true).2.seq = 0 ∧
      (nodeb_tx_timer_fn { ctx_stale with seq := 255 } false).2.seq = 255 ∧
      (nodeb_tx_timer_fn ctx_stale true).2.seq = ctx_stale.seq + 1 ∧
      (nodeb_tx_timer_fn ctx_stale true).2.omega_cmd_rpm = 4000 :=
  ⟨(tx_tick_effect { ctx_stale with seq := 255 } true).2.2.2.1 rfl,
    (tx_tick_effect { ctx_stale with seq := 255 } false).2.2.2.2.1 rfl,
    (tx_tick_effect ctx_stale true).2.2.2.2.2.1 (by decide) rfl,
    (tx_tick_effect ctx_stale true).2.1⟩
/-! ## The worker loop -/

theorem step_omega_cmd_i_fifo (c : nodeb_ctx) (q : List can_frame) :
    step_omega_cmd_i { c with rx_fifo := q } = step_omega_cmd_i c := rfl

theorem step_eta_m_fifo (c : nodeb_ctx) (q : List can_frame) (dt : Int) :
    step_eta_m { c with rx_fifo := q } dt = step_eta_m c dt := rfl

theorem step_tau_d_fifo (c : nodeb_ctx) (q : List can_frame) :
    step_tau_d { c with rx_fifo := q } = step_tau_d c := rfl

theorem step_dTh_f_fifo (c : nodeb_ctx) (q : List can_frame) (dt t1 t2 : Int) :
    step_dTh_f { c with rx_fifo := q } dt t1 t2 = step_dTh_f c dt t1 t2 := rfl

theorem step_v_cmd_i_fifo (c : nodeb_ctx) (q : List can_frame) (d : Int) :
    step_v_cmd_i { c with rx_fifo := q } d = step_v_cmd_i c d := rfl

theorem step_eta_T_fifo (c : nodeb_ctx) (q : List can_frame) (dt d : Int) :
    step_eta_T { c with rx_fifo := q } dt d = step_eta_T c dt d := rfl

theorem step_result_fifo (c : nodeb_ctx) (q : List can_frame) (dt t1 t2 : Int) :
    step_result { c with rx_fifo := q } dt t1 t2 =
      { step_result c dt t1 t2 with rx_fifo := q } := by
  simp only [step_result, step_eta_T_fifo, step_dTh_f_fifo, step_eta_m_fifo, step_tau_d_fifo,
    step_omega_cmd_i_fifo, step_v_cmd_i_fifo]

/-- The controller step does not read the queue: it commutes with replacing
the queued frames. -/
theorem controller_step_fifo (c : nodeb_ctx) (q : List can_frame) :
    controller_step { c with rx_fifo := q } =
      (controller_step c).map fun c1 => { c1 with rx_fifo := q } := by
  by_cases h : nonidle c
  · have h1 : nonidle { c with rx_fifo := q } := h
    rw [controller_step_eq c h, controller_step_eq _ h1]
    show (Q_DIV (Q_FROM_INT c.dt_ms) (Q_FROM_INT 1000)).bind (fun dt =>
        (Q_DIV (wrap_s64 (c.Th - c.st.dTh_f)) dt).bind fun term1 =>
          (Q_DIV c.st.dTh_f (step_tau_d c)).bind fun term2 =>
            some (step_result { c with rx_fifo := q } dt term1 term2)) = _
    cases Q_DIV (Q_FROM_INT c.dt_ms) (Q_FROM_INT 1000) with
    | none => rfl
    | some dt =>
      simp only [Option.some_bind]
      cases Q_DIV (wrap_s64 (c.Th - c.st.dTh_f)) dt with
      | none => rfl
      | some t1 =>
        simp only [Option.some_bind]
        cases Q_DIV c.st.dTh_f (step_tau_d c) with
        | none => rfl
        | some t2 =>
          simp only [Option.some_bind, Option.map_some']
          rw [step_result_fifo]
  · have h0 : c.have_feedback = false ∨ c.dt_ms = 0 := by
      unfold nonidle at h
      by_cases hf : c.have_feedback = true
      · right
        by_contra hd
        exact h ⟨hf, hd⟩
      · left
        simpa using hf
    rw [controller_step_idle c h0, controller_step_idle { c with rx_fifo := q } h0]
    rfl

theorem feedback_ctx_fifo (g : nodeb_ctx) (q : List can_frame) (cf : can_frame) :
    feedback_ctx { g with rx_fifo := q } cf = { feedback_ctx g cf with rx_fifo := q } := by
  simp only [feedback_ctx, store_feedback]

/-- The `switch` does not read the queue either. -/
theorem dispatch_fifo (g : nodeb_ctx) (q : List can_frame) (cf : can_frame) :
    nodeb_rx_dispatch { g with rx_fifo := q } cf =
      (nodeb_rx_dispatch g cf).map fun g1 => { g1 with rx_fifo := q } := by
  by_cases h : cf.can_id &&& CAN_SFF_MASK = 0x202 ∧ cf.len = 8
  · rw [dispatch_feedback g cf h.1 h.2, dispatch_feedback _ cf h.1 h.2, feedback_ctx_fifo,
      controller_step_fifo]
    cases controller_step (feedback_ctx g cf) with
    | none => rfl
    | some c1 => rfl
  · by_cases h101 : cf.can_id &&& CAN_SFF_MASK = 0x101
    · rw [dispatch_enable g cf h101, dispatch_enable _ cf h101]
      rfl
    by_cases h202 : cf.can_id &&& CAN_SFF_MASK = 0x202
    · rw [dispatch_feedback_badlen g cf h202 (fun hl => h ⟨h202, hl⟩),
        dispatch_feedback_badlen _ cf h202 (fun hl => h ⟨h202, hl⟩)]
      rfl
    by_cases h301 : cf.can_id &&& CAN_SFF_MASK = 0x301
    · by_cases hl : 2 ≤ cf.len
      · rw [dispatch_setpoint g cf h301 hl, dispatch_setpoint _ cf h301 hl]
        rfl
      · rw [dispatch_setpoint_short g cf h301 (by omega),
          dispatch_setpoint_short _ cf h301 (by omega)]
        rfl
    by_cases h300 : cf.can_id &&& CAN_SFF_MASK = 0x300
    · by_cases hl : 7 ≤ cf.len
      · rw [dispatch_tgains g cf h300 hl, dispatch_tgains _ cf h300 hl]
        rfl
      · rw [dispatch_tgains_short g cf h300 (by omega),
          dispatch_tgains_short _ cf h300 (by omega)]
        rfl
    by_cases h302 : cf.can_id &&& CAN_SFF_MASK = 0x302
    · by_cases hl : 7 ≤ cf.len
      · rw [dispatch_fgains g cf h302 hl, dispatch_fgains _ cf h302 hl]
        rfl
      · rw [dispatch_fgains_short g cf h302 (by omega),
          dispatch_fgains_short _ cf h302 (by omega)]
        rfl
    rw [dispatch_unknown g cf h101 h202 h300 h301 h302,
      dispatch_unknown _ cf h101 h202 h300 h301 h302]
    rfl

theorem dispatch_all_fifo (frames : List can_frame) :
    ∀ (g : nodeb_ctx) (q : List can_frame),
      nodeb_rx_dispatch_all { g with rx_fifo := q } frames =
        (nodeb_rx_dispatch_all g frames).map fun g1 => { g1 with rx_fifo := q } := by
  induction frames with
  | nil =>
    intro g q
    rfl
  | cons cf rest ih =>
    intro g q
    simp only [nodeb_rx_dispatch_all]
    rw [dispatch_fifo]
    cases nodeb_rx_dispatch g cf with
    | none => rfl
    | some g1 =>
      simp only [Option.map_some', Option.some_bind]
      exact ih g1 q

/-- The worker loop with enough iterations: it has a result, which is the
fold of the `switch` over the queued frames, first frame first, with the queue
emptied. -/
theorem rx_work_loop_eq (q : List can_frame) :
    ∀ (g : nodeb_ctx) (n : Nat), g.rx_fifo = q → q.length < n →
      nodeb_rx_work_loop n g =
        some ((nodeb_rx_dispatch_all g q).map fun g1 => { g1 with rx_fifo := [] }) := by
  induction q with
  | nil =>
    intro g n hq hn
    obtain ⟨m, rfl⟩ : ∃ m, n = m + 1 := ⟨n - 1, by simp only [List.length_nil] at hn; omega⟩
    have hg : ({ g with rx_fifo := [] } : nodeb_ctx) = g := by rw [← hq]
    simp only [nodeb_rx_work_loop, nodeb_rx_work_iter, hq, nodeb_rx_dispatch_all,
      Option.map_some', hg]
  | cons cf rest ih =>
    intro g n hq hn
    obtain ⟨m, rfl⟩ : ∃ m, n = m + 1 := ⟨n - 1, by simp only [List.length_cons] at hn; omega⟩
    simp only [List.length_cons] at hn
    simp only [nodeb_rx_work_loop, nodeb_rx_work_iter, hq, nodeb_rx_dispatch_all]
    rw [dispatch_fifo]
    cases nodeb_rx_dispatch g cf with
    | none => rfl
    | some g1 =>
      simp only [Option.map_some', Option.some_bind]
      rw [ih { g1 with rx_fifo := rest } m rfl (by omega), dispatch_all_fifo]
      cases nodeb_rx_dispatch_all g1 rest with
      | none => rfl
      | some g2 => rfl

theorem dispatch_all_defined (frames : List can_frame) :
    ∀ g : nodeb_ctx, (∀ f ∈ frames, f.wf) → 0 < g.cfg.tau_d_min_s →
      ∃ g1, nodeb_rx_dispatch_all g frames = some g1 := by
  induction frames with
  | nil =>
    intro g _ _
    exact ⟨g, rfl⟩
  | cons cf rest ih =>
    intro g hwf htau
    obtain ⟨g1, h1⟩ := dispatch_defined g cf (hwf cf (List.mem_cons_self _ _)) (Or.inl htau)
    obtain ⟨g2, h2⟩ := ih g1 (fun f hf => hwf f (List.mem_cons_of_mem _ hf))
      (by rw [(dispatch_keeps g g1 cf h1).1]; exact htau)
    exact ⟨g2, by simp only [nodeb_rx_dispatch_all, h1, Option.some_bind]; exact h2⟩

/-- C23: for every context, whatever the number of queued frames (at most 128
on the node), one run of `nodeb_rx_work` terminates within its
`length + 1` iterations; its outcome is that of the per-frame `switch` applied
to the queued frames one at a time, oldest first, starting from the entry
context, with the queue emptied (a faulting division in one is a fault in the
other); a run that completes leaves the queue empty; and when the queued frames
are well-formed and the floor `tau_d_min_s` is positive, as in every reachable
state, the run completes. -/
theorem rx_work_drains_in_order (g : nodeb_ctx) :
    nodeb_rx_work g ≠ none ∧
      nodeb_rx_work g =
        some ((nodeb_rx_dispatch_all g g.rx_fifo).map fun g1 => { g1 with rx_fifo := [] }) ∧
      (∀ g1, nodeb_rx_work g = some (some g1) → g1.rx_fifo = [] ∧
        ∃ g2, nodeb_rx_dispatch_all g g.rx_fifo = some g2 ∧ g1 = { g2 with rx_fifo := [] }) ∧
      ((∀ f ∈ g.rx_fifo, f.wf) → 0 < g.cfg.tau_d_min_s →
        ∃ g2, nodeb_rx_dispatch_all g g.rx_fifo = some g2 ∧
          nodeb_rx_work g = some (some { g2 with rx_fifo := [] })) := by
  have heq : nodeb_rx_work g =
      some ((nodeb_rx_dispatch_all g g.rx_fifo).map fun g1 => { g1 with rx_fifo := [] }) :=
    rx_work_loop_eq g.rx_fifo g (g.rx_fifo.length + 1) rfl (Nat.lt_succ_self _)
  refine ⟨by rw [heq]; exact Option.some_ne_none _, heq, ?_, ?_⟩
  · intro g1 h
    rw [heq] at h
    cases hd : nodeb_rx_dispatch_all g g.rx_fifo with
    | none =>
      rw [hd] at h
      cases h
    | some g2 =>
      rw [hd] at h
      simp only [Option.map_some', Option.some.injEq] at h
      subst h
      exact ⟨rfl, g2, rfl, rfl⟩
  · intro hwf htau
    obtain ⟨g2, h2⟩ := dispatch_all_defined g.rx_fifo g hwf htau
    exact ⟨g2, h2, by rw [heq, h2]; rfl⟩

theorem rx_work_drains_in_order_witness :
    (∀ f ∈ ({ nodeb_init with rx_fifo := [frame_setpoint, frame_A, frame_enable] }
        : nodeb_ctx).rx_fifo, f.wf) ∧
      ∃ g2, nodeb_rx_dispatch_all
          { nodeb_init with rx_fifo := [frame_setpoint, frame_A, frame_enable] }
          [frame_setpoint, frame_A, frame_enable] = some g2 ∧
        nodeb_rx_work { nodeb_init with rx_fifo := [frame_setpoint, frame_A, frame_enable] } =
          some (some { g2 with rx_fifo := [] }) :=
  ⟨by decide,
    (rx_work_drains_in_order
      { nodeb_init with rx_fifo := [frame_setpoint, frame_A, frame_enable] }).2.2.2
      (by decide) (by decide)⟩

/-! ## Defaults -/

/-- C28: `ctrl_defaults` overwrites the configuration, whatever the context
held, with `Ts_sp = 25 * 65536`, a `KpT` whose integer part is 100 (within 1 of
101), `KiT = 65536 / 10`, `KdT = 4 * 65536`, `Kpm = 130 * 65536`,
`Kim = 65536 / 100`, `kawT = 5 * 65536`, `kawm = 10 * 65536`, offsets 100 and
100, limits 4000 and 2800, cut-in 700 and `tau_d_min_s = 65536 / 1000`, and
changes no other field; the context of `nodeb_alloc_ctx_for_test` has this
configuration, zero integrators, zero filter state, `tau_d = 65536`, command
`(0, 0)` and `have_feedback = false`, and so has the context of `nodeb_init`. -/
theorem defaults_populated (ctx : nodeb_ctx) :
    ((ctrl_defaults ctx).cfg.Ts_sp = 25 * 65536 ∧ Q_TO_INT (ctrl_defaults ctx).cfg.Ts_sp = 25 ∧
      Q_TO_INT (ctrl_defaults ctx).cfg.KpT = 100 ∧
      (Q_TO_INT (ctrl_defaults ctx).cfg.KpT - 101).natAbs ≤ 1 ∧
      (ctrl_defaults ctx).cfg.KiT = Int.tdiv 65536 10 ∧
      (ctrl_defaults ctx).cfg.KdT = 4 * 65536 ∧
      (ctrl_defaults ctx).cfg.Kpm = 130 * 65536 ∧
      (ctrl_defaults ctx).cfg.Kim = Int.tdiv 65536 100 ∧
      (ctrl_defaults ctx).cfg.kawT = 5 * 65536 ∧
      (ctrl_defaults ctx).cfg.kawm = 10 * 65536 ∧
      (ctrl_defaults ctx).cfg.omega0_rpm = 100 ∧ (ctrl_defaults ctx).cfg.v0_rpm = 100 ∧
      (ctrl_defaults ctx).cfg.omega_max_rpm = 4000 ∧ (ctrl_defaults ctx).cfg.v_max_rpm = 2800 ∧
      (ctrl_defaults ctx).cfg.v_cut_rpm = 700 ∧
      (ctrl_defaults ctx).cfg.tau_d_min_s = Int.tdiv 65536 1000) ∧
      ctrl_defaults ctx = { ctx with cfg := (ctrl_defaults nodeb_ctx_zero).cfg } ∧
      (nodeb_alloc_ctx_for_test.cfg = (ctrl_defaults ctx).cfg ∧
        nodeb_alloc_ctx_for_test.st.eta_T = 0 ∧ nodeb_alloc_ctx_for_test.st.eta_m = 0 ∧
        nodeb_alloc_ctx_for_test.st.dTh_f = 0 ∧ nodeb_alloc_ctx_for_test.st.tau_d = 65536 ∧
        nodeb_alloc_ctx_for_test.omega_cmd_rpm = 0 ∧ nodeb_alloc_ctx_for_test.v_cmd_rpm = 0 ∧
        nodeb_alloc_ctx_for_test.have_feedback = false ∧
        nodeb_alloc_ctx_for_test.rx_fifo = []) ∧
      nodeb_init = nodeb_alloc_ctx_for_test := by
  have hc : (ctrl_defaults ctx).cfg = nodeb_init.cfg := ctrl_defaults_cfg ctx
  refine ⟨?_, rfl, ⟨?_, by decide, by decide, by decide, by decide, by decide, by decide,
    by decide, by decide⟩, by decide⟩
  · rw [hc]
    decide
  · rw [hc]
    rfl

/-! ## The default gains against the documented ones -/

/-- C29: the default gains against the documented ones, which are also the
defaults of the tool (`default_params`), each read as `raw / 65536`. After
`ctrl_defaults`, `KiT`, `KdT`, `kawT`, `Kpm`, `Kim`, `kawm` and `kwv` are within
0.01 of 0.10, 4.0, 5.0, 130, 0.01, 10 and -0.02. `KpT` is not within 0.01 of
100.6: its raw value is 6573260, within 0.01 of 100.3. `kvw` is not within 0.01
of -0.15: its raw value is -13106, within 0.01 of -0.2. -/
theorem default_gains_vs_documented (ctx : nodeb_ctx) (t : ℚ) :
    (|q_to_rat (ctrl_defaults ctx).cfg.KiT - (default_params t).KiT| ≤ 1 / 100 ∧
      |q_to_rat (ctrl_defaults ctx).cfg.KdT - (default_params t).KdT| ≤ 1 / 100 ∧
      |q_to_rat (ctrl_defaults ctx).cfg.kawT - (default_params t).kawT| ≤ 1 / 100 ∧
      |q_to_rat (ctrl_defaults ctx).cfg.Kpm - (default_params t).Kpm| ≤ 1 / 100 ∧
      |q_to_rat (ctrl_defaults ctx).cfg.Kim - (default_params t).Kim| ≤ 1 / 100 ∧
      |q_to_rat (ctrl_defaults ctx).cfg.kawm - (default_params t).kawm| ≤ 1 / 100 ∧
      |q_to_rat (ctrl_defaults ctx).cfg.kwv - (default_params t).kwv| ≤ 1 / 100) ∧
      ((default_params t).KpT = 1006 / 10 ∧ (ctrl_defaults ctx).cfg.KpT = 6573260 ∧
        ¬ |q_to_rat (ctrl_defaults ctx).cfg.KpT - (default_params t).KpT| ≤ 1 / 100 ∧
        |q_to_rat (ctrl_defaults ctx).cfg.KpT - 1003 / 10| ≤ 1 / 100) ∧
      ((default_params t).kvw = -(15 / 100) ∧ (ctrl_defaults ctx).cfg.kvw = -13106 ∧
        ¬ |q_to_rat (ctrl_defaults ctx).cfg.kvw - (default_params t).kvw| ≤ 1 / 100 ∧
        |q_to_rat (ctrl_defaults ctx).cfg.kvw - -(2 / 10)| ≤ 1 / 100) := by
  obtain ⟨-, hKpT, hKiT, hKdT, hKpm, hKim, hkawT, hkawm, hkvw, hkwv, -⟩ :=
    default_cfg_values (ctrl_defaults ctx) (ctrl_defaults_cfg ctx)
  rw [hKpT, hKiT, hKdT, hKpm, hKim, hkawT, hkawm, hkvw, hkwv]
  simp only [q_to_rat, default_params, abs_le]
  norm_num


/-! ## The fixed-point kernel against its reference definitions -/

theorem q_sat_eq_clamp (x lo hi : Int) (h : lo ≤ hi) : q_sat x lo hi = clamp x lo hi := by
  unfold q_sat clamp
  split_ifs <;> omega

/-- C34: the fixed-point kernel equals its reference definitions on in-range
operands. When the product `a * b` fits `s64`, `Q_MUL a b` is `a * b / 65536`
rounded toward minus infinity (the floor of the rational quotient, also for
negative products: `Q_MUL (-1) 1 = -1`). When the shifted dividend
`a * 65536` and the quotient fit `s64` and `b` is not 0, `Q_DIV a b` is
`a * 65536` divided by `b` truncated toward zero (`Q_DIV (-1) 131072 = 0`);
with `b = 0` it has no result, nor has it for the one pair whose quotient does
not fit, `a * 65536 = INT64_MIN` with `b = -1`. For `lo ≤ hi`, `q_sat x lo hi` is
`max lo (min x hi)`, lies in `[lo, hi]`, is idempotent and is the identity on
`[lo, hi]`. -/
theorem fixed_point_kernel_reference (a b x lo hi : Int) :
    (s64_ok (a * b) → Q_MUL a b = ref_Q_MUL a b ∧
        Q_MUL a b = ⌊((a * b : Int) : ℚ) / 65536⌋ ∧
        65536 * Q_MUL a b ≤ a * b ∧ a * b < 65536 * (Q_MUL a b + 1)) ∧
      (s64_ok (a * 65536) → b ≠ 0 → s64_ok (Int.tdiv (a * 65536) b) →
        Q_DIV a b = some (ref_Q_DIV a b) ∧
        (0 ≤ a * 65536 → 0 < b → ref_Q_DIV a b = a * 65536 / b) ∧
        ref_Q_DIV (-a) b = -ref_Q_DIV a b ∧ ref_Q_DIV a (-b) = -ref_Q_DIV a b) ∧
      Q_DIV a 0 = none ∧ Q_DIV (-140737488355328) (-1) = none ∧
      Q_MUL (-1) 1 = -1 ∧ Q_DIV (-1) 131072 = some 0 ∧
      (lo ≤ hi → q_sat x lo hi = max lo (min x hi) ∧
        (lo ≤ q_sat x lo hi ∧ q_sat x lo hi ≤ hi) ∧
        q_sat (q_sat x lo hi) lo hi = q_sat x lo hi ∧
        (lo ≤ x → x ≤ hi → q_sat x lo hi = x)) := by
  refine ⟨?_, ?_, by unfold Q_DIV; rw [if_pos rfl], by decide, by decide, by decide, ?_⟩
  · intro h
    have hw : wrap_s64 (a * b) = a * b := wrap_s64_id _ h
    have e : Q_MUL a b = a * b / 65536 := by unfold Q_MUL; rw [hw]
    refine ⟨e, ?_, ?_, ?_⟩
    · rw [e]
      exact (Rat.floor_intCast_div_natCast (a * b) 65536).symm
    · rw [e]
      generalize a * b = p
      omega
    · rw [e]
      generalize a * b = p
      omega
  · intro h hb hq
    have hw : wrap_s64 (a * 65536) = a * 65536 := wrap_s64_id _ h
    refine ⟨?_, ?_, ?_, ?_⟩
    · unfold Q_DIV ref_Q_DIV
      rw [if_neg hb, hw]
      have hne : ¬ (a * 65536 = -9223372036854775808 ∧ b = -1) := by
        rintro ⟨h1, h2⟩
        rw [h1, h2] at hq
        have hv : Int.tdiv (-9223372036854775808) (-1) = 9223372036854775808 := by decide
        rw [hv] at hq
        unfold s64_ok at hq
        omega
      rw [if_neg hne]
    · intro h0 hb0
      unfold ref_Q_DIV
      exact Int.tdiv_eq_ediv h0 (le_of_lt hb0)
    · unfold ref_Q_DIV
      rw [neg_mul, Int.neg_tdiv]
    · unfold ref_Q_DIV
      rw [Int.tdiv_neg]
  · intro h
    have hc := q_sat_eq_clamp x lo hi h
    unfold clamp at hc
    refine ⟨hc, ?_, ?_, ?_⟩
    · unfold q_sat
      split_ifs <;> omega
    · unfold q_sat
      split_ifs <;> omega
    · intro h0 h1
      unfold q_sat
      split_ifs <;> omega

theorem fixed_point_kernel_reference_witness :
    s64_ok (-98304 * 32768) ∧ Q_MUL (-98304) 32768 = ref_Q_MUL (-98304) 32768 ∧
      Q_DIV (-98304) 131072 = some (ref_Q_DIV (-98304) 131072) ∧
      q_sat 7 (-5) 5 = max (-5) (min 7 5) :=
  ⟨by decide, ((fixed_point_kernel_reference (-98304) 32768 0 0 0).1 (by decide)).1,
    ((fixed_point_kernel_reference (-98304) 131072 0 0 0).2.1 (by decide) (by decide)
      (by decide)).1,
    ((fixed_point_kernel_reference 0 0 7 (-5) 5).2.2.2.2.2.2 (by decide)).1⟩

/-! ## The cold-leg temperature is not read -/

theorem step_omega_cmd_i_Tc (c : nodeb_ctx) (t : Int) :
    step_omega_cmd_i { c with Tc := t } = step_omega_cmd_i c := rfl

theorem step_eta_m_Tc (c : nodeb_ctx) (t dt : Int) :
    step_eta_m { c with Tc := t } dt = step_eta_m c dt := rfl

theorem step_tau_d_Tc (c : nodeb_ctx) (t : Int) :
    step_tau_d { c with Tc := t } = step_tau_d c := rfl

theorem step_dTh_f_Tc (c : nodeb_ctx) (t dt t1 t2 : Int) :
    step_dTh_f { c with Tc := t } dt t1 t2 = step_dTh_f c dt t1 t2 := rfl

theorem step_v_cmd_i_Tc (c : nodeb_ctx) (t d : Int) :
    step_v_cmd_i { c with Tc := t } d = step_v_cmd_i c d := rfl

theorem step_eta_T_Tc (c : nodeb_ctx) (t dt d : Int) :
    step_eta_T { c with Tc := t } dt d = step_eta_T c dt d := rfl

theorem step_result_Tc (c : nodeb_ctx) (t dt t1 t2 : Int) :
    step_result { c with Tc := t } dt t1 t2 = { step_result c dt t1 t2 with Tc := t } := by
  simp only [step_result, step_eta_T_Tc, step_dTh_f_Tc, step_eta_m_Tc, step_tau_d_Tc,
    step_omega_cmd_i_Tc, step_v_cmd_i_Tc]

/-- The controller step commutes with replacing `Tc`. -/
theorem controller_step_Tc (c : nodeb_ctx) (t : Int) :
    controller_step { c with Tc := t } =
      (controller_step c).map fun c1 => { c1 with Tc := t } := by
  by_cases h : nonidle c
  · have h1 : nonidle { c with Tc := t } := h
    rw [controller_step_eq c h, controller_step_eq _ h1]
    show (Q_DIV (Q_FROM_INT c.dt_ms) (Q_FROM_INT 1000)).bind (fun dt =>
        (Q_DIV (wrap_s64 (c.Th - c.st.dTh_f)) dt).bind fun term1 =>
          (Q_DIV c.st.dTh_f (step_tau_d c)).bind fun term2 =>
            some (step_result { c with Tc := t } dt term1 term2)) = _
    cases Q_DIV (Q_FROM_INT c.dt_ms) (Q_FROM_INT 1000) with
    | none => rfl
    | some dt =>
      simp only [Option.some_bind]
      cases Q_DIV (wrap_s64 (c.Th - c.st.dTh_f)) dt with
      | none => rfl
      | some t1 =>
        simp only [Option.some_bind]
        cases Q_DIV c.st.dTh_f (step_tau_d c) with
        | none => rfl
        | some t2 =>
          simp only [Option.some_bind, Option.map_some']
          rw [step_result_Tc]
  · have h0 : c.have_feedback = false ∨ c.dt_ms = 0 := by
      unfold nonidle at h
      by_cases hf : c.have_feedback = true
      · right
        by_contra hd
        exact h ⟨hf, hd⟩
      · left
        simpa using hf
    rw [controller_step_idle c h0, controller_step_idle { c with Tc := t } h0]
    rfl

/-- Two Feedback frames that differ only in the bytes of `Tc` store samples that
differ only in `Tc`. -/
theorem feedback_ctx_Tc (g : nodeb_ctx) (cf cf2 : can_frame)
    (h0 : cf2.byte 0 = cf.byte 0) (h1 : cf2.byte 1 = cf.byte 1) (h2 : cf2.byte 2 = cf.byte 2)
    (h3 : cf2.byte 3 = cf.byte 3) (h6 : cf2.byte 6 = cf.byte 6) (h7 : cf2.byte 7 = cf.byte 7) :
    feedback_ctx g cf2 = { feedback_ctx g cf with Tc := (feedback_ctx g cf2).Tc } := by
  simp only [feedback_ctx, store_feedback, h0, h1, h2, h3, h6, h7]

/-- C36: the cold-leg temperature never influences control. For every context
`c` and every value `t`, `controller_step` on `c` with `Tc` replaced by `t` has a
result exactly when it has one on `c`, and the result is the same context with
`Tc` replaced by `t`: the two results have the same command pair and the same
controller state (and every other field but `Tc` equal). Hence two Feedback
frames that differ only in the bytes 4-5 of `Tc` leave contexts that differ only
in `Tc`. -/
theorem cold_leg_not_read (c : nodeb_ctx) (t : Int) :
    controller_step { c with Tc := t } =
        (controller_step c).map (fun c1 => { c1 with Tc := t }) ∧
      (∀ c1, controller_step c = some c1 →
        ∃ c2, controller_step { c with Tc := t } = some c2 ∧
          c2.omega_cmd_rpm = c1.omega_cmd_rpm ∧ c2.v_cmd_rpm = c1.v_cmd_rpm ∧ c2.st = c1.st ∧
          c2 = { c1 with Tc := t }) ∧
      (controller_step c = none → controller_step { c with Tc := t } = none) ∧
      ∀ (g : nodeb_ctx) (cf cf2 : can_frame),
        cf.can_id &&& CAN_SFF_MASK = 0x202 → cf.len = 8 →
        cf2.can_id &&& CAN_SFF_MASK = 0x202 → cf2.len = 8 →
        cf2.byte 0 = cf.byte 0 → cf2.byte 1 = cf.byte 1 → cf2.byte 2 = cf.byte 2 →
        cf2.byte 3 = cf.byte 3 → cf2.byte 6 = cf.byte 6 → cf2.byte 7 = cf.byte 7 →
        nodeb_rx_dispatch g cf2 =
          (nodeb_rx_dispatch g cf).map fun g1 => { g1 with Tc := (feedback_ctx g cf2).Tc } := by
  have h := controller_step_Tc c t
  refine ⟨h, ?_, ?_, ?_⟩
  · intro c1 h1
    rw [h1] at h
    exact ⟨_, h, rfl, rfl, rfl, rfl⟩
  · intro h1
    rw [h1] at h
    exact h
  · intro g cf cf2 hid hlen hid2 hlen2 h0 h1 h2 h3 h6 h7
    rw [dispatch_feedback g cf hid hlen, dispatch_feedback g cf2 hid2 hlen2,
      feedback_ctx_Tc g cf cf2 h0 h1 h2 h3 h6 h7, controller_step_Tc]
    cases controller_step (feedback_ctx g cf) with
    | none => rfl
    | some c1 => rfl

theorem cold_leg_not_read_witness :
    ∃ c2, controller_step { ctx_hot with Tc := 123456 } = some c2 ∧
      c2.omega_cmd_rpm = (step_next ctx_hot).omega_cmd_rpm ∧
      c2.v_cmd_rpm = (step_next ctx_hot).v_cmd_rpm ∧ c2.st = (step_next ctx_hot).st ∧
      c2 = { step_next ctx_hot with Tc := 123456 } :=
  (cold_leg_not_read ctx_hot 123456).2.1 (step_next ctx_hot) (by rfl)

/-! ## The derivative time constant -/

/-- C37: the derivative time constant is never adapted. In every state
reachable from `nodeb_init` by received frames, worker iterations and timer
expiries, `st.tau_d = 65536` and `cfg.tau_d_min_s = 65`; no frame changes
`cfg.tau_d_min_s`, and the floor of `controller_step` leaves a `tau_d` that is
not below `tau_d_min_s` as it is. -/
theorem tau_d_never_adapted :
    (nodeb_init.st.tau_d = 65536 ∧ nodeb_init.cfg.tau_d_min_s = 65 ∧
      Int.tdiv Q_ONE 1000 = 65 ∧ Q_FROM_INT 1 = 65536) ∧
      (∀ g : nodeb_ctx, Reachable g → g.st.tau_d = 65536 ∧ g.cfg.tau_d_min_s = 65) ∧
      (∀ (g g1 : nodeb_ctx) (cf : can_frame), nodeb_rx_dispatch g cf = some g1 →
        g1.cfg.tau_d_min_s = g.cfg.tau_d_min_s) ∧
      (∀ c : nodeb_ctx, c.cfg.tau_d_min_s ≤ c.st.tau_d → step_tau_d c = c.st.tau_d) ∧
      ∀ c : nodeb_ctx, step_tau_d c = max c.st.tau_d c.cfg.tau_d_min_s := by
  refine ⟨⟨by decide, by decide, by decide, by decide⟩, ?_, ?_, ?_, ?_⟩
  · intro g hg
    have h := (reachable_node_ranges g hg).1
    exact ⟨h.2.2.2.1, h.1.2.2.2.2.2.2.2.2.2.2.2.2.2.2.2⟩
  · intro g g1 cf h
    exact (dispatch_keeps g g1 cf h).1
  · intro c h
    unfold step_tau_d
    rw [if_neg (by omega)]
  · intro c
    unfold step_tau_d
    split_ifs <;> omega

theorem tau_d_never_adapted_witness :
    ∃ g1, nodeb_rx_work_iter (nodeb_can_rx_cb nodeb_init frame_A) = some (some g1) ∧
      g1.st.tau_d = 65536 ∧ g1.cfg.tau_d_min_s = 65 := by
  have h : ∃ g1, nodeb_rx_work_iter (nodeb_can_rx_cb nodeb_init frame_A) = some (some g1) :=
    ⟨_, rfl⟩
  obtain ⟨g1, h1⟩ := h
  exact ⟨g1, h1, tau_d_never_adapted.2.1 g1
    (Reachable.work _ g1 (Reachable.rx _ frame_A Reachable.init (by decide)) h1)⟩

/-! ## The control law against its reference equations -/

theorem Q_MUL_exact (a b : Int) (h : s64_ok (a * b)) : Q_MUL a b = ref_Q_MUL a b := by
  unfold Q_MUL ref_Q_MUL
  rw [wrap_s64_id _ h]

theorem clamp_cmd_eq_clamp (x : Int) (m : Nat) : clamp_cmd x m = clamp x 0 m := by
  simp only [clamp_cmd, clamp]
  split_ifs <;> omega

/-- The flow loop within `step_ranges`: the machine values are the reference
ones. -/
theorem flow_reference (c : nodeb_ctx) (h : step_ranges c) (hni : nonidle c) :
    step_omega_raw_q c = ref_omega_raw c ∧ step_omega_cmd_i c = ref_omega_cmd c ∧
      step_eta_m c (step_dt c.dt_ms) = ref_eta_m c := by
  have hr := step_dt_range c.dt_ms hni.2 h.2.2.2.2.2.2.2
  obtain ⟨hflow, he, hraw, hcmdq, hti, _⟩ := flow_exact c h (step_dt c.dt_ms) hr
  obtain ⟨-, -, -, -, -, -, -, -, -, -, -, -, -, -, -, -, h17, h18, h19, h20, h21, h22, -, -, -⟩ :=
    hflow
  have hom0 : c.cfg.omega0_rpm = 100 := h.1.2.2.2.2.2.2.2.2.2.2.1
  have hv0 : c.cfg.v0_rpm = 100 := h.1.2.2.2.2.2.2.2.2.2.2.2.1
  have eraw : step_omega_raw_q c = ref_omega_raw c := by
    rw [hraw]
    unfold ref_omega_raw ref_Q_MUL
    rw [hom0]
    rfl
  have ecmd : step_omega_cmd_i c = ref_omega_cmd c := by
    have e0 : step_omega_cmd_i c =
        clamp_cmd (Q_TO_INT (step_omega_cmd_q c)) c.cfg.omega_max_rpm := rfl
    rw [e0, hti, hcmdq, eraw, clamp_cmd_eq_clamp]
    unfold ref_omega_cmd ref_Q_MUL
    rw [hv0]
    rfl
  have hQ : Q_FROM_INT (step_omega_cmd_i c) = step_omega_cmd_i c * 65536 := by
    unfold Q_FROM_INT
    exact wrap_s64_id _ h17
  have herr : step_omega_err_q c = step_omega_cmd_i c * 65536 - step_omega_raw_q c := by
    unfold step_omega_err_q
    rw [wrap_s64_id _ h18, hQ]
  have hawm : step_aw_m c = step_e c + ref_Q_MUL c.cfg.kawm (step_omega_err_q c) := by
    unfold step_aw_m
    rw [wrap_s64_id _ h20, Q_MUL_exact _ _ h19]
  have heta : step_eta_m c (step_dt c.dt_ms) =
      q_sat (wrap_s64 (c.st.eta_m + Q_MUL (step_aw_m c) (step_dt c.dt_ms))) (Q_FROM_INT (-200))
        (Q_FROM_INT 200) := (step_operands_eq c (step_dt c.dt_ms) 0 0).1
  have hlo : Q_FROM_INT (-200) = -200 * 65536 := by decide
  have hhi : Q_FROM_INT 200 = 200 * 65536 := by decide
  refine ⟨eraw, ecmd, ?_⟩
  rw [heta, wrap_s64_id _ h22, Q_MUL_exact _ _ h21, hawm, herr, he, ecmd, eraw, hlo, hhi]
  rfl

/-- C31: the flow loop follows its reference equations. For every context
within `step_ranges` (as every context of the running node is) on the non-idle
path, `controller_step` returns, and with `e = Ts_sp - Ts`,
`dt = dt_ms * 65536 / 1000` and
`omega_raw = -(omega0_rpm * 65536 + Q_MUL Kpm e + Q_MUL Kim eta_m)` on the
integrator before the step, the new command is
`clamp ((omega_raw + Q_MUL kwv ((v_prev_rpm - v0_rpm) * 65536)) / 65536) 0 omega_max_rpm`
and the new integrator is
`q_sat (eta_m + Q_MUL (e + Q_MUL kawm (omega_cmd_rpm * 65536 - omega_raw)) dt)
(-200 * 65536) (200 * 65536)`, all products being the reference ones over
unbounded integers. -/
theorem flow_loop_reference (c : nodeb_ctx) (h : step_ranges c) (hni : nonidle c) :
    ∃ c1, controller_step c = some c1 ∧ (c1.omega_cmd_rpm : Int) = ref_omega_cmd c ∧
      c1.st.eta_m = ref_eta_m c ∧
      Q_DIV (Q_FROM_INT c.dt_ms) (Q_FROM_INT 1000) = some ((c.dt_ms : Int) * 65536 / 1000) := by
  have hr := step_dt_range c.dt_ms hni.2 h.2.2.2.2.2.2.2
  obtain ⟨_, ecmd, eeta⟩ := flow_reference c h hni
  obtain ⟨_, _, _, _, _, hci⟩ := flow_exact c h (step_dt c.dt_ms) hr
  have hdt : c.dt_ms < 256 := by
    have := h.2.2.2.2.2.2.2
    omega
  refine ⟨step_next c, (step_ranges_next c h hni).1, ?_, ?_, (Q_DIV_dt c.dt_ms hni.2 hdt).1⟩
  · rw [step_next_cmd1, ← ecmd]
    generalize step_omega_cmd_i c = x at hci ⊢
    clear * - hci
    unfold wrap_u16
    omega
  · exact (rfl : (step_next c).st.eta_m = step_eta_m c (step_dt c.dt_ms)).trans eeta

theorem flow_loop_reference_witness :
    step_ranges ctx_A ∧ nonidle ctx_A ∧
      ∃ c1, controller_step ctx_A = some c1 ∧ (c1.omega_cmd_rpm : Int) = ref_omega_cmd ctx_A ∧
        c1.st.eta_m = ref_eta_m ctx_A ∧
        Q_DIV (Q_FROM_INT ctx_A.dt_ms) (Q_FROM_INT 1000) =
          some ((ctx_A.dt_ms : Int) * 65536 / 1000) :=
  ⟨(feedback_ctx_ranges nodeb_init frame_A (by decide)
      (reachable_node_ranges _ Reachable.init).1).1, by decide,
    flow_loop_reference ctx_A
      (feedback_ctx_ranges nodeb_init frame_A (by decide)
        (reachable_node_ranges _ Reachable.init).1).1 (by decide)⟩

/-- The temperature loop within `step_ranges`, for an updated filter state `d`
within its bound: the machine values are the reference ones. -/
theorem fan_reference (c : nodeb_ctx) (h : step_ranges c) (hni : nonidle c) (d : Int)
    (hd : -300000000 ≤ d ∧ d ≤ 300000000) :
    step_v_raw_q c d = ref_v_raw c d ∧ step_v_cmd_i c d = ref_v_cmd c d ∧
      step_eta_T c (step_dt c.dt_ms) d = ref_eta_T c d := by
  have hr := step_dt_range c.dt_ms hni.2 h.2.2.2.2.2.2.2
  obtain ⟨hfan, hraw, hcmdq, hti, _⟩ := fan_exact c h (step_dt c.dt_ms) hr d hd
  obtain ⟨_, he, _, _, _, _⟩ := flow_exact c h (step_dt c.dt_ms) hr
  obtain ⟨_, eocmd, _⟩ := flow_reference c h hni
  obtain ⟨-, -, -, -, -, -, -, -, -, -, -, -, -, h14, h15, h16, h17, h18, h19, -, -, -⟩ := hfan
  have hom0 : c.cfg.omega0_rpm = 100 := h.1.2.2.2.2.2.2.2.2.2.2.1
  have hv0 : c.cfg.v0_rpm = 100 := h.1.2.2.2.2.2.2.2.2.2.2.2.1
  have eraw : step_v_raw_q c d = ref_v_raw c d := by
    rw [hraw]
    unfold ref_v_raw ref_Q_MUL
    rw [hv0]
    rfl
  have ecmd : step_v_cmd_i c d = ref_v_cmd c d := by
    have e0 : step_v_cmd_i c d =
        cut_in (clamp_cmd (Q_TO_INT (step_v_cmd_q c d)) c.cfg.v_max_rpm) c.cfg.v_cut_rpm := rfl
    rw [e0, hti, hcmdq, eraw, clamp_cmd_eq_clamp, eocmd]
    unfold ref_v_cmd ref_Q_MUL cut_in
    rw [hom0]
    rfl
  have hQ : Q_FROM_INT (step_v_cmd_i c d) = step_v_cmd_i c d * 65536 := by
    unfold Q_FROM_INT
    exact wrap_s64_id _ h14
  have herr : step_v_err_q c d = step_v_cmd_i c d * 65536 - step_v_raw_q c d := by
    unfold step_v_err_q
    rw [wrap_s64_id _ h15, hQ]
  have hawT : step_aw_T c d = step_e c + ref_Q_MUL c.cfg.kawT (step_v_err_q c d) := by
    unfold step_aw_T
    rw [wrap_s64_id _ h17, Q_MUL_exact _ _ h16]
  have heta : step_eta_T c (step_dt c.dt_ms) d =
      q_sat (wrap_s64 (c.st.eta_T + Q_MUL (step_aw_T c d) (step_dt c.dt_ms))) (Q_FROM_INT (-500))
        (Q_FROM_INT 500) := rfl
  have hlo : Q_FROM_INT (-500) = -500 * 65536 := by decide
  have hhi : Q_FROM_INT 500 = 500 * 65536 := by decide
  refine ⟨eraw, ecmd, ?_⟩
  rw [heta, wrap_s64_id _ h19, Q_MUL_exact _ _ h18, hawT, herr, he, ecmd, eraw, hlo, hhi]
  rfl

/-- C32: the temperature loop follows its reference equations. For every
context within `step_ranges` on the non-idle path, `controller_step` returns a
context `c1`, and with `e = Ts_sp - Ts`, the filter state `c1.st.dTh_f` already
updated by this step and the clamped pump command of this step,
`v_raw = -(v0_rpm * 65536 + Q_MUL KpT e + Q_MUL KiT eta_T - Q_MUL KdT dTh_f)` on
the integrator before the step; the new fan command is
`(v_raw + Q_MUL kvw ((omega_cmd_rpm - omega0_rpm) * 65536)) / 65536` clamped to
`0..v_max_rpm` and then forced to 0 when below `v_cut_rpm`; and the new
integrator is
`q_sat (eta_T + Q_MUL (e + Q_MUL kawT (v_cmd_rpm * 65536 - v_raw)) dt)
(-500 * 65536) (500 * 65536)` with the command after the cut-in rule. -/
theorem fan_loop_reference (c : nodeb_ctx) (h : step_ranges c) (hni : nonidle c) :
    ∃ c1, controller_step c = some c1 ∧ (c1.omega_cmd_rpm : Int) = ref_omega_cmd c ∧
      (c1.v_cmd_rpm : Int) = ref_v_cmd c c1.st.dTh_f ∧
      c1.st.eta_T = ref_eta_T c c1.st.dTh_f := by
  have hr := step_dt_range c.dt_ms hni.2 h.2.2.2.2.2.2.2
  have hnext := step_ranges_next c h hni
  have hd := hnext.2.1.2.2.1
  obtain ⟨_, eocmd, _⟩ := flow_reference c h hni
  obtain ⟨_, _, _, _, _, hoi⟩ := flow_exact c h (step_dt c.dt_ms) hr
  obtain ⟨eraw, ecmd, eeta⟩ := fan_reference c h hni (step_next c).st.dTh_f hd
  obtain ⟨_, _, _, _, hci⟩ := fan_exact c h (step_dt c.dt_ms) hr (step_next c).st.dTh_f hd
  have hv : ((step_next c).v_cmd_rpm : Int) = ref_v_cmd c (step_next c).st.dTh_f := by
    rw [step_next_cmd2, ← ecmd]
    generalize step_v_cmd_i c (step_next c).st.dTh_f = x at hci ⊢
    clear * - hci
    unfold wrap_u16
    omega
  refine ⟨step_next c, hnext.1, ?_, hv, ?_⟩
  · rw [step_next_cmd1, ← eocmd]
    generalize step_omega_cmd_i c = x at hoi ⊢
    clear * - hoi
    unfold wrap_u16
    omega
  · exact (rfl : (step_next c).st.eta_T =
      step_eta_T c (step_dt c.dt_ms) (step_next c).st.dTh_f).trans eeta

theorem fan_loop_reference_witness :
    step_ranges ctx_A ∧ nonidle ctx_A ∧
      ∃ c1, controller_step ctx_A = some c1 ∧ (c1.omega_cmd_rpm : Int) = ref_omega_cmd ctx_A ∧
        (c1.v_cmd_rpm : Int) = ref_v_cmd ctx_A c1.st.dTh_f ∧
        c1.st.eta_T = ref_eta_T ctx_A c1.st.dTh_f :=
  ⟨(feedback_ctx_ranges nodeb_init frame_A (by decide)
      (reachable_node_ranges _ Reachable.init).1).1, by decide,
    fan_loop_reference ctx_A
      (feedback_ctx_ranges nodeb_init frame_A (by decide)
        (reachable_node_ranges _ Reachable.init).1).1 (by decide)⟩

/-! ## The pump command at and below the setpoint, and its monotonicity -/

/-- The pump command reads the configuration, `Ts`, `eta_m` and `v_prev_rpm`
only. -/
theorem step_omega_cmd_i_flow_only (c : nodeb_ctx) (eT d tau Th : Int) :
    step_omega_cmd_i { c with st := { c.st with eta_T := eT, dTh_f := d, tau_d := tau }, Th := Th } =
      step_omega_cmd_i c := rfl

theorem nodeb_init_cfg_ranges : cfg_ranges nodeb_init.cfg :=
  (reachable_node_ranges _ Reachable.init).1.1

/-- With the default configuration, an integrator within its clamp, a sample
from wire values and `Ts` at or below the setpoint, the clamped pump command
is 0. -/
theorem pump_off_step (c : nodeb_ctx) (hcfg : c.cfg = nodeb_init.cfg)
    (heta : -200 * 65536 ≤ c.st.eta_m ∧ c.st.eta_m ≤ 200 * 65536)
    (hTs : -214748364 ≤ c.Ts ∧ c.Ts ≤ c.cfg.Ts_sp) (hv : c.v_prev_rpm ≤ 2550)
    (hdt : c.dt_ms ≠ 0 ∧ c.dt_ms ≤ 255) : step_omega_cmd_i c = 0 := by
  have kv := default_cfg_values c hcfg
  obtain ⟨kTs, -, -, -, kKpm, kKim, -, -, -, kkwv, -, -, -, -, -, -⟩ := kv
  have hcr : cfg_ranges c.cfg := by rw [hcfg]; exact nodeb_init_cfg_ranges
  rw [← step_omega_cmd_i_flow_only c 0 0 65536 0]
  have hsr : step_ranges { c with
      st := { c.st with eta_T := 0, dTh_f := 0, tau_d := 65536 }, Th := 0 } :=
    ⟨hcr, ⟨heta.1, heta.2, by norm_num, by norm_num⟩, ⟨by norm_num, by norm_num⟩, rfl,
      ⟨hTs.1, by rw [kTs] at hTs; exact le_trans hTs.2 (by norm_num)⟩,
      ⟨by norm_num, by norm_num⟩, hv, hdt.2⟩
  obtain ⟨_, _, hraw, hcmdq, hti, _⟩ := flow_exact _ hsr (step_dt c.dt_ms)
    (step_dt_range c.dt_ms hdt.1 hdt.2)
  have e0 : step_omega_cmd_i { c with
      st := { c.st with eta_T := 0, dTh_f := 0, tau_d := 65536 }, Th := 0 } =
      clamp_cmd (Q_TO_INT (step_omega_cmd_q { c with
        st := { c.st with eta_T := 0, dTh_f := 0, tau_d := 65536 }, Th := 0 }))
        c.cfg.omega_max_rpm := rfl
  rw [e0, hti, hcmdq, hraw]
  show clamp_cmd ((-(6553600 + c.cfg.Kpm * (c.cfg.Ts_sp - c.Ts) / 65536
    + c.cfg.Kim * c.st.eta_m / 65536)
    + c.cfg.kwv * (((c.v_prev_rpm : Int) - 100) * 65536) / 65536) / 65536) c.cfg.omega_max_rpm = 0
  rw [kKpm, kKim, kkwv, kTs]
  rw [kTs] at hTs
  have hv0 : (0 : Int) ≤ (c.v_prev_rpm : Int) := Int.natCast_nonneg _
  generalize (c.v_prev_rpm : Int) = v at hv0
  generalize c.st.eta_m = m at heta
  generalize c.Ts = t at hTs
  generalize c.cfg.omega_max_rpm = mx
  clear * - heta hTs hv0
  simp only [clamp_cmd]
  split_ifs <;> omega

/-- C38: with the default configuration, for every state whose flow integrator
is within its clamp (`|eta_m| ≤ 200 * 65536`; the rest of the state is
arbitrary) and every well-formed Feedback frame of length 8 whose `Ts` is at or
below the setpoint, the frame is processed and leaves `omega_cmd_rpm = 0`,
although the baseline `omega0_rpm` is 100: the baseline enters `omega_raw`
negated. -/
theorem pump_off_at_or_below_setpoint (g : nodeb_ctx) (cf : can_frame)
    (hcfg : g.cfg = nodeb_init.cfg)
    (heta : -200 * 65536 ≤ g.st.eta_m ∧ g.st.eta_m ≤ 200 * 65536) (hwf : cf.wf)
    (hid : cf.can_id &&& CAN_SFF_MASK = 0x202) (hlen : cf.len = 8)
    (hTs : (feedback_ctx g cf).Ts ≤ g.cfg.Ts_sp) :
    g.cfg.omega0_rpm = 100 ∧ (∃ g1, nodeb_rx_dispatch g cf = some g1) ∧
      ∀ g1, nodeb_rx_dispatch g cf = some g1 → g1.omega_cmd_rpm = 0 := by
  obtain ⟨sTs, -, -, sv, sdt, sfb⟩ := feedback_ctx_sample g cf hwf
  obtain ⟨kcfg, kst, _⟩ := feedback_ctx_keeps g cf
  have hb := byte_lt cf hwf
  have h6 := hb 6
  have h7 := hb 7
  have hr := s16_of_le_range (cf.byte 0) (cf.byte 1) (hb 0) (hb 1)
  have hTr := temp_range _ hr.1 hr.2
  have hdt : (feedback_ctx g cf).dt_ms ≠ 0 ∧ (feedback_ctx g cf).dt_ms ≤ 255 := by
    rw [sdt]
    split_ifs <;> omega
  have hoff := pump_off_step (feedback_ctx g cf) (kcfg.trans hcfg) (by rw [kst]; exact heta)
    ⟨by rw [sTs]; exact hTr.1, by rw [kcfg]; exact hTs⟩ (by rw [sv]; clear * - h6; omega) hdt
  have kv := default_cfg_values g hcfg
  refine ⟨kv.2.2.2.2.2.2.2.2.2.2.1, dispatch_defined g cf hwf
    (Or.inl (by rw [kv.2.2.2.2.2.2.2.2.2.2.2.2.2.2.2]; norm_num)), ?_⟩
  intro g1 h
  obtain ⟨c1, hstep, hg1⟩ := dispatch_feedback_result g g1 cf hid hlen h
  obtain ⟨dt, t1, t2, hc1⟩ := controller_step_result _ c1 ⟨sfb, hdt.1⟩ hstep
  have e1 : g1.omega_cmd_rpm = c1.omega_cmd_rpm := by rw [hg1]
  have e2 : c1.omega_cmd_rpm = wrap_u16 (step_omega_cmd_i (feedback_ctx g cf)) := by
    rw [hc1]
    simp only [step_result]
  rw [e1, e2, hoff]
  rfl

theorem pump_off_at_or_below_setpoint_witness :
    (feedback_ctx nodeb_init frame_A).Ts ≤ nodeb_init.cfg.Ts_sp ∧
      (∃ g1, nodeb_rx_dispatch nodeb_init frame_A = some g1) ∧
      ∀ g1, nodeb_rx_dispatch nodeb_init frame_A = some g1 → g1.omega_cmd_rpm = 0 :=
  ⟨by decide,
    (pump_off_at_or_below_setpoint nodeb_init frame_A rfl (by decide) (by decide) (by decide)
      (by decide) (by decide)).2⟩

theorem clamp_cmd_mono (x y : Int) (m : Nat) (h : x ≤ y) : clamp_cmd x m ≤ clamp_cmd y m := by
  simp only [clamp_cmd]
  split_ifs <;> omega

/-- The clamped pump command within `step_ranges` does not decrease when `Ts`
increases. -/
theorem step_omega_cmd_i_mono (c : nodeb_ctx) (h : step_ranges c) (hni : nonidle c) (Ts2 : Int)
    (h1 : c.Ts ≤ Ts2) (h2 : Ts2 ≤ 214748364) :
    step_ranges { c with Ts := Ts2 } ∧
      step_omega_cmd_i c ≤ step_omega_cmd_i { c with Ts := Ts2 } := by
  have hr := step_dt_range c.dt_ms hni.2 h.2.2.2.2.2.2.2
  have hsr : step_ranges { c with Ts := Ts2 } :=
    ⟨h.1, h.2.1, h.2.2.1, h.2.2.2.1, ⟨le_trans h.2.2.2.2.1.1 h1, h2⟩, h.2.2.2.2.2.1,
      h.2.2.2.2.2.2.1, h.2.2.2.2.2.2.2⟩
  obtain ⟨_, _, hraw, hcmdq, hti, _⟩ := flow_exact c h (step_dt c.dt_ms) hr
  obtain ⟨_, _, hraw2, hcmdq2, hti2, _⟩ := flow_exact _ hsr (step_dt c.dt_ms) hr
  have hK : 0 ≤ c.cfg.Kpm := h.1.2.2.2.2.1.1
  have e1 : step_omega_cmd_i c =
      clamp_cmd (Q_TO_INT (step_omega_cmd_q c)) c.cfg.omega_max_rpm := rfl
  have e2 : step_omega_cmd_i { c with Ts := Ts2 } =
      clamp_cmd (Q_TO_INT (step_omega_cmd_q { c with Ts := Ts2 })) c.cfg.omega_max_rpm := rfl
  refine ⟨hsr, ?_⟩
  rw [e1, e2, hti, hti2, hcmdq, hcmdq2, hraw, hraw2]
  apply clamp_cmd_mono
  apply Int.ediv_le_ediv (by norm_num)
  have hp : c.cfg.Kpm * (c.cfg.Ts_sp - Ts2) ≤ c.cfg.Kpm * (c.cfg.Ts_sp - c.Ts) :=
    mul_le_mul_of_nonneg_left (by omega) hK
  have hq := Int.ediv_le_ediv (show (0 : Int) < 65536 by norm_num) hp
  show -(6553600 + c.cfg.Kpm * (c.cfg.Ts_sp - c.Ts) / 65536 + c.cfg.Kim * c.st.eta_m / 65536)
      + c.cfg.kwv * (((c.v_prev_rpm : Int) - 100) * 65536) / 65536
    ≤ -(6553600 + c.cfg.Kpm * (c.cfg.Ts_sp - Ts2) / 65536 + c.cfg.Kim * c.st.eta_m / 65536)
      + c.cfg.kwv * (((c.v_prev_rpm : Int) - 100) * 65536) / 65536
  generalize c.cfg.Kpm * (c.cfg.Ts_sp - c.Ts) / 65536 = p1 at hq ⊢
  generalize c.cfg.Kpm * (c.cfg.Ts_sp - Ts2) / 65536 = p2 at hq ⊢
  generalize c.cfg.Kim * c.st.eta_m / 65536 = m
  generalize c.cfg.kwv * (((c.v_prev_rpm : Int) - 100) * 65536) / 65536 = k
  clear * - hq
  omega

/-- C39: the pump command is monotone in the measured temperature. For every
context within `step_ranges` (in particular `0 ≤ Kpm`, gains, setpoint and
sample from wire values) on the non-idle path and every `Ts2` with
`Ts ≤ Ts2` within the wire range of a temperature, `controller_step` returns on
the context and on the one that differs from it only in `Ts = Ts2`, and the
first `omega_cmd_rpm` is at most the second. -/
theorem pump_cmd_monotone_in_Ts (c : nodeb_ctx) (h : step_ranges c) (hni : nonidle c)
    (Ts2 : Int) (h1 : c.Ts ≤ Ts2) (h2 : Ts2 ≤ 214748364) :
    0 ≤ c.cfg.Kpm ∧
      ∃ c1 c2, controller_step c = some c1 ∧ controller_step { c with Ts := Ts2 } = some c2 ∧
        c1.omega_cmd_rpm ≤ c2.omega_cmd_rpm := by
  have hr := step_dt_range c.dt_ms hni.2 h.2.2.2.2.2.2.2
  obtain ⟨hsr, hm⟩ := step_omega_cmd_i_mono c h hni Ts2 h1 h2
  have hni2 : nonidle { c with Ts := Ts2 } := hni
  obtain ⟨_, _, _, _, _, r1⟩ := flow_exact c h (step_dt c.dt_ms) hr
  obtain ⟨_, _, _, _, _, r2⟩ := flow_exact _ hsr (step_dt c.dt_ms) hr
  refine ⟨h.1.2.2.2.2.1.1, step_next c, step_next { c with Ts := Ts2 },
    (step_ranges_next c h hni).1, (step_ranges_next _ hsr hni2).1, ?_⟩
  rw [step_next_cmd1, step_next_cmd1]
  generalize step_omega_cmd_i c = x at hm r1 ⊢
  generalize step_omega_cmd_i { c with Ts := Ts2 } = y at hm r2 ⊢
  clear * - hm r1 r2
  unfold wrap_u16
  omega

theorem pump_cmd_monotone_in_Ts_witness :
    step_ranges ctx_A ∧ nonidle ctx_A ∧ ctx_A.Ts ≤ 6553600 ∧
      ∃ c1 c2, controller_step ctx_A = some c1 ∧
        controller_step { ctx_A with Ts := 6553600 } = some c2 ∧
        c1.omega_cmd_rpm ≤ c2.omega_cmd_rpm :=
  ⟨(feedback_ctx_ranges nodeb_init frame_A (by decide)
      (reachable_node_ranges _ Reachable.init).1).1, by decide, by decide,
    (pump_cmd_monotone_in_Ts ctx_A
      (feedback_ctx_ranges nodeb_init frame_A (by decide)
        (reachable_node_ranges _ Reachable.init).1).1 (by decide) 6553600 (by decide)
      (by decide)).2⟩

/-! ## Rounding -/

theorem round_half_away_near {α : Type} [LinearOrderedField α] [FloorRing α] (y : α) :
    y - 1 / 2 ≤ (round_half_away y : α) ∧ (round_half_away y : α) ≤ y + 1 / 2 := by
  unfold round_half_away
  split_ifs with h
  · have h1 := Int.floor_le (y + 1 / 2)
    have h2 := Int.lt_floor_add_one (y + 1 / 2)
    constructor <;> linarith
  · have h1 := Int.le_ceil (y - 1 / 2)
    have h2 := Int.ceil_lt_add_one (y - 1 / 2)
    constructor <;> linarith

/-- Rounding is monotone across integers: integer bounds of the argument are
bounds of the rounded value. -/
theorem round_half_away_bounds {α : Type} [LinearOrderedField α] [FloorRing α] (y : α)
    (a b : Int) : ((a : α) ≤ y → a ≤ round_half_away y) ∧
      (y ≤ (b : α) → round_half_away y ≤ b) := by
  obtain ⟨h1, h2⟩ := round_half_away_near y
  constructor
  · intro ha
    have h3 : ((a - 1 : Int) : α) < (round_half_away y : α) := by
      push_cast
      linarith
    have h4 := Int.cast_lt.mp h3
    omega
  · intro hb
    have h3 : (round_half_away y : α) < ((b + 1 : Int) : α) := by
      push_cast
      linarith
    have h4 := Int.cast_lt.mp h3
    omega

/-- A negative argument never rounds above zero, a non-negative one never
below. -/
theorem round_half_away_sign {α : Type} [LinearOrderedField α] [FloorRing α] (y : α) :
    (y ≤ 0 → round_half_away y ≤ 0) ∧ (0 ≤ y → 0 ≤ round_half_away y) := by
  have h := round_half_away_bounds y 0 0
  simp only [Int.cast_zero] at h
  exact ⟨h.2, h.1⟩

theorem round_half_away_int {α : Type} [LinearOrderedField α] [FloorRing α] (n : Int) :
    round_half_away (n : α) = n := by
  have h := round_half_away_bounds (n : α) n n
  have h1 := h.1 le_rfl
  have h2 := h.2 le_rfl
  omega

/-- A value strictly within one half of an integer rounds to it. -/
theorem round_half_away_eq {α : Type} [LinearOrderedField α] [FloorRing α] (y : α) (m : Int)
    (h1 : (m : α) - 1 / 2 < y) (h2 : y < (m : α) + 1 / 2) : round_half_away y = m := by
  obtain ⟨h3, h4⟩ := round_half_away_near y
  have h5 : ((m - 1 : Int) : α) < (round_half_away y : α) := by
    push_cast
    linarith
  have h6 : (round_half_away y : α) < ((m + 1 : Int) : α) := by
    push_cast
    linarith
  have h7 := Int.cast_lt.mp h5
  have h8 := Int.cast_lt.mp h6
  omega

theorem round_half_even_near (z : ℚ) :
    z - 1 / 2 ≤ (round_half_even z : ℚ) ∧ (round_half_even z : ℚ) ≤ z + 1 / 2 := by
  have h1 := Int.floor_le z
  have h2 := Int.lt_floor_add_one z
  unfold round_half_even
  split_ifs with ha hb hc
  · constructor <;> linarith
  · constructor <;> push_cast <;> linarith
  · constructor <;> linarith
  · constructor <;> push_cast <;> linarith

theorem round_half_even_bounds (z : ℚ) (a b : Int) :
    ((a : ℚ) ≤ z → a ≤ round_half_even z) ∧ (z ≤ (b : ℚ) → round_half_even z ≤ b) := by
  obtain ⟨h1, h2⟩ := round_half_even_near z
  constructor
  · intro ha
    have h3 : ((a - 1 : Int) : ℚ) < (round_half_even z : ℚ) := by
      push_cast
      linarith
    have h4 := Int.cast_lt.mp h3
    omega
  · intro hb
    have h3 : (round_half_even z : ℚ) < ((b + 1 : Int) : ℚ) := by
      push_cast
      linarith
    have h4 := Int.cast_lt.mp h3
    omega

theorem round_half_even_int (n : Int) : round_half_even (n : ℚ) = n := by
  have h := round_half_even_bounds (n : ℚ) n n
  have h1 := h.1 le_rfl
  have h2 := h.2 le_rfl
  omega

/-- A value strictly within one half of an integer rounds to it. -/
theorem round_half_even_eq (z : ℚ) (m : Int)
    (h1 : (m : ℚ) - 1 / 2 < z) (h2 : z < (m : ℚ) + 1 / 2) : round_half_even z = m := by
  obtain ⟨h3, h4⟩ := round_half_even_near z
  have h5 : ((m - 1 : Int) : ℚ) < (round_half_even z : ℚ) := by
    push_cast
    linarith
  have h6 : (round_half_even z : ℚ) < ((m + 1 : Int) : ℚ) := by
    push_cast
    linarith
  have h7 := Int.cast_lt.mp h5
  have h8 := Int.cast_lt.mp h6
  omega

/-- A tie between two integers goes to the even one. -/
theorem round_half_even_tie (n : Int) :
    round_half_even ((n : ℚ) + 1 / 2) = if n % 2 = 0 then n else n + 1 := by
  have hf : ⌊(n : ℚ) + 1 / 2⌋ = n := by
    rw [Int.floor_eq_iff]
    constructor <;> linarith
  unfold round_half_even
  rw [hf]
  have e : (n : ℚ) + 1 / 2 - (n : ℚ) = 1 / 2 := by ring
  rw [e]
  simp only [lt_irrefl, if_false]

/-! ## The floating-point rounding -/

theorem two_zpow_nonpos (j : Int) (hj : j ≤ 0) :
    (2 : ℚ) ^ j = 1 / 2 ^ (-j).toNat := by
  have e : j = -(((-j).toNat : Nat) : Int) := by
    have := Int.toNat_of_nonneg (show 0 ≤ -j by omega)
    omega
  conv_lhs => rw [e]
  rw [zpow_neg, zpow_natCast, one_div]

theorem fl_exp_le (emin : Int) (y : ℚ) (n : Int) (hemin : emin ≤ n) (hn : 0 ≤ n)
    (hy : |y| < 2 ^ (n + 1)) : fl_exp emin y ≤ n := by
  unfold fl_exp
  apply max_le _ hemin
  rcases (abs_nonneg y).eq_or_lt with h0 | h0
  · rw [← h0, Int.log_of_right_le_zero 2 le_rfl]
    exact hn
  · have h := (Int.lt_zpow_iff_log_lt (b := 2) (by norm_num) h0).mp (by exact_mod_cast hy)
    omega

theorem fl_exp_eq (emin : Int) (y : ℚ) (e : Int) (he : emin ≤ e)
    (h1 : (2 : ℚ) ^ e ≤ |y|) (h2 : |y| < 2 ^ (e + 1)) : fl_exp emin y = e := by
  have h0 : 0 < |y| := lt_of_lt_of_le (by positivity) h1
  have ha := (Int.lt_zpow_iff_log_lt (b := 2) (by norm_num) h0).mp (by exact_mod_cast h2)
  have hb := (Int.zpow_le_iff_le_log (b := 2) (by norm_num) h0).mp (by exact_mod_cast h1)
  unfold fl_exp
  rw [max_eq_left (by omega)]
  omega

/-- The rounding of a value in a known binade. -/
theorem fl_round_eq (p : Nat) (emin : Int) (y : ℚ) (e m : Int) (he : emin ≤ e)
    (h1 : (2 : ℚ) ^ e ≤ |y|) (h2 : |y| < 2 ^ (e + 1))
    (hm : round_half_even (y / 2 ^ (e - ((p : Int) - 1))) = m) :
    fl_round p emin y = m * 2 ^ (e - ((p : Int) - 1)) := by
  unfold fl_round
  rw [fl_exp_eq emin y e he h1 h2, hm]

/-- Below `2 ^ (p - 1)` the spacing of the representable values is at most one
half, so the rounding is a rounding to a multiple of `1 / 2 ^ k` with
`1 ≤ k`. -/
theorem fl_round_small (p : Nat) (emin : Int) (y : ℚ) (hp : 2 ≤ p) (hemin : emin ≤ 0)
    (hy : |y| < 2 ^ (p - 1)) :
    ∃ k : Nat, 1 ≤ k ∧ fl_round p emin y = (round_half_even (y * 2 ^ k) : ℚ) / 2 ^ k := by
  have hle : fl_exp emin y ≤ (p : Int) - 2 := by
    apply fl_exp_le emin y ((p : Int) - 2) (by omega) (by omega)
    have e : (p : Int) - 2 + 1 = ((p - 1 : Nat) : Int) := by omega
    rw [e, zpow_natCast]
    exact hy
  have hj : fl_exp emin y - ((p : Int) - 1) ≤ 0 := by omega
  refine ⟨(-(fl_exp emin y - ((p : Int) - 1))).toNat, by omega, ?_⟩
  unfold fl_round
  rw [two_zpow_nonpos _ hj]
  have hk : (0 : ℚ) < 2 ^ (-(fl_exp emin y - ((p : Int) - 1))).toNat := by positivity
  generalize (2 : ℚ) ^ (-(fl_exp emin y - ((p : Int) - 1))).toNat = q at hk
  have e1 : y / (1 / q) = y * q := by field_simp
  rw [e1]
  field_simp

/-- Below `2 ^ (p - 1)` the rounding moves a value by at most one quarter and
never across an integer. -/
theorem fl_round_near (p : Nat) (emin : Int) (y : ℚ) (hp : 2 ≤ p) (hemin : emin ≤ 0)
    (hy : |y| < 2 ^ (p - 1)) :
    (y - 1 / 4 ≤ fl_round p emin y ∧ fl_round p emin y ≤ y + 1 / 4) ∧
      ∀ a b : Int, ((a : ℚ) ≤ y → (a : ℚ) ≤ fl_round p emin y) ∧
        (y ≤ (b : ℚ) → fl_round p emin y ≤ (b : ℚ)) := by
  obtain ⟨k, hk, e⟩ := fl_round_small p emin y hp hemin hy
  rw [e]
  have hq : (2 : ℚ) ≤ 2 ^ k := by
    calc (2 : ℚ) = 2 ^ 1 := by norm_num
      _ ≤ 2 ^ k := pow_le_pow_right₀ (by norm_num) hk
  have hq0 : (0 : ℚ) < 2 ^ k := by positivity
  obtain ⟨n1, n2⟩ := round_half_even_near (y * 2 ^ k)
  refine ⟨⟨?_, ?_⟩, ?_⟩
  · rw [le_div_iff₀ hq0]
    nlinarith
  · rw [div_le_iff₀ hq0]
    nlinarith
  · intro a b
    constructor
    · intro ha
      rw [le_div_iff₀ hq0]
      have h3 := (round_half_even_bounds (y * 2 ^ k) (a * 2 ^ k) 0).1 (by
        push_cast
        exact mul_le_mul_of_nonneg_right ha hq0.le)
      have h4 : ((a * 2 ^ k : Int) : ℚ) ≤ (round_half_even (y * 2 ^ k) : ℚ) := Int.cast_le.mpr h3
      push_cast at h4
      exact h4
    · intro hb
      rw [div_le_iff₀ hq0]
      have h3 := (round_half_even_bounds (y * 2 ^ k) 0 (b * 2 ^ k)).2 (by
        push_cast
        exact mul_le_mul_of_nonneg_right hb hq0.le)
      have h4 : (round_half_even (y * 2 ^ k) : ℚ) ≤ ((b * 2 ^ k : Int) : ℚ) := Int.cast_le.mpr h3
      push_cast at h4
      exact h4

/-- The rounding keeps the sign. -/
theorem fl_round_sign (p : Nat) (emin : Int) (y : ℚ) :
    (y ≤ 0 → fl_round p emin y ≤ 0) ∧ (0 ≤ y → 0 ≤ fl_round p emin y) := by
  unfold fl_round
  have hq : (0 : ℚ) < 2 ^ (fl_exp emin y - ((p : Int) - 1)) := by positivity
  generalize (2 : ℚ) ^ (fl_exp emin y - ((p : Int) - 1)) = q at hq
  have hb := round_half_even_bounds (y / q) 0 0
  simp only [Int.cast_zero] at hb
  constructor
  · intro h
    have h1 := hb.2 (div_nonpos_of_nonpos_of_nonneg h hq.le)
    have h2 : (round_half_even (y / q) : ℚ) ≤ 0 := by exact_mod_cast h1
    exact mul_nonpos_of_nonpos_of_nonneg h2 hq.le
  · intro h
    have h1 := hb.1 (div_nonneg h hq.le)
    have h2 : (0 : ℚ) ≤ (round_half_even (y / q) : ℚ) := by exact_mod_cast h1
    exact mul_nonneg h2 hq.le

/-- Rounding never crosses a multiple of a power of two that is not below the
spacing of the representable values around `y`. -/
theorem fl_round_grid (p : Nat) (emin : Int) (y : ℚ) (j N : Int)
    (hj : fl_exp emin y - ((p : Int) - 1) ≤ j) :
    ((N : ℚ) * 2 ^ j ≤ y → (N : ℚ) * 2 ^ j ≤ fl_round p emin y) ∧
      (y ≤ (N : ℚ) * 2 ^ j → fl_round p emin y ≤ (N : ℚ) * 2 ^ j) := by
  unfold fl_round
  generalize fl_exp emin y - ((p : Int) - 1) = i at hj
  have e : (2 : ℚ) ^ j = (((2 : Int) ^ (j - i).toNat : Int) : ℚ) * 2 ^ i := by
    push_cast
    rw [← zpow_natCast, Int.toNat_of_nonneg (by omega), ← zpow_add₀ (by norm_num)]
    congr 1
    omega
  have hq : (0 : ℚ) < 2 ^ i := by positivity
  rw [e]
  generalize (2 : ℚ) ^ i = q at hq
  generalize (2 : Int) ^ (j - i).toNat = K
  have hb := round_half_even_bounds (y / q) (N * K) (N * K)
  constructor
  · intro h
    have h1 : ((N * K : Int) : ℚ) ≤ y / q := by
      rw [le_div_iff₀ hq]
      push_cast
      linarith
    have h2 : ((N * K : Int) : ℚ) ≤ (round_half_even (y / q) : ℚ) := Int.cast_le.mpr (hb.1 h1)
    push_cast at h2
    nlinarith
  · intro h
    have h1 : y / q ≤ ((N * K : Int) : ℚ) := by
      rw [div_le_iff₀ hq]
      push_cast
      linarith
    have h2 : (round_half_even (y / q) : ℚ) ≤ ((N * K : Int) : ℚ) := Int.cast_le.mpr (hb.2 h1)
    push_cast at h2
    nlinarith

/-- A value of magnitude at least `2 ^ k` keeps it, with its sign. -/
theorem fl_round_ge_pow (p : Nat) (emin : Int) (y : ℚ) (k : Int) (hp : 1 ≤ p) (hk : emin ≤ k) :
    ((2 : ℚ) ^ k ≤ y → (2 : ℚ) ^ k ≤ fl_round p emin y) ∧
      (y ≤ -(2 : ℚ) ^ k → fl_round p emin y ≤ -(2 : ℚ) ^ k) := by
  have key : (2 : ℚ) ^ k ≤ |y| →
      (2 : ℚ) ^ k ≤ 2 ^ Int.log 2 |y| ∧ (2 : ℚ) ^ Int.log 2 |y| ≤ |y| ∧
        fl_exp emin y - ((p : Int) - 1) ≤ Int.log 2 |y| := by
    intro h
    have h0 : 0 < |y| := lt_of_lt_of_le (by positivity) h
    have hb := (Int.zpow_le_iff_le_log (b := 2) (by norm_num) h0).mp (by exact_mod_cast h)
    have hc : (2 : ℚ) ^ Int.log 2 |y| ≤ |y| := by
      have := Int.zpow_log_le_self (b := 2) (by norm_num) h0
      exact_mod_cast this
    refine ⟨zpow_le_zpow_right₀ (by norm_num) hb, hc, ?_⟩
    unfold fl_exp
    rw [max_eq_left (by omega)]
    omega
  constructor
  · intro h
    have hy : 0 ≤ y := le_trans (by positivity) h
    obtain ⟨k1, k2, k3⟩ := key (by rw [abs_of_nonneg hy]; exact h)
    generalize Int.log 2 |y| = L at k1 k2 k3
    rw [abs_of_nonneg hy] at k2
    have g := (fl_round_grid p emin y L 1 k3).1 (by push_cast; linarith)
    push_cast at g
    linarith
  · intro h
    have hp2 : (0 : ℚ) < 2 ^ k := by positivity
    have hy : y ≤ 0 := by linarith
    obtain ⟨k1, k2, k3⟩ := key (by rw [abs_of_nonpos hy]; linarith)
    generalize Int.log 2 |y| = L at k1 k2 k3
    rw [abs_of_nonpos hy] at k2
    have g := (fl_round_grid p emin y L (-1) k3).2 (by push_cast; linarith)
    push_cast at g
    linarith

/-! ## The floating-point operations of the tool and of the plant -/

/-- A product below `2 ^ 23` in magnitude is finite: the exact product rounded
to binary32. -/
theorem f32_mul_fin (v c : ℚ) (h : |v * c| < 2 ^ 23) :
    f32_mul (fp_val.fin v) c = fp_val.fin (fl_round 24 (-126) (v * c)) := by
  have hb := (fl_round_near 24 (-126) (v * c) (by norm_num) (by norm_num) h).2
    (-8388608) 8388608
  obtain ⟨h1, h2⟩ := abs_lt.mp h
  have h3 := hb.1 (by push_cast; linarith)
  have h4 := hb.2 (by push_cast; linarith)
  push_cast at h3 h4
  have h5 : ¬ (2 : ℚ) ^ 128 ≤ |fl_round 24 (-126) (v * c)| := by
    rw [not_le, abs_lt]
    constructor <;> norm_num <;> linarith
  show f32_round (v * c) = _
  unfold f32_round
  rw [if_neg h5]

/-- A `double` product below `2 ^ 52` in magnitude is finite: the exact product
rounded to binary64. -/
theorem f64_mul_fin (v c : ℚ) (h : |v * c| < 2 ^ 52) :
    f64_mul (fp_val.fin v) c = fp_val.fin (fl_round 53 (-1022) (v * c)) := by
  have hb := (fl_round_near 53 (-1022) (v * c) (by norm_num) (by norm_num) h).2
    (-4503599627370496) 4503599627370496
  obtain ⟨h1, h2⟩ := abs_lt.mp h
  have h3 := hb.1 (by push_cast; linarith)
  have h4 := hb.2 (by push_cast; linarith)
  push_cast at h3 h4
  have h5 : ¬ (2 : ℚ) ^ 1024 ≤ |fl_round 53 (-1022) (v * c)| := by
    rw [not_le, abs_lt]
    constructor <;> norm_num <;> linarith
  show f64_round (v * c) = _
  unfold f64_round
  rw [if_neg h5]

/-- Every `float` product of a finite value is the rounded exact product or an
infinity of its sign. -/
theorem f32_mul_cases (v c : ℚ) :
    f32_mul (fp_val.fin v) c = fp_val.fin (fl_round 24 (-126) (v * c)) ∨
      f32_mul (fp_val.fin v) c = fp_val.inf (decide (v * c < 0)) := by
  show f32_round (v * c) = _ ∨ f32_round (v * c) = _
  unfold f32_round
  split_ifs
  · exact Or.inr rfl
  · exact Or.inl rfl

theorem f64_mul_cases (v c : ℚ) :
    f64_mul (fp_val.fin v) c = fp_val.fin (fl_round 53 (-1022) (v * c)) ∨
      f64_mul (fp_val.fin v) c = fp_val.inf (decide (v * c < 0)) := by
  show f64_round (v * c) = _ ∨ f64_round (v * c) = _
  unfold f64_round
  split_ifs
  · exact Or.inr rfl
  · exact Or.inl rfl

theorem lround_fin (f : ℚ) (h : s64_ok (round_half_away f)) :
    lround (fp_val.fin f) = round_half_away f := by
  show (if _ then _ else _) = _
  rw [if_pos ⟨h.1, h.2⟩]

theorem lround_fin_out (f : ℚ) (h : ¬ s64_ok (round_half_away f)) :
    lround (fp_val.fin f) = -9223372036854775808 := by
  show (if _ then _ else _) = _
  rw [if_neg (fun h1 => h ⟨h1.1, h1.2⟩)]

theorem lround_inf (s : Bool) : lround (fp_val.inf s) = -9223372036854775808 := rfl

theorem lround_nan : lround fp_val.nan = -9223372036854775808 := rfl

/-- The value `lround` returns is a `long`. -/
theorem lround_s64 (x : fp_val) : s64_ok (lround x) := by
  cases x with
  | fin f =>
    by_cases h : s64_ok (round_half_away f)
    · rw [lround_fin f h]
      exact h
    · rw [lround_fin_out f h]
      exact ⟨by norm_num, by norm_num⟩
  | inf s =>
    rw [lround_inf]
    exact ⟨by norm_num, by norm_num⟩
  | nan =>
    rw [lround_nan]
    exact ⟨by norm_num, by norm_num⟩

/-- The three quantizers as a clamp of the value `lroundf` returns. -/
theorem to_q88_eq (x : fp_val) :
    (to_q88 x : Int) = clamp (lroundf (f32_mul x 256)) 0 65535 := by
  unfold to_q88 clamp wrap_u16
  simp only []
  generalize lroundf (f32_mul x 256) = v
  split_ifs <;> omega

theorem to_q44_eq (x : fp_val) :
    (to_q44 x : Int) = clamp (lroundf (f32_mul x 16)) 0 255 := by
  unfold to_q44 clamp wrap_u8
  simp only []
  generalize lroundf (f32_mul x 16) = v
  split_ifs <;> omega

theorem to_q01_eq (x : fp_val) :
    to_q01 x = clamp (lroundf (f32_mul x 10)) (-32768) 32767 := by
  unfold to_q01 clamp wrap_s16
  simp only []
  generalize lroundf (f32_mul x 10) = v
  split_ifs <;> omega

theorem clamp_range (v lo hi : Int) (h : lo ≤ hi) : lo ≤ clamp v lo hi ∧ clamp v lo hi ≤ hi := by
  unfold clamp
  omega

theorem clamp_id (v lo hi : Int) (h1 : lo ≤ v) (h2 : v ≤ hi) : clamp v lo hi = v := by
  unfold clamp
  omega

/-- The quantizers never leave the range of their wire field. -/
theorem to_q88_lt (x : fp_val) : to_q88 x < 65536 := by
  have h := to_q88_eq x
  have h1 := clamp_range (lroundf (f32_mul x 256)) 0 65535 (by norm_num)
  omega

theorem to_q44_lt (x : fp_val) : to_q44 x < 256 := by
  have h := to_q44_eq x
  have h1 := clamp_range (lroundf (f32_mul x 16)) 0 255 (by norm_num)
  omega

theorem to_q01_range (x : fp_val) : -32768 ≤ to_q01 x ∧ to_q01 x ≤ 32767 := by
  rw [to_q01_eq]
  exact clamp_range _ _ _ (by norm_num)

/-- The quantization of a value whose scaled magnitude stays below `2 ^ 23`:
the product is finite, within one quarter of the exact product and on the same
side of every integer, and the result is its rounding, clamped. -/
theorem quant_small (v c : ℚ) (h : |v * c| < 2 ^ 23) :
    ∃ f : ℚ, f32_mul (fp_val.fin v) c = fp_val.fin f ∧
      lroundf (f32_mul (fp_val.fin v) c) = round_half_away f ∧
      (v * c - 1 / 4 ≤ f ∧ f ≤ v * c + 1 / 4) ∧
      ∀ a b : Int, ((a : ℚ) ≤ v * c → (a : ℚ) ≤ f) ∧ (v * c ≤ (b : ℚ) → f ≤ (b : ℚ)) := by
  refine ⟨fl_round 24 (-126) (v * c), f32_mul_fin v c h, ?_,
    fl_round_near 24 (-126) (v * c) (by norm_num) (by norm_num) h⟩
  rw [f32_mul_fin v c h]
  have hb := (fl_round_near 24 (-126) (v * c) (by norm_num) (by norm_num) h).2
    (-8388608) 8388608
  obtain ⟨h1, h2⟩ := abs_lt.mp h
  have h3 := hb.1 (by push_cast; linarith)
  have h4 := hb.2 (by push_cast; linarith)
  have h5 := (round_half_away_bounds (fl_round 24 (-126) (v * c)) (-8388608) 8388608).1 h3
  have h6 := (round_half_away_bounds (fl_round 24 (-126) (v * c)) (-8388608) 8388608).2 h4
  exact lround_fin _ ⟨by omega, by omega⟩

/-- The `float` product of a value in a known binade, rounded to a known
significand. -/
theorem f32_mul_eval (v c : ℚ) (e m : Int) (he : -126 ≤ e)
    (h1 : (2 : ℚ) ^ e ≤ |v * c|) (h2 : |v * c| < 2 ^ (e + 1))
    (hm1 : (m : ℚ) - 1 / 2 < v * c / 2 ^ (e - 23)) (hm2 : v * c / 2 ^ (e - 23) < (m : ℚ) + 1 / 2)
    (hfin : |(m : ℚ) * 2 ^ (e - 23)| < 2 ^ 128) :
    f32_mul (fp_val.fin v) c = fp_val.fin ((m : ℚ) * 2 ^ (e - 23)) := by
  have hr : fl_round 24 (-126) (v * c) = (m : ℚ) * 2 ^ (e - 23) := by
    have h := fl_round_eq 24 (-126) (v * c) e m he h1 h2
    have e1 : e - (((24 : Nat) : Int) - 1) = e - 23 := by norm_num
    rw [e1] at h
    exact h (round_half_even_eq _ m hm1 hm2)
  show f32_round (v * c) = _
  unfold f32_round
  rw [hr, if_neg (not_le.mpr hfin)]

/-- The `double` product of a value in a known binade, rounded to a known
significand. -/
theorem f64_mul_eval (v c : ℚ) (e m : Int) (he : -1022 ≤ e)
    (h1 : (2 : ℚ) ^ e ≤ |v * c|) (h2 : |v * c| < 2 ^ (e + 1))
    (hm1 : (m : ℚ) - 1 / 2 < v * c / 2 ^ (e - 52)) (hm2 : v * c / 2 ^ (e - 52) < (m : ℚ) + 1 / 2)
    (hfin : |(m : ℚ) * 2 ^ (e - 52)| < 2 ^ 1024) :
    f64_mul (fp_val.fin v) c = fp_val.fin ((m : ℚ) * 2 ^ (e - 52)) := by
  have hr : fl_round 53 (-1022) (v * c) = (m : ℚ) * 2 ^ (e - 52) := by
    have h := fl_round_eq 53 (-1022) (v * c) e m he h1 h2
    have e1 : e - (((53 : Nat) : Int) - 1) = e - 52 := by norm_num
    rw [e1] at h
    exact h (round_half_even_eq _ m hm1 hm2)
  show f64_round (v * c) = _
  unfold f64_round
  rw [hr, if_neg (not_le.mpr hfin)]

/-- The `float` nearest to 30.05 times ten is the `float` 300.5, above the exact
product. -/
theorem f32_mul_30_05 :
    f32_mul (fp_val.fin (7877427 / 262144)) 10 = fp_val.fin (601 / 2) := by
  have h := f32_mul_eval (7877427 / 262144) 10 8 9846784 (by norm_num)
    (by rw [abs_of_nonneg (by norm_num)]; norm_num)
    (by rw [abs_of_nonneg (by norm_num)]; norm_num)
    (by norm_num) (by norm_num) (by rw [abs_of_nonneg (by norm_num)]; norm_num)
  rw [h]
  norm_num

theorem to_q01_30_05 : to_q01 (fp_val.fin (7877427 / 262144)) = 301 := by
  have hr : round_half_away (601 / 2 : ℚ) = 301 := by
    unfold round_half_away
    rw [if_pos (by norm_num), Int.floor_eq_iff]
    constructor <;> norm_num
  rw [to_q01_eq, f32_mul_30_05]
  show clamp (lround (fp_val.fin (601 / 2))) (-32768) 32767 = 301
  rw [lround_fin _ (by rw [hr]; exact ⟨by norm_num, by norm_num⟩), hr]
  rfl

/-- Whatever `lround` returns for a value at most `b` is at most `b`, when `b`
is a `long`: the rounding, or `LONG_MIN`. -/
theorem lround_le (x : fp_val) (b : Int) (hb : -9223372036854775808 ≤ b)
    (h : ∀ f, x = fp_val.fin f → f ≤ (b : ℚ)) : lround x ≤ b := by
  cases x with
  | fin f =>
    by_cases hf : s64_ok (round_half_away f)
    · rw [lround_fin f hf]
      exact (round_half_away_bounds f 0 b).2 (h f rfl)
    · rw [lround_fin_out f hf]
      exact hb
  | inf s =>
    rw [lround_inf]
    exact hb
  | nan =>
    rw [lround_nan]
    exact hb

/-- The product of a finite value is finite only as the rounded exact
product. -/
theorem f32_mul_fin_inv (v c f : ℚ) (h : f32_mul (fp_val.fin v) c = fp_val.fin f) :
    f = fl_round 24 (-126) (v * c) := by
  rcases f32_mul_cases v c with h1 | h1
  · rw [h1] at h
    exact (fp_val.fin.inj h).symm
  · rw [h1] at h
    exact fp_val.noConfusion h

theorem f64_mul_fin_inv (v c f : ℚ) (h : f64_mul (fp_val.fin v) c = fp_val.fin f) :
    f = fl_round 53 (-1022) (v * c) := by
  rcases f64_mul_cases v c with h1 | h1
  · rw [h1] at h
    exact (fp_val.fin.inj h).symm
  · rw [h1] at h
    exact fp_val.noConfusion h

/-- A non-positive scaled value never quantizes above zero. -/
theorem lroundf_mul_nonpos (v c : ℚ) (h : v * c ≤ 0) :
    lroundf (f32_mul (fp_val.fin v) c) ≤ 0 := by
  apply lround_le _ 0 (by norm_num)
  intro f hf
  rw [f32_mul_fin_inv v c f hf]
  exact_mod_cast (fl_round_sign 24 (-126) (v * c)).1 h

/-- Quantization of a value whose scaled value lies between two integers below
`2 ^ 23` in magnitude: `lroundf` of the `float` product lies between them too
and is within three quarters of the exact product. -/
theorem quant_between (x c : ℚ) (a b : Int) (ha : (a : ℚ) ≤ x * c) (hb : x * c ≤ (b : ℚ))
    (hal : -8388607 ≤ a) (hbl : b ≤ 8388607) :
    a ≤ lroundf (f32_mul (fp_val.fin x) c) ∧ lroundf (f32_mul (fp_val.fin x) c) ≤ b ∧
      |(lroundf (f32_mul (fp_val.fin x) c) : ℚ) - x * c| ≤ 3 / 4 := by
  have hal1 : ((-8388607 : Int) : ℚ) ≤ (a : ℚ) := Int.cast_le.mpr hal
  have hbl1 : (b : ℚ) ≤ ((8388607 : Int) : ℚ) := Int.cast_le.mpr hbl
  push_cast at hal1 hbl1
  have hs : |x * c| < 2 ^ 23 := by
    rw [abs_lt]
    constructor <;> norm_num <;> linarith
  obtain ⟨f, _, e2, ⟨n1, n2⟩, hb2⟩ := quant_small x c hs
  rw [e2]
  obtain ⟨r1, r2⟩ := round_half_away_near f
  refine ⟨(round_half_away_bounds f a b).1 ((hb2 a b).1 ha),
    (round_half_away_bounds f a b).2 ((hb2 a b).2 hb), ?_⟩
  rw [abs_le]
  constructor <;> linarith

/-- C25: decoding what a quantizer of the tool encoded recovers the value
within one step, with the `float` product and `lroundf` as the code computes
them: for every rational `x`, hence for every `float`, with
`0 ≤ x ≤ 65535/256`, `|to_q88(x)/256 - x| ≤ 1/256`; with `0 ≤ x ≤ 255/16`,
`|to_q44(x)/16 - x| ≤ 1/16`; with `-3276.8 ≤ x ≤ 3276.7`,
`|to_q01(x)/10 - x| ≤ 0.1`. The half step of exact arithmetic is not a bound:
at the `float` nearest to 30.05 the error of `to_q01` exceeds `1/20`. -/
theorem quantizer_roundtrip_error (x : ℚ) :
    (0 ≤ x → x ≤ 65535 / 256 → |(to_q88 (fp_val.fin x) : ℚ) / 256 - x| ≤ 1 / 256) ∧
      (0 ≤ x → x ≤ 255 / 16 → |(to_q44 (fp_val.fin x) : ℚ) / 16 - x| ≤ 1 / 16) ∧
      (-(32768 / 10) ≤ x → x ≤ 32767 / 10 → |(to_q01 (fp_val.fin x) : ℚ) / 10 - x| ≤ 1 / 10) ∧
      1 / 20 < |(to_q01 (fp_val.fin (7877427 / 262144)) : ℚ) / 10 - 7877427 / 262144| := by
  refine ⟨?_, ?_, ?_, ?_⟩
  · intro h0 h1
    obtain ⟨r0, r1, he⟩ := quant_between x 256 0 65535 (by push_cast; linarith)
      (by push_cast; linarith) (by norm_num) (by norm_num)
    have hq : ((to_q88 (fp_val.fin x) : Nat) : ℚ) = (lroundf (f32_mul (fp_val.fin x) 256) : ℚ) := by
      rw [← Int.cast_natCast, to_q88_eq, clamp_id _ _ _ r0 r1]
    rw [hq]
    rw [abs_le] at he ⊢
    constructor <;> linarith
  · intro h0 h1
    obtain ⟨r0, r1, he⟩ := quant_between x 16 0 255 (by push_cast; linarith)
      (by push_cast; linarith) (by norm_num) (by norm_num)
    have hq : ((to_q44 (fp_val.fin x) : Nat) : ℚ) = (lroundf (f32_mul (fp_val.fin x) 16) : ℚ) := by
      rw [← Int.cast_natCast, to_q44_eq, clamp_id _ _ _ r0 r1]
    rw [hq]
    rw [abs_le] at he ⊢
    constructor <;> linarith
  · intro h0 h1
    obtain ⟨r0, r1, he⟩ := quant_between x 10 (-32768) 32767 (by push_cast; linarith)
      (by push_cast; linarith) (by norm_num) (by norm_num)
    rw [to_q01_eq, clamp_id _ _ _ r0 r1]
    rw [abs_le] at he ⊢
    constructor <;> linarith
  · rw [to_q01_30_05]
    norm_num [abs_of_nonneg]

theorem quantizer_roundtrip_error_witness :
    ((0 : ℚ) ≤ 1 / 3 ∧ (1 / 3 : ℚ) ≤ 65535 / 256 ∧
        |(to_q88 (fp_val.fin (1 / 3)) : ℚ) / 256 - 1 / 3| ≤ 1 / 256) ∧
      |(to_q44 (fp_val.fin (1 / 3)) : ℚ) / 16 - 1 / 3| ≤ 1 / 16 ∧
      |(to_q01 (fp_val.fin (-(1 / 3))) : ℚ) / 10 - -(1 / 3)| ≤ 1 / 10 :=
  ⟨⟨by norm_num, by norm_num,
      (quantizer_roundtrip_error (1 / 3)).1 (by norm_num) (by norm_num)⟩,
    (quantizer_roundtrip_error (1 / 3)).2.1 (by norm_num) (by norm_num),
    (quantizer_roundtrip_error (-(1 / 3))).2.2.1 (by norm_num) (by norm_num)⟩

theorem to_q44_of_le_zero (x : fp_val) (h : lroundf (f32_mul x 16) ≤ 0) : to_q44 x = 0 := by
  have e := to_q44_eq x
  unfold clamp at e
  omega

theorem to_q44_neg (v : ℚ) (hv : v < 0) : to_q44 (fp_val.fin v) = 0 :=
  to_q44_of_le_zero _ (lroundf_mul_nonpos v 16 (by linarith))

/-- The quantization of a value whose scaled value is an integer below
`2 ^ 23` in magnitude. -/
theorem lroundf_mul_int (v c : ℚ) (n : Int) (h : v * c = (n : ℚ)) (h1 : -8388607 ≤ n)
    (h2 : n ≤ 8388607) : lroundf (f32_mul (fp_val.fin v) c) = n := by
  obtain ⟨a, b, _⟩ := quant_between v c n n (le_of_eq h.symm) (le_of_eq h) h1 h2
  omega

theorem ctrl_set_u16_to_le_eq (v : Nat) (hv : v < 65536) :
    ctrl_set.u16_to_le v = (v % 256, v / 256) := by
  have h1 : v &&& 0xFF = v % 256 := Nat.and_pow_two_sub_one_eq_mod v 8
  have h2 : v >>> 8 = v / 256 := Nat.shiftRight_eq_div_pow v 8
  have h3 : (v / 256) &&& 0xFF = v / 256 % 256 := Nat.and_pow_two_sub_one_eq_mod (v / 256) 8
  unfold ctrl_set.u16_to_le
  rw [h2, h3, h1]
  have h4 : v % 256 % 256 = v % 256 := by omega
  have h5 : v / 256 % 256 % 256 = v / 256 := by omega
  rw [h4, h5]

/-- The node decodes the Setpoint frame of the tool to the quantized value. -/
theorem dispatch_tool_setpoint (g : nodeb_ctx) (q : Int) (h0 : -32768 ≤ q) (h1 : q ≤ 32767) :
    nodeb_rx_dispatch g (frame_0x301 q) =
      some { g with cfg := { g.cfg with Ts_sp := Int.tdiv (q * 65536) 10 } } := by
  have hw : wrap_u16 q < 65536 := by unfold wrap_u16; omega
  have hwf : (frame_0x301 q).wf := by
    refine ⟨by show (0x301 : Nat) < 4294967296; decide, by show (8 : Nat) < 256; decide, rfl, ?_⟩
    intro b hb
    simp only [frame_0x301, frame_0x300, frame_0x302, List.mem_cons, List.mem_singleton, List.not_mem_nil, or_false] at hb
    rcases hb with h | h | h | h | h | h | h | h <;> omega
  rw [dispatch_setpoint_val g _ hwf (by show (0x301 : Nat) &&& CAN_SFF_MASK = 0x301; decide)
    (by show 2 ≤ 8; decide)]
  have hs : s16_of_le (wrap_u16 q % 256) (wrap_u16 q / 256) = q := by
    unfold s16_of_le
    have e : wrap_u16 q % 256 + 256 * (wrap_u16 q / 256) = wrap_u16 q := by omega
    rw [e]
    unfold wrap_u16
    split_ifs <;> omega
  show some { g with cfg := { g.cfg with
    Ts_sp := Int.tdiv (s16_of_le (wrap_u16 q % 256) (wrap_u16 q / 256) * 65536) 10 } } = _
  rw [hs]

/-- The node decodes the frame 0x300 of the tool to the quantized gains. -/
theorem dispatch_tool_tgains (g : nodeb_ctx) (kpT kiT kdT kawT : Nat) (h1 : kpT < 65536)
    (h2 : kiT < 65536) (h3 : kdT < 65536) (h4 : kawT < 256) :
    nodeb_rx_dispatch g (frame_0x300 kpT kiT kdT kawT) =
      some { g with cfg := { g.cfg with
        KpT := (kpT : Int) * 256, KiT := (kiT : Int) * 256, KdT := (kdT : Int) * 256
        kawT := (kawT : Int) * 4096 } } := by
  have hwf : (frame_0x300 kpT kiT kdT kawT).wf := by
    refine ⟨by show (0x300 : Nat) < 4294967296; decide, by show (8 : Nat) < 256; decide, rfl, ?_⟩
    intro b hb
    simp only [frame_0x301, frame_0x300, frame_0x302, List.mem_cons, List.mem_singleton, List.not_mem_nil, or_false] at hb
    rcases hb with h | h | h | h | h | h | h | h <;> omega
  rw [dispatch_tgains_val g _ hwf (by show (0x300 : Nat) &&& CAN_SFF_MASK = 0x300; decide)
    (by show 7 ≤ 8; decide)]
  have e : ∀ k : Nat, u16_of_le (k % 256) (k / 256) = k := by
    intro k
    unfold u16_of_le
    omega
  show some { g with cfg := { g.cfg with
    KpT := (u16_of_le (kpT % 256) (kpT / 256) : Int) * 256
    KiT := (u16_of_le (kiT % 256) (kiT / 256) : Int) * 256
    KdT := (u16_of_le (kdT % 256) (kdT / 256) : Int) * 256
    kawT := (kawT : Int) * 4096 } } = _
  rw [e, e, e]

/-- The node decodes the frame 0x302 of the tool to the quantized gains. -/
theorem dispatch_tool_fgains (g : nodeb_ctx) (kpm kim kawm kvw kwv : Nat) (h1 : kpm < 65536)
    (h2 : kim < 65536) (h3 : kawm < 256) (h4 : kvw < 256) (h5 : kwv < 256) :
    nodeb_rx_dispatch g (frame_0x302 kpm kim kawm kvw kwv) =
      some { g with cfg := { g.cfg with
        Kpm := (kpm : Int) * 256, Kim := (kim : Int) * 256, kawm := (kawm : Int) * 4096
        kvw := (kvw : Int) * 4096, kwv := (kwv : Int) * 4096 } } := by
  have hwf : (frame_0x302 kpm kim kawm kvw kwv).wf := by
    refine ⟨by show (0x302 : Nat) < 4294967296; decide, by show (8 : Nat) < 256; decide, rfl, ?_⟩
    intro b hb
    simp only [frame_0x301, frame_0x300, frame_0x302, List.mem_cons, List.mem_singleton, List.not_mem_nil, or_false] at hb
    rcases hb with h | h | h | h | h | h | h | h <;> omega
  rw [dispatch_fgains_val g _ hwf (by show (0x302 : Nat) &&& CAN_SFF_MASK = 0x302; decide)
    (by show 7 ≤ 8; decide)]
  have e : ∀ k : Nat, u16_of_le (k % 256) (k / 256) = k := by
    intro k
    unfold u16_of_le
    omega
  show some { g with cfg := { g.cfg with
    Kpm := (u16_of_le (kpm % 256) (kpm / 256) : Int) * 256
    Kim := (u16_of_le (kim % 256) (kim / 256) : Int) * 256
    kawm := (kawm : Int) * 4096, kvw := (kvw : Int) * 4096, kwv := (kwv : Int) * 4096 } } = _
  rw [e, e]

theorem dispatch_all_three (g g1 g2 g3 : nodeb_ctx) (f1 f2 f3 : can_frame)
    (e1 : nodeb_rx_dispatch g f1 = some g1) (e2 : nodeb_rx_dispatch g1 f2 = some g2)
    (e3 : nodeb_rx_dispatch g2 f3 = some g3) :
    nodeb_rx_dispatch_all g [f1, f2, f3] = some g3 := by
  simp only [nodeb_rx_dispatch_all, e1, e2, e3, Option.some_bind]

/-- The three frames of the tool, processed in the order the tool sends
them. -/
theorem dispatch_tool_frames (g : nodeb_ctx) (qT : Int) (kpT kiT kdT kawT kpm kim kawm kvw kwv : Nat)
    (h0 : -32768 ≤ qT ∧ qT ≤ 32767) (h1 : kpT < 65536) (h2 : kiT < 65536) (h3 : kdT < 65536)
    (h4 : kawT < 256) (h5 : kpm < 65536) (h6 : kim < 65536) (h7 : kawm < 256) (h8 : kvw < 256)
    (h9 : kwv < 256) :
    nodeb_rx_dispatch_all g [frame_0x301 qT, frame_0x300 kpT kiT kdT kawT,
        frame_0x302 kpm kim kawm kvw kwv] =
      some { g with cfg := { g.cfg with
        Ts_sp := Int.tdiv (qT * 65536) 10
        KpT := (kpT : Int) * 256, KiT := (kiT : Int) * 256, KdT := (kdT : Int) * 256
        kawT := (kawT : Int) * 4096
        Kpm := (kpm : Int) * 256, Kim := (kim : Int) * 256
        kawm := (kawm : Int) * 4096, kvw := (kvw : Int) * 4096
        kwv := (kwv : Int) * 4096 } } :=
  dispatch_all_three g _ _ _ _ _ _ (dispatch_tool_setpoint g qT h0.1 h0.2)
    (dispatch_tool_tgains _ kpT kiT kdT kawT h1 h2 h3 h4)
    (dispatch_tool_fgains _ kpm kim kawm kvw kwv h5 h6 h7 h8 h9)

theorem build_setpoint_frame_eq (x : fp_val) :
    build_setpoint_frame x = frame_0x301 (to_q01 x) := by
  have hw : wrap_u16 (to_q01 x) < 65536 := by unfold wrap_u16; omega
  unfold build_setpoint_frame frame_0x301
  rw [ctrl_set_u16_to_le_eq _ hw]

theorem build_params_frames_eq (p : CtrlParams fp_val) :
    build_params_frames p =
      (frame_0x300 (to_q88 p.KpT) (to_q88 p.KiT) (to_q88 p.KdT) (to_q44 p.kawT),
        frame_0x302 (to_q88 p.Kpm) (to_q88 p.Kim) (to_q44 p.kawm) (to_q44 p.kvw)
          (to_q44 p.kwv)) := by
  unfold build_params_frames frame_0x300 frame_0x302
  rw [ctrl_set_u16_to_le_eq _ (to_q88_lt p.KpT), ctrl_set_u16_to_le_eq _ (to_q88_lt p.KiT),
    ctrl_set_u16_to_le_eq _ (to_q88_lt p.KdT), ctrl_set_u16_to_le_eq _ (to_q88_lt p.Kpm),
    ctrl_set_u16_to_le_eq _ (to_q88_lt p.Kim)]

/-- C27: the tool and the node agree on the wire format. For every parameter
bundle `p` (finite values, infinities and NaNs alike), `build_ctrl_frames p`
gives the Setpoint frame (0x301, length 8, bytes 0-1 the little-endian
`to_q01 Ts_sp_C`, other bytes 0), which the node decodes from any context to
`Ts_sp = to_q01(Ts_sp_C) * 65536 / 10` (truncating); with `send_params` clear,
two all-zero frames; with `send_params` set, the frame 0x300 (length 8,
`to_q88` of `KpT`, `KiT`, `KdT` little-endian at offsets 0, 2, 4, `to_q44 kawT`
at offset 6) and the frame 0x302 (length 8, `to_q88` of `Kpm`, `Kim` at offsets
0, 2, `to_q44` of `kawm`, `kvw`, `kwv` at offsets 4, 5, 6), and then the node,
from any context, accepts the three frames and ends with `Ts_sp` as above, each
q8.8 gain equal to its quantized value times 256, each q4.4 gain equal to its
quantized value times 4096, and nothing else changed. -/
theorem tool_frames_decoded_by_node (p : CtrlParams fp_val) :
    ∀ sp f300 f302, build_ctrl_frames p = (sp, f300, f302) →
      sp.can_id = 0x301 ∧ sp.len = 8 ∧
      sp.data = [wrap_u16 (to_q01 p.Ts_sp_C) % 256, wrap_u16 (to_q01 p.Ts_sp_C) / 256,
        0, 0, 0, 0, 0, 0] ∧
      s16_of_le (sp.byte 0) (sp.byte 1) = to_q01 p.Ts_sp_C ∧
      (∀ g : nodeb_ctx, nodeb_rx_dispatch g sp =
        some { g with cfg := { g.cfg with
          Ts_sp := Int.tdiv (to_q01 p.Ts_sp_C * 65536) 10 } }) ∧
      (p.send_params = false → f300 = can_frame_zero ∧ f302 = can_frame_zero) ∧
      (p.send_params = true →
        f300.can_id = 0x300 ∧ f300.len = 8 ∧
        f300.data = [to_q88 p.KpT % 256, to_q88 p.KpT / 256, to_q88 p.KiT % 256,
          to_q88 p.KiT / 256, to_q88 p.KdT % 256, to_q88 p.KdT / 256, to_q44 p.kawT, 0] ∧
        f302.can_id = 0x302 ∧ f302.len = 8 ∧
        f302.data = [to_q88 p.Kpm % 256, to_q88 p.Kpm / 256, to_q88 p.Kim % 256,
          to_q88 p.Kim / 256, to_q44 p.kawm, to_q44 p.kvw, to_q44 p.kwv, 0] ∧
        ∀ g : nodeb_ctx, nodeb_rx_dispatch_all g [sp, f300, f302] =
          some { g with cfg := { g.cfg with
            Ts_sp := Int.tdiv (to_q01 p.Ts_sp_C * 65536) 10
            KpT := (to_q88 p.KpT : Int) * 256, KiT := (to_q88 p.KiT : Int) * 256
            KdT := (to_q88 p.KdT : Int) * 256, kawT := (to_q44 p.kawT : Int) * 4096
            Kpm := (to_q88 p.Kpm : Int) * 256, Kim := (to_q88 p.Kim : Int) * 256
            kawm := (to_q44 p.kawm : Int) * 4096, kvw := (to_q44 p.kvw : Int) * 4096
            kwv := (to_q44 p.kwv : Int) * 4096 } }) := by
  intro sp f300 f302 h
  unfold build_ctrl_frames at h
  rw [build_setpoint_frame_eq, build_params_frames_eq] at h
  have hsp : sp = frame_0x301 (to_q01 p.Ts_sp_C) := (congrArg Prod.fst h).symm
  have hfr : (f300, f302) = if p.send_params then
      (frame_0x300 (to_q88 p.KpT) (to_q88 p.KiT) (to_q88 p.KdT) (to_q44 p.kawT),
        frame_0x302 (to_q88 p.Kpm) (to_q88 p.Kim) (to_q44 p.kawm) (to_q44 p.kvw)
          (to_q44 p.kwv))
      else (can_frame_zero, can_frame_zero) := (congrArg Prod.snd h).symm
  subst hsp
  have hr := to_q01_range p.Ts_sp_C
  have hs16 : s16_of_le ((frame_0x301 (to_q01 p.Ts_sp_C)).byte 0)
      ((frame_0x301 (to_q01 p.Ts_sp_C)).byte 1) = to_q01 p.Ts_sp_C := by
    show s16_of_le (wrap_u16 (to_q01 p.Ts_sp_C) % 256) (wrap_u16 (to_q01 p.Ts_sp_C) / 256) = _
    generalize to_q01 p.Ts_sp_C = qT at hr
    unfold s16_of_le
    have e : wrap_u16 qT % 256 + 256 * (wrap_u16 qT / 256) = wrap_u16 qT := by omega
    rw [e]
    unfold wrap_u16
    split_ifs <;> omega
  refine ⟨rfl, rfl, rfl, hs16, fun g => dispatch_tool_setpoint g _ hr.1 hr.2, ?_, ?_⟩
  · intro hs
    rw [hs] at hfr
    exact ⟨congrArg Prod.fst hfr, congrArg Prod.snd hfr⟩
  · intro hs
    rw [hs] at hfr
    have h1 : f300 = _ := congrArg Prod.fst hfr
    have h2 : f302 = _ := congrArg Prod.snd hfr
    subst h1
    subst h2
    refine ⟨rfl, rfl, rfl, rfl, rfl, rfl, ?_⟩
    intro g
    exact dispatch_tool_frames g _ _ _ _ _ _ _ _ _ _ hr (to_q88_lt _) (to_q88_lt _)
      (to_q88_lt _) (to_q44_lt _) (to_q88_lt _) (to_q88_lt _) (to_q44_lt _) (to_q44_lt _)
      (to_q44_lt _)

theorem tool_frames_decoded_by_node_witness :
    ∃ sp f300 f302 g3, build_ctrl_frames params_test = (sp, f300, f302) ∧
      params_test.send_params = true ∧
      sp.data = [44, 1, 0, 0, 0, 0, 0, 0] ∧
      nodeb_rx_dispatch_all nodeb_init [sp, f300, f302] = some g3 ∧
      g3.cfg.Ts_sp = 30 * 65536 ∧ g3.cfg.KpT = 120 * 65536 ∧ g3.cfg.kvw = 0 := by
  obtain ⟨_, _, hdata, _, _, _, hs⟩ :=
    tool_frames_decoded_by_node params_test _ _ _ rfl
  obtain ⟨_, _, _, _, _, _, hall⟩ := hs rfl
  have eT : to_q01 params_test.Ts_sp_C = 300 := by
    rw [to_q01_eq]
    show clamp (lroundf (f32_mul (fp_val.fin 30) 10)) (-32768) 32767 = 300
    rw [lroundf_mul_int 30 10 300 (by norm_num) (by norm_num) (by norm_num)]
    rfl
  have e1 : to_q88 params_test.KpT = 30720 := by
    have e := to_q88_eq params_test.KpT
    have h := lroundf_mul_int 120 256 30720 (by norm_num) (by norm_num) (by norm_num)
    have e2 : (to_q88 params_test.KpT : Int) = clamp (lroundf (f32_mul (fp_val.fin 120) 256)) 0 65535 := e
    rw [h] at e2
    unfold clamp at e2
    omega
  have e8 : to_q44 params_test.kvw = 0 := to_q44_neg (-(1 / 8)) (by norm_num)
  rw [eT] at hdata
  refine ⟨_, _, _, _, rfl, rfl, hdata, hall nodeb_init, ?_, ?_, ?_⟩
  · show Int.tdiv (to_q01 params_test.Ts_sp_C * 65536) 10 = 30 * 65536
    rw [eT]
    decide
  · show (to_q88 params_test.KpT : Int) * 256 = 120 * 65536
    rw [e1]
    decide
  · show (to_q44 params_test.kvw : Int) * 4096 = 0
    rw [e8]
    decide

/-! ## The time step packed by the plant -/

theorem lround_int (n : Int) (h : s64_ok n) : lround (fp_val.fin (n : ℚ)) = n := by
  rw [lround_fin _ (by rw [round_half_away_int]; exact h), round_half_away_int]

/-- The two limits of `pack_dt_ms` on a finite product. -/
theorem pack_ms_fin (f : ℚ) :
    (if fp_gt (if fp_lt (fp_val.fin f) 1 then fp_val.fin 1 else fp_val.fin f) 255 then
        fp_val.fin 255
      else (if fp_lt (fp_val.fin f) 1 then fp_val.fin 1 else fp_val.fin f)) =
      fp_val.fin (max 1 (min f 255)) := by
  by_cases h1 : f < 1
  · have e1 : fp_lt (fp_val.fin f) 1 = true := decide_eq_true h1
    have e2 : fp_gt (fp_val.fin 1) 255 = false :=
      decide_eq_false (show ¬ (255 : ℚ) < 1 by norm_num)
    simp only [e1, e2, if_true, Bool.false_eq_true, if_false]
    rw [min_eq_left (by linarith), max_eq_left h1.le]
  · have e1 : fp_lt (fp_val.fin f) 1 = false := decide_eq_false h1
    by_cases h2 : 255 < f
    · have e2 : fp_gt (fp_val.fin f) 255 = true := decide_eq_true h2
      simp only [e1, e2, if_true, Bool.false_eq_true, if_false]
      rw [min_eq_right h2.le, max_eq_right (by norm_num)]
    · have e2 : fp_gt (fp_val.fin f) 255 = false := decide_eq_false h2
      simp only [e1, e2, if_true, Bool.false_eq_true, if_false]
      rw [min_eq_left (not_lt.mp h2), max_eq_right (not_lt.mp h1)]

theorem round_clamp_range (f : ℚ) :
    1 ≤ round_half_away (max 1 (min f 255)) ∧ round_half_away (max 1 (min f 255)) ≤ 255 := by
  have hb := round_half_away_bounds (max 1 (min f 255) : ℚ) 1 255
  exact ⟨hb.1 (by push_cast; exact le_max_left _ _),
    hb.2 (by push_cast; exact max_le (by norm_num) (min_le_right _ _))⟩

/-- The value `pack_dt_ms` returns when the product is finite: the product
limited to `1..255`, rounded. -/
theorem pack_dt_ms_fin (dt : fp_val) (f : ℚ) (h : f64_mul dt 1000 = fp_val.fin f) :
    (pack_dt_ms dt : Int) = round_half_away (max 1 (min f 255)) := by
  obtain ⟨r1, r2⟩ := round_clamp_range f
  unfold pack_dt_ms
  simp only []
  rw [h, pack_ms_fin, lround_fin _ ⟨by omega, by omega⟩]
  unfold wrap_u8
  omega

/-- The value `pack_dt_ms` returns when the product is infinite. -/
theorem pack_dt_ms_inf (dt : fp_val) (s : Bool) (h : f64_mul dt 1000 = fp_val.inf s) :
    pack_dt_ms dt = if s then 1 else 255 := by
  have e1 : lround (fp_val.fin 1) = 1 := by
    have h := lround_int 1 ⟨by norm_num, by norm_num⟩
    push_cast at h
    exact h
  have e2 : lround (fp_val.fin 255) = 255 := by
    have h := lround_int 255 ⟨by norm_num, by norm_num⟩
    push_cast at h
    exact h
  unfold pack_dt_ms
  simp only []
  rw [h]
  cases s
  · show wrap_u8 (lround (if fp_gt (fp_val.fin 255) 255 then fp_val.fin 255 else fp_val.fin 255)) = 255
    rw [ite_self, e2]
    rfl
  · have e3 : fp_gt (fp_val.fin 1) 255 = false :=
      decide_eq_false (show ¬ (255 : ℚ) < 1 by norm_num)
    show wrap_u8 (lround (if fp_gt (fp_val.fin 1) 255 then fp_val.fin 255 else fp_val.fin 1)) = 1
    simp only [e3, Bool.false_eq_true, if_false]
    rw [e1]
    rfl

theorem pack_dt_ms_nan : pack_dt_ms fp_val.nan = 0 := rfl

/-- Every product of a value that is not a NaN is finite or infinite. -/
theorem f64_mul_not_nan (dt : fp_val) (c : ℚ) (h : dt ≠ fp_val.nan) :
    (∃ f, f64_mul dt c = fp_val.fin f) ∨ ∃ s, f64_mul dt c = fp_val.inf s := by
  cases dt with
  | fin v =>
    rcases f64_mul_cases v c with h1 | h1
    · exact Or.inl ⟨_, h1⟩
    · exact Or.inr ⟨_, h1⟩
  | inf s => exact Or.inr ⟨s, rfl⟩
  | nan => exact absurd rfl h

/-- A time step that is not a NaN is packed to `1..255`. -/
theorem pack_dt_ms_bounds (dt : fp_val) (h : dt ≠ fp_val.nan) :
    1 ≤ pack_dt_ms dt ∧ pack_dt_ms dt ≤ 255 := by
  rcases f64_mul_not_nan dt 1000 h with ⟨f, hf⟩ | ⟨s, hs⟩
  · have e := pack_dt_ms_fin dt f hf
    obtain ⟨r1, r2⟩ := round_clamp_range f
    omega
  · rw [pack_dt_ms_inf dt s hs]
    cases s
    · exact ⟨by decide, by decide⟩
    · exact ⟨by decide, by decide⟩

/-- Limiting to `1..255` does not increase a distance. -/
theorem clamp_ms_near (f y : ℚ) (h1 : y - 1 / 4 ≤ f) (h2 : f ≤ y + 1 / 4) :
    max 1 (min y 255) - 1 / 4 ≤ max 1 (min f 255) ∧
      max 1 (min f 255) ≤ max 1 (min y 255) + 1 / 4 := by
  simp only [max_def, min_def]
  split_ifs <;> constructor <;> linarith

/-- A time step whose exact number of milliseconds is `2 ^ 52` or more in
magnitude is packed to the nearer limit. -/
theorem pack_dt_ms_big (v : ℚ) :
    (2 ^ 52 ≤ v * 1000 → pack_dt_ms (fp_val.fin v) = 255) ∧
      (v * 1000 ≤ -2 ^ 52 → pack_dt_ms (fp_val.fin v) = 1) := by
  have r255 : round_half_away (255 : ℚ) = 255 := by
    have h := round_half_away_int (α := ℚ) 255
    push_cast at h
    exact h
  have r1 : round_half_away (1 : ℚ) = 1 := by
    have h := round_half_away_int (α := ℚ) 1
    push_cast at h
    exact h
  constructor
  · intro h
    rcases f64_mul_cases v 1000 with h1 | h1
    · have g := (fl_round_ge_pow 53 (-1022) (v * 1000) 52 (by norm_num) (by norm_num)).1
        (by norm_num at h ⊢; exact h)
      norm_num at g
      have e := pack_dt_ms_fin _ _ h1
      rw [min_eq_right (by linarith), max_eq_right (by norm_num), r255] at e
      omega
    · rw [pack_dt_ms_inf _ _ h1, decide_eq_false (by linarith)]
      rfl
  · intro h
    rcases f64_mul_cases v 1000 with h1 | h1
    · have g := (fl_round_ge_pow 53 (-1022) (v * 1000) 52 (by norm_num) (by norm_num)).2
        (by norm_num at h ⊢; exact h)
      norm_num at g
      have e := pack_dt_ms_fin _ _ h1
      rw [min_eq_left (by linarith), max_eq_left (by linarith), r1] at e
      omega
    · rw [pack_dt_ms_inf _ _ h1, decide_eq_true (by linarith)]
      rfl

theorem round_clamp_big (y : ℚ) :
    (255 ≤ y → round_half_away (max 1 (min y 255)) = 255) ∧
      (y ≤ 1 → round_half_away (max 1 (min y 255)) = 1) := by
  constructor
  · intro h
    rw [min_eq_right h, max_eq_right (by norm_num)]
    have h := round_half_away_int (α := ℚ) 255
    push_cast at h
    exact h
  · intro h
    rw [min_eq_left (by linarith), max_eq_left h]
    have h := round_half_away_int (α := ℚ) 1
    push_cast at h
    exact h

/-- The packed time step of every finite `dt` against the exact formula. -/
theorem pack_dt_ms_near (v : ℚ) :
    |(pack_dt_ms (fp_val.fin v) : Int) - round_half_away (max 1 (min (v * 1000) 255))| ≤ 1 ∧
      (fl_round 53 (-1022) (v * 1000) = v * 1000 →
        (pack_dt_ms (fp_val.fin v) : Int) = round_half_away (max 1 (min (v * 1000) 255))) := by
  by_cases hs : |v * 1000| < 2 ^ 52
  · have hf := f64_mul_fin v 1000 hs
    have e := pack_dt_ms_fin _ _ hf
    obtain ⟨n1, n2⟩ := (fl_round_near 53 (-1022) (v * 1000) (by norm_num) (by norm_num) hs).1
    obtain ⟨c1, c2⟩ := clamp_ms_near _ _ n1 n2
    constructor
    · rw [e]
      obtain ⟨r1, r2⟩ := round_half_away_near (max 1 (min (fl_round 53 (-1022) (v * 1000)) 255))
      obtain ⟨s1, s2⟩ := round_half_away_near (max 1 (min (v * 1000) 255))
      generalize round_half_away (max 1 (min (fl_round 53 (-1022) (v * 1000)) 255)) = a at r1 r2
      generalize round_half_away (max 1 (min (v * 1000) 255)) = b at s1 s2
      have a1 : ((a - b : Int) : ℚ) < ((2 : Int) : ℚ) := by
        push_cast
        linarith
      have a2 : ((-2 : Int) : ℚ) < ((a - b : Int) : ℚ) := by
        push_cast
        linarith
      have b1 := Int.cast_lt.mp a1
      have b2 := Int.cast_lt.mp a2
      rw [abs_le]
      omega
    · intro he
      rw [e, he]
  · rw [not_lt, le_abs] at hs
    rcases hs with hs | hs
    · have e1 := (pack_dt_ms_big v).1 hs
      have e2 := (round_clamp_big (v * 1000)).1 (by linarith)
      rw [e1, e2]
      exact ⟨by decide, fun _ => rfl⟩
    · have e1 := (pack_dt_ms_big v).2 (by linarith)
      have e2 := (round_clamp_big (v * 1000)).2 (by linarith)
      rw [e1, e2]
      exact ⟨by decide, fun _ => rfl⟩

/-- The time step of the loop is never a NaN unless `dt_fixed_s` is. -/
theorem plant_loop_dt_not_nan (d : fp_val) (h : d ≠ fp_val.nan) :
    plant_loop_dt d ≠ fp_val.nan := by
  unfold plant_loop_dt
  simp only []
  split_ifs <;> first | exact h | exact fp_val.noConfusion

theorem main_set_dt_not_nan (d ms : fp_val) (h : d ≠ fp_val.nan) :
    main_set_dt d ms ≠ fp_val.nan := by
  unfold main_set_dt
  split_ifs with hc
  · cases ms with
    | fin m =>
      rcases f64_mul_cases m d_0001 with h1 | h1 <;> rw [h1] <;> exact fp_val.noConfusion
    | inf s => exact fp_val.noConfusion
    | nan => exact absurd hc (by decide)
  · exact h

/-- The variable `dt_fixed_s` of `main` is never a NaN. -/
theorem main_dt_fixed_s_not_nan (args : List fp_val) : main_dt_fixed_s args ≠ fp_val.nan := by
  have key : ∀ (l : List fp_val) (d : fp_val), d ≠ fp_val.nan →
      l.foldl main_set_dt d ≠ fp_val.nan := by
    intro l
    induction l with
    | nil => exact fun d h => h
    | cons a t ih => exact fun d h => ih _ (main_set_dt_not_nan d a h)
  exact key args _ fp_val.noConfusion

/-- The `double` product of the `double` nearest to 0.0045 and 1000 is 4.5,
above the exact product. -/
theorem f64_mul_00045 : f64_mul (fp_val.fin d_00045) 1000 = fp_val.fin (9 / 2) := by
  have h := f64_mul_eval d_00045 1000 2 5066549580791808 (by norm_num)
    (by rw [abs_of_nonneg (by norm_num [d_00045])]; norm_num [d_00045])
    (by rw [abs_of_nonneg (by norm_num [d_00045])]; norm_num [d_00045])
    (by norm_num [d_00045]) (by norm_num [d_00045])
    (by rw [abs_of_nonneg (by norm_num)]; norm_num)
  rw [h]
  norm_num

theorem pack_dt_ms_00045 : pack_dt_ms (fp_val.fin d_00045) = 5 := by
  have e := pack_dt_ms_fin _ _ f64_mul_00045
  have hr : round_half_away (max 1 (min (9 / 2 : ℚ) 255)) = 5 := by
    rw [min_eq_left (by norm_num), max_eq_right (by norm_num)]
    unfold round_half_away
    rw [if_pos (by norm_num), Int.floor_eq_iff]
    constructor <;> norm_num
  rw [hr] at e
  omega

/-- C35, in the form that holds of the code: `pack_dt_ms` returns a value in
`1..255`, never the reserved 0, for every `dt` that is not a NaN (for a NaN it returns 0), and the time step
of the loop of the plant is never a NaN, so every Feedback frame built by the
plant has a byte 7 in `1..255`, which the node stores as `dt_ms` and takes to
the non-idle path. For a finite `dt` whose `double` product `dt * 1000.0` is
finite, the result is `round(clamp(dt * 1000.0, 1, 255))` of that product; it
differs from `round(clamp(1000 dt, 1, 255))` of the exact product by at most
one, and not at all when the exact product is itself a `double`. The `double`
nearest to 0.0004 gives 1, the one nearest to 0.010 gives 10, and 1.0 gives
255. -/
theorem pack_dt_ms_range (dt : fp_val) :
    (dt ≠ fp_val.nan → 1 ≤ pack_dt_ms dt ∧ pack_dt_ms dt ≤ 255 ∧
        ∀ (g : nodeb_ctx) (cf : can_frame), cf.byte 7 = pack_dt_ms dt →
          (feedback_ctx g cf).dt_ms = pack_dt_ms dt ∧ nonidle (feedback_ctx g cf)) ∧
      (∀ f : ℚ, f64_mul dt 1000 = fp_val.fin f →
        (pack_dt_ms dt : Int) = round_half_away (max 1 (min f 255))) ∧
      (∀ v : ℚ, dt = fp_val.fin v →
        |(pack_dt_ms dt : Int) - round_half_away (max 1 (min (v * 1000) 255))| ≤ 1 ∧
        (fl_round 53 (-1022) (v * 1000) = v * 1000 →
          (pack_dt_ms dt : Int) = round_half_away (max 1 (min (v * 1000) 255)))) ∧
      (∀ args : List fp_val,
        1 ≤ pack_dt_ms (plant_loop_dt (main_dt_fixed_s args)) ∧
        pack_dt_ms (plant_loop_dt (main_dt_fixed_s args)) ≤ 255) ∧
      pack_dt_ms fp_val.nan = 0 ∧
      pack_dt_ms (fp_val.fin d_00004) = 1 ∧ pack_dt_ms (fp_val.fin d_0010) = 10 ∧
      pack_dt_ms (fp_val.fin 1) = 255 := by
  refine ⟨?_, fun f hf => pack_dt_ms_fin dt f hf, ?_, ?_, pack_dt_ms_nan, ?_, ?_, ?_⟩
  · intro h
    obtain ⟨b1, b2⟩ := pack_dt_ms_bounds dt h
    refine ⟨b1, b2, ?_⟩
    intro g cf h7
    have hd : (feedback_ctx g cf).dt_ms = (if cf.byte 7 ≠ 0 then cf.byte 7 else 1) := rfl
    have hne : cf.byte 7 ≠ 0 := by rw [h7]; omega
    rw [if_pos hne, h7] at hd
    exact ⟨hd, rfl, by rw [hd]; omega⟩
  · intro v hv
    subst hv
    exact pack_dt_ms_near v
  · intro args
    exact pack_dt_ms_bounds _ (plant_loop_dt_not_nan _ (main_dt_fixed_s_not_nan args))
  · have hs : |d_00004 * 1000| < 2 ^ 52 := by
      rw [abs_of_nonneg (by norm_num [d_00004])]
      norm_num [d_00004]
    obtain ⟨n1, n2⟩ := (fl_round_near 53 (-1022) _ (by norm_num) (by norm_num) hs).1
    have e := pack_dt_ms_fin _ _ (f64_mul_fin d_00004 1000 hs)
    generalize fl_round 53 (-1022) (d_00004 * 1000) = f at n1 n2 e
    norm_num [d_00004] at n2
    rw [(round_clamp_big _).2 (by linarith)] at e
    omega
  · have hs : |d_0010 * 1000| < 2 ^ 52 := by
      rw [abs_of_nonneg (by norm_num [d_0010])]
      norm_num [d_0010]
    obtain ⟨n1, n2⟩ := (fl_round_near 53 (-1022) _ (by norm_num) (by norm_num) hs).1
    have e := pack_dt_ms_fin _ _ (f64_mul_fin d_0010 1000 hs)
    generalize fl_round 53 (-1022) (d_0010 * 1000) = f at n1 n2 e
    norm_num [d_0010] at n1 n2
    rw [min_eq_left (by linarith), max_eq_right (by linarith),
      round_half_away_eq _ 10 (by push_cast; linarith) (by push_cast; linarith)] at e
    omega
  · have hs : |(1 : ℚ) * 1000| < 2 ^ 52 := by
      rw [abs_of_nonneg (by norm_num)]
      norm_num
    obtain ⟨n1, n2⟩ := (fl_round_near 53 (-1022) _ (by norm_num) (by norm_num) hs).1
    have e := pack_dt_ms_fin _ _ (f64_mul_fin 1 1000 hs)
    generalize fl_round 53 (-1022) (1 * 1000) = f at n1 n2 e
    rw [(round_clamp_big _).1 (by linarith)] at e
    omega

theorem pack_dt_ms_range_witness :
    fp_val.fin d_0010 ≠ fp_val.nan ∧ frame_A.byte 7 = pack_dt_ms (fp_val.fin d_0010) ∧
      (feedback_ctx nodeb_init frame_A).dt_ms = 10 ∧ nonidle (feedback_ctx nodeb_init frame_A) ∧
      |(pack_dt_ms (fp_val.fin d_00045) : Int)
        - round_half_away (max 1 (min (d_00045 * 1000) 255))| ≤ 1 := by
  have e : pack_dt_ms (fp_val.fin d_0010) = 10 := (pack_dt_ms_range fp_val.nan).2.2.2.2.2.2.1
  have h7 : frame_A.byte 7 = pack_dt_ms (fp_val.fin d_0010) := by
    rw [e]
    decide
  obtain ⟨h1, h2⟩ := ((pack_dt_ms_range (fp_val.fin d_0010)).1 fp_val.noConfusion).2.2
    nodeb_init frame_A h7
  rw [e] at h1
  exact ⟨fp_val.noConfusion, h7, h1, h2,
    ((pack_dt_ms_range (fp_val.fin d_00045)).2.2.1 d_00045 rfl).1⟩

/-- The `double` nearest to 0.0045 is a `double`: rounding leaves it
unchanged. -/
theorem f64_00045_exact : fl_round 53 (-1022) d_00045 = d_00045 := by
  have h := fl_round_eq 53 (-1022) d_00045 (-8) 5188146770730811 (by norm_num)
    (by rw [abs_of_nonneg (by norm_num [d_00045])]; norm_num [d_00045])
    (by rw [abs_of_nonneg (by norm_num [d_00045])]; norm_num [d_00045])
    (round_half_even_eq _ _ (by norm_num [d_00045]) (by norm_num [d_00045]))
  rw [h]
  norm_num [d_00045]

/-- C35 does not hold as stated at the `double` nearest to 0.0045
(`5188146770730811 / 2 ^ 60`): the exact product with 1000 is just below 4.5,
so `round(clamp(1000 dt, 1, 255))` is 4, but the `double` product is 4.5 and
`pack_dt_ms` returns 5. -/
theorem pack_dt_ms_range_counterexample :
    d_00045 = 5188146770730811 / 2 ^ 60 ∧ fl_round 53 (-1022) d_00045 = d_00045 ∧
      pack_dt_ms (fp_val.fin d_00045) = 5 ∧
      round_half_away (max 1 (min (d_00045 * 1000) 255)) = 4 := by
  refine ⟨by norm_num [d_00045], f64_00045_exact, pack_dt_ms_00045, ?_⟩
  rw [min_eq_left (by norm_num [d_00045]), max_eq_right (by norm_num [d_00045])]
  exact round_half_away_eq _ 4 (by norm_num [d_00045]) (by norm_num [d_00045])

/-! ## The derivative filter -/

end NodeB
